import Mathlib

/-!
# Battleship (`src/main.c`): board, fleet placement, shots and the round loop

A shallow embedding of the C program.  The two-dimensional array
`points[NUMBER_OF_COLUMNS][NUMBER_OF_ROWS]` is a total function on `Fin 20 × Fin 20`;
every C subscript is an `int`, so every read and write goes through `cell_index`, which
yields `none` for a subscript outside the array (undefined behaviour in C).  The pointers
stored in `boats[k][i]` are addresses of cells of the same board and are modelled by the
cell's coordinates; `none` stands for a pointer that was never written.
-/

namespace Battleship

/-! ## Constants (`#define`s of `main.c`) -/

abbrev NUMBER_OF_COLUMNS : Nat := 20
abbrev NUMBER_OF_ROWS : Nat := 20
abbrev BOAT_SIZE : Nat := 5
abbrev MAX_BOATS_PER_PLAYER : Nat := 3
abbrev MAX_SHOOTS_PER_PLAYER : Nat := 30

/-! ## Data model -/

inductive boat_orientation_t where
  | VERTICAL
  | HORIZONTAL
  deriving DecidableEq, Repr

open boat_orientation_t

structure point_t where
  is_shot : Bool
  has_boat : Bool
  deriving DecidableEq, Repr

/-- The address `&board->points[x][y]` of a cell of the board, as its two subscripts. -/
abbrev cell_t := Fin NUMBER_OF_COLUMNS × Fin NUMBER_OF_ROWS

structure board_t where
  points : Fin NUMBER_OF_COLUMNS → Fin NUMBER_OF_ROWS → point_t
  boats : Fin MAX_BOATS_PER_PLAYER → Fin BOAT_SIZE → Option cell_t
  boats_count : Nat

/-- The subscripts `[x][y]` of `points`, when both are inside the array. -/
def cell_index (x y : Int) : Option cell_t :=
  if h : 0 ≤ x ∧ x < (NUMBER_OF_COLUMNS : Nat) ∧ 0 ≤ y ∧ y < (NUMBER_OF_ROWS : Nat) then
    some (⟨x.toNat, (Int.toNat_lt h.1).2 h.2.1⟩, ⟨y.toNat, (Int.toNat_lt h.2.2.1).2 h.2.2.2⟩)
  else none

/-- The read `board->points[x][y]`. -/
def point_at (board : board_t) (x y : Int) : Option point_t :=
  (cell_index x y).map (fun c => board.points c.1 c.2)

/-- The board with the cell `c` replaced by `p`. -/
def set_point (board : board_t) (c : cell_t) (p : point_t) : board_t :=
  ⟨fun i j => if i = c.1 ∧ j = c.2 then p else board.points i j, board.boats,
    board.boats_count⟩

/-- The point after the assignment `.has_boat = true`. -/
def with_boat (p : point_t) : point_t := ⟨p.is_shot, true⟩

/-- The point after the assignment `.is_shot = true`. -/
def with_shot (p : point_t) : point_t := ⟨true, p.has_boat⟩

/-- The board with slot `[k][i]` of the pointer table `boats` pointing at the cell `c`. -/
def write_boat (board : board_t) (k i : Nat) (c : cell_t) : board_t :=
  ⟨board.points,
    fun k' i' => if k'.val = k ∧ i'.val = i then some c else board.boats k' i',
    board.boats_count⟩

/-- The write `board->boats[k][i] = c`; `none` when a subscript is outside the array. -/
def set_boat (board : board_t) (k i : Nat) (c : cell_t) : Option board_t :=
  if k < MAX_BOATS_PER_PLAYER ∧ i < BOAT_SIZE then some (write_boat board k i c) else none

/-- The board after `board->boats_count++`. -/
def count_boat (board : board_t) : board_t :=
  ⟨board.points, board.boats, board.boats_count + 1⟩

/-! ## `initialize_board`, `shoot` -/

/-- Source: `initialize_board`.  Every cell is reset and `boats_count` is zeroed; the
pointer table `boats` is not touched. -/
def initialize_board (board : board_t) : board_t :=
  ⟨fun _ _ => { is_shot := false, has_boat := false }, board.boats, 0⟩

/-- Source: `shoot`.  Returns the boolean result and the board after the call. -/
def shoot (board : board_t) (x y : Int) : Option (Bool × board_t) :=
  match cell_index x y with
  | none => none
  | some c =>
    if (board.points c.1 c.2).is_shot then
      some (false, board)
    else
      some (true, set_point board c (with_shot (board.points c.1 c.2)))

/-! ## `can_place_boat`, `place_boat` -/

/-- The loop `for (i = ...; i < BOAT_SIZE; i++) if (points[..][..].has_boat) return false;`
of `can_place_boat`, with `n` iterations left, the cell of iteration `i` being `run i`. -/
def can_place_loop (board : board_t) (run : Nat → Int × Int) : Nat → Nat → Option Bool
  | 0, _ => some true
  | n + 1, i =>
    match point_at board (run i).1 (run i).2 with
    | none => none
    | some p => if p.has_boat then some false else can_place_loop board run n (i + 1)

/-- Source: `can_place_boat`.  The function only reads the board. -/
def can_place_boat (board : board_t) (x y : Int) (orientation : boat_orientation_t) :
    Option Bool :=
  if orientation = VERTICAL then
    if y + BOAT_SIZE > NUMBER_OF_ROWS then some false
    else can_place_loop board (fun i => (x, y + i)) BOAT_SIZE 0
  else
    if x + BOAT_SIZE > NUMBER_OF_COLUMNS then some false
    else can_place_loop board (fun i => (x + i, y)) BOAT_SIZE 0

/-- The loop of `place_boat`: iteration `i` sets `has_boat` of the cell `run i` and stores
the cell's address in `boats[boats_count][i]`. -/
def place_loop (run : Nat → Int × Int) : Nat → Nat → board_t → Option board_t
  | 0, _, board => some board
  | n + 1, i, board =>
    match cell_index (run i).1 (run i).2 with
    | none => none
    | some c =>
      match set_boat (set_point board c (with_boat (board.points c.1 c.2)))
          board.boats_count i c with
      | none => none
      | some board' => place_loop run n (i + 1) board'

/-- Source: `place_boat`.  Returns the boolean result and the board after the call. -/
def place_boat (board : board_t) (x y : Int) (orientation : boat_orientation_t) :
    Option (Bool × board_t) :=
  match can_place_boat board x y orientation with
  | none => none
  | some false => some (false, board)
  | some true =>
    match (if orientation = VERTICAL then
            place_loop (fun i => (x, y + i)) BOAT_SIZE 0 board
          else
            place_loop (fun i => (x + i, y)) BOAT_SIZE 0 board) with
    | none => none
    | some board' => some (true, count_boat board')

/-! ## Players and the game

The counters `shoots`, `missed_shots`, `boats_pieces_sunk` and `wins` are `size_t` in the
source.  A round ends as soon as `shoots` reaches `MAX_SHOOTS_PER_PLAYER`, and `wins` grows
by one per round played, so no run of the program brings a counter near `SIZE_MAX`; they
are natural numbers here, and `shoot_and_print_result` below adds 1 to them.  For the
contract of that function on every input, `shoot_and_print_result_size_t` further down has
the machine increment, which wraps to 0 at `SIZE_MAX`; the two agree wherever the
shooter's counters are below `SIZE_MAX`.  The two pointers of `game_t` only ever hold the
addresses of `game.player1` and `game.player2`, which is what `player_ref` stands for. -/

structure player_t where
  name : String
  shoots : Nat
  missed_shots : Nat
  boats_pieces_sunk : Nat
  wins : Nat
  board : board_t

/-- The address of one of the two `player_t` objects of the game. -/
inductive player_ref where
  | player1
  | player2
  deriving DecidableEq, Repr

structure game_t where
  shooting_player : player_ref
  target_player : player_ref
  player1 : player_t
  player2 : player_t
  is_game_over : Bool
  play_again : Bool

/-- The player a pointer points at (`*player`). -/
def game_t.deref (game : game_t) : player_ref → player_t
  | player_ref.player1 => game.player1
  | player_ref.player2 => game.player2

/-- The game after a store through a player pointer. -/
def game_t.assign (game : game_t) (ref : player_ref) (p : player_t) : game_t :=
  match ref with
  | player_ref.player1 => { game with player1 := p }
  | player_ref.player2 => { game with player2 := p }

/-- The player with its board replaced. -/
def player_t.set_board (p : player_t) (board : board_t) : player_t := { p with board := board }

/-- The player after `++player->boats_pieces_sunk`. -/
def player_t.inc_boats_pieces_sunk (p : player_t) : player_t :=
  { p with boats_pieces_sunk := p.boats_pieces_sunk + 1 }

/-- The player after `++player->missed_shots`. -/
def player_t.inc_missed_shots (p : player_t) : player_t :=
  { p with missed_shots := p.missed_shots + 1 }

/-- The player after `++player->shoots`. -/
def player_t.inc_shoots (p : player_t) : player_t := { p with shoots := p.shoots + 1 }

/-- The player after `++player->wins`. -/
def player_t.inc_wins (p : player_t) : player_t := { p with wins := p.wins + 1 }

/-- Source: `initialize_player`.  `name` and `wins` are not written. -/
def initialize_player (player : player_t) : player_t :=
  { player with
    shoots := 0
    missed_shots := 0
    boats_pieces_sunk := 0
    board := initialize_board player.board }

/-- Source: `shoot_and_print_result`, called with two player pointers.  Console output is
not part of the state.  An already shot cell makes the function return before any counter
is touched. -/
def shoot_and_print_result (game : game_t) (shooting_player target_player : player_ref)
    (x y : Int) : Option game_t :=
  match shoot (game.deref target_player).board x y with
  | none => none
  | some (false, board) =>
    some (game.assign target_player ((game.deref target_player).set_board board))
  | some (true, board) =>
    let game₁ := game.assign target_player ((game.deref target_player).set_board board)
    match point_at (game₁.deref target_player).board x y with
    | none => none
    | some p =>
      let game₂ :=
        if p.has_boat then
          game₁.assign shooting_player (game₁.deref shooting_player).inc_boats_pieces_sunk
        else
          game₁.assign shooting_player (game₁.deref shooting_player).inc_missed_shots
      some (game₂.assign shooting_player (game₂.deref shooting_player).inc_shoots)

/-- The largest value of a `size_t` of 64 bits. -/
abbrev SIZE_MAX : Nat := 18446744073709551615

/-- The value of a `size_t` after `++`: one more, and 0 after `SIZE_MAX`. -/
def size_t_succ (n : Nat) : Nat := (n + 1) % (SIZE_MAX + 1)

/-- The player after `++player->boats_pieces_sunk` on the `size_t` field. -/
def player_t.inc_boats_pieces_sunk_size_t (p : player_t) : player_t :=
  { p with boats_pieces_sunk := size_t_succ p.boats_pieces_sunk }

/-- The player after `++player->missed_shots` on the `size_t` field. -/
def player_t.inc_missed_shots_size_t (p : player_t) : player_t :=
  { p with missed_shots := size_t_succ p.missed_shots }

/-- The player after `++player->shoots` on the `size_t` field. -/
def player_t.inc_shoots_size_t (p : player_t) : player_t :=
  { p with shoots := size_t_succ p.shoots }

/-- Source: `shoot_and_print_result`, statement by statement as above, with each `++` the
increment of a `size_t`.  This is the function on every input, a counter at `SIZE_MAX`
included. -/
def shoot_and_print_result_size_t (game : game_t) (shooting_player target_player : player_ref)
    (x y : Int) : Option game_t :=
  match shoot (game.deref target_player).board x y with
  | none => none
  | some (false, board) =>
    some (game.assign target_player ((game.deref target_player).set_board board))
  | some (true, board) =>
    let game₁ := game.assign target_player ((game.deref target_player).set_board board)
    match point_at (game₁.deref target_player).board x y with
    | none => none
    | some p =>
      let game₂ :=
        if p.has_boat then
          game₁.assign shooting_player
            (game₁.deref shooting_player).inc_boats_pieces_sunk_size_t
        else
          game₁.assign shooting_player (game₁.deref shooting_player).inc_missed_shots_size_t
      some (game₂.assign shooting_player (game₂.deref shooting_player).inc_shoots_size_t)

/-- Source: `swap_players`. -/
def swap_players (game : game_t) : game_t :=
  { game with target_player := game.shooting_player, shooting_player := game.target_player }

/-- Source: `new_game`. -/
def new_game (game : game_t) : game_t :=
  { shooting_player := player_ref.player2
    target_player := player_ref.player1
    player1 := initialize_player game.player1
    player2 := initialize_player game.player2
    is_game_over := false
    play_again := true }

/-- The inner loop `for (j = 0; j < BOAT_SIZE; ++j)` of `boats_sunk` for ship `i`: it
follows the pointers `boats[i][j]` in turn and stops at the first cell that is not shot.
Following a pointer that was never written has no defined result. -/
def is_boat_sunk (board : board_t) (i : Fin MAX_BOATS_PER_PLAYER) :
    List (Fin BOAT_SIZE) → Option Bool
  | [] => some true
  | j :: rest =>
    match board.boats i j with
    | none => none
    | some c =>
      if (board.points c.1 c.2).is_shot then is_boat_sunk board i rest else some false

/-- The outer loop `for (i = 0; i < MAX_BOATS_PER_PLAYER; ++i)` of `boats_sunk`, with the
running count. -/
def boats_sunk_loop (board : board_t) : List (Fin MAX_BOATS_PER_PLAYER) → Nat → Option Nat
  | [], boats_sunk => some boats_sunk
  | i :: rest, boats_sunk =>
    match is_boat_sunk board i (List.finRange BOAT_SIZE) with
    | none => none
    | some true => boats_sunk_loop board rest (boats_sunk + 1)
    | some false => boats_sunk_loop board rest boats_sunk

/-- Source: `boats_sunk`, for the player a pointer points at.  The function only reads. -/
def boats_sunk (game : game_t) (target_player : player_ref) : Option Nat :=
  boats_sunk_loop (game.deref target_player).board (List.finRange MAX_BOATS_PER_PLAYER) 0

/-- The game after `game.is_game_over = true`. -/
def game_t.set_game_over (game : game_t) : game_t := { game with is_game_over := true }

/-- What one pass through the body of the round loop prints after the shot. -/
inductive round_event where
  | won
  | lost
  | no_result
  deriving DecidableEq, Repr

/-- One pass through the body of `while (!game.is_game_over)` in `main`, for the shot
coordinates `(x, y)` read by `ask_shoot_coordinates`. -/
def round_step (game : game_t) (x y : Int) : Option (round_event × game_t) :=
  match shoot_and_print_result game game.shooting_player game.target_player x y with
  | none => none
  | some game₁ =>
    if (game₁.deref game₁.shooting_player).boats_pieces_sunk
        ≥ MAX_BOATS_PER_PLAYER * BOAT_SIZE then
      some (round_event.won,
        (game₁.assign game₁.shooting_player
          (game₁.deref game₁.shooting_player).inc_wins).set_game_over)
    else if (game₁.deref game₁.shooting_player).shoots ≥ MAX_SHOOTS_PER_PLAYER then
      some (round_event.lost,
        (game₁.assign game₁.target_player
          (game₁.deref game₁.target_player).inc_wins).set_game_over)
    else some (round_event.no_result, game₁)

/-- The loop `while (!game.is_game_over)` of `main` run on a finite list of shot
coordinates: the state when the loop has ended or the list is used up. -/
def round_loop (game : game_t) : List (Int × Int) → Option game_t
  | [] => some game
  | (x, y) :: rest =>
    if game.is_game_over then some game
    else
      match round_step game x y with
      | none => none
      | some (_, game') => round_loop game' rest

/-- The loops of `ask_boats_positions` on one board: for each of the `n` ships still to
place, `place_boat` is repeated with the next input until it returns `true`.  `none` when
the inputs are used up first. -/
def ask_boats_loop : Nat → board_t → List (Int × Int × boat_orientation_t) → Option board_t
  | 0, board, _ => some board
  | _ + 1, _, [] => none
  | n + 1, board, (x, y, orientation) :: rest =>
    match place_boat board x y orientation with
    | none => none
    | some (true, board') => ask_boats_loop n board' rest
    | some (false, board') => ask_boats_loop (n + 1) board' rest

/-- Source: `ask_boats_positions`, for the player a pointer points at. -/
def ask_boats_positions (game : game_t) (player : player_ref)
    (inputs : List (Int × Int × boat_orientation_t)) : Option game_t :=
  match ask_boats_loop MAX_BOATS_PER_PLAYER (game.deref player).board inputs with
  | none => none
  | some board => some (game.assign player ((game.deref player).set_board board))

/-- The start of a round in `main`, up to the first shot: `new_game`, then for a replay
`swap_players`, then `ask_boats_positions (&game.target_player)`.  (Before the first round
`main` also zeroes both `wins` and reads the names; the countdown changes no state.) -/
def start_round (game : game_t) (replay : Bool)
    (inputs : List (Int × Int × boat_orientation_t)) : Option game_t :=
  let game₁ := if replay then swap_players (new_game game) else new_game game
  ask_boats_positions { game₁ with play_again := false } game₁.target_player inputs

/-! ## Specification vocabulary for runs of cells -/

/-- Cell number `i` of the run that starts at `(x, y)`: down in `y` for `VERTICAL`, right
in `x` for `HORIZONTAL`. -/
def run_cell (x y : Int) (orientation : boat_orientation_t) (i : Nat) : Int × Int :=
  match orientation with
  | VERTICAL => (x, y + i)
  | HORIZONTAL => (x + i, y)

/-- The coordinate pair lies inside `[0,20) × [0,20)`. -/
def inside (p : Int × Int) : Prop :=
  0 ≤ p.1 ∧ p.1 < (NUMBER_OF_COLUMNS : Nat) ∧ 0 ≤ p.2 ∧ p.2 < (NUMBER_OF_ROWS : Nat)

instance (p : Int × Int) : Decidable (inside p) := by
  unfold inside; infer_instance

/-- The cell `c` is one of the `BOAT_SIZE` cells of the run that starts at `(x, y)`. -/
def in_run (x y : Int) (orientation : boat_orientation_t) (c : cell_t) : Prop :=
  ∃ i, i < BOAT_SIZE ∧ run_cell x y orientation i = ((c.1.val : Int), (c.2.val : Int))

instance (x y : Int) (orientation : boat_orientation_t) (c : cell_t) :
    Decidable (in_run x y orientation c) := by
  unfold in_run; infer_instance

/-- A board with no boat, no shot and no recorded ship. -/
def empty_board : board_t :=
  { points := fun _ _ => { is_shot := false, has_boat := false }
    boats := fun _ _ => none
    boats_count := 0 }

/-- The board with one ship lying on the cells `(0,0) .. (4,0)`, nothing shot. -/
def one_boat_board : board_t :=
  { points := fun i j => { is_shot := false, has_boat := decide (i.val < 5 ∧ j.val = 0) }
    boats := fun k i => if k.val = 0 then some (Fin.castLE (by decide) i, 0) else none
    boats_count := 1 }

/-! ## Sequences of placements and the fleet invariant -/

/-- A sequence of `place_boat` calls on one board, each at `(x, y, orientation)`, whatever
each call returns; `none` as soon as one call has no defined result. -/
def place_boats (board : board_t) : List (Int × Int × boat_orientation_t) → Option board_t
  | [] => some board
  | (x, y, orientation) :: rest =>
    match place_boat board x y orientation with
    | none => none
    | some (_, board') => place_boats board' rest

/-- The start coordinates of a call are in range: `0 ≤ x < 20` and `0 ≤ y < 20`. -/
def in_range (call : Int × Int × boat_orientation_t) : Prop :=
  inside (call.1, call.2.1)

instance (call : Int × Int × boat_orientation_t) : Decidable (in_range call) := by
  unfold in_range; infer_instance

/-- The set of cells that the recorded ship `boats[k]` points at. -/
def ship_cells (board : board_t) (k : Fin MAX_BOATS_PER_PLAYER) : Finset cell_t :=
  Finset.univ.filter (fun c => ∃ i : Fin BOAT_SIZE, board.boats k i = some c)

/-- The recorded ship `boats[k]` is the run of `BOAT_SIZE` cells starting at `(x, y)`. -/
def ship_is_run (board : board_t) (k : Fin MAX_BOATS_PER_PLAYER) (x y : Int)
    (orientation : boat_orientation_t) : Prop :=
  (∀ i, i < BOAT_SIZE → inside (run_cell x y orientation i)) ∧
  ∀ i : Fin BOAT_SIZE, board.boats k i =
    cell_index (run_cell x y orientation i.val).1 (run_cell x y orientation i.val).2

/-- The invariant of a fleet: at most `MAX_BOATS_PER_PLAYER` ships are recorded, each
recorded ship is a run of cells inside the grid, the cells with `has_boat` are exactly the
cells of the recorded ships, and no cell belongs to two recorded ships. -/
def fleet_inv (board : board_t) : Prop :=
  board.boats_count ≤ MAX_BOATS_PER_PLAYER ∧
  (∀ k : Fin MAX_BOATS_PER_PLAYER, k.val < board.boats_count →
    ∃ x y orientation, ship_is_run board k x y orientation) ∧
  (∀ c : cell_t, (board.points c.1 c.2).has_boat = true ↔
    ∃ k : Fin MAX_BOATS_PER_PLAYER, k.val < board.boats_count ∧ c ∈ ship_cells board k) ∧
  (∀ k₁ k₂ : Fin MAX_BOATS_PER_PLAYER, k₁.val < board.boats_count →
    k₂.val < board.boats_count → k₁ ≠ k₂ →
    Disjoint (ship_cells board k₁) (ship_cells board k₂))

/-- Three ships placed side by side on rows `A`, `B`, `C` of a freshly initialised board. -/
def full_board : board_t :=
  (place_boats (initialize_board empty_board)
    [(0, 0, HORIZONTAL), (0, 1, HORIZONTAL), (0, 2, HORIZONTAL)]).getD empty_board

/-- Two ships on a freshly initialised board; the call in between is rejected because
its run crosses the first ship. -/
def two_boat_board : board_t :=
  (place_boats (initialize_board empty_board)
    [(0, 0, HORIZONTAL), (2, 0, VERTICAL), (7, 3, VERTICAL)]).getD empty_board

/-- A game in which player 2 shoots at player 1, who owns `board`; player 2 owns
`one_boat_board`. -/
def sample_game_on (board : board_t) : game_t :=
  { shooting_player := player_ref.player2
    target_player := player_ref.player1
    player1 := ⟨"A", 0, 0, 0, 0, board⟩
    player2 := ⟨"B", 0, 0, 0, 0, one_boat_board⟩
    is_game_over := false
    play_again := false }

/-- A game whose players both own `one_boat_board`, player 2 shooting at player 1. -/
def sample_game : game_t := sample_game_on one_boat_board

/-! ## Vocabulary for a round -/

/-- The cells of the board that have been shot. -/
def shot_cells (board : board_t) : Finset cell_t :=
  Finset.univ.filter (fun c => (board.points c.1 c.2).is_shot = true)

/-- The cells of the board that hold a piece of a ship. -/
def boat_cells (board : board_t) : Finset cell_t :=
  Finset.univ.filter (fun c => (board.points c.1 c.2).has_boat = true)

/-- The ship cells of the board that have been shot. -/
def hit_cells (board : board_t) : Finset cell_t :=
  Finset.univ.filter (fun c =>
    (board.points c.1 c.2).is_shot = true ∧ (board.points c.1 c.2).has_boat = true)

/-- The cell `c` is the last ship cell of the board still unshot: it holds a piece of a
ship, it is not shot, and every other ship cell is shot. -/
def last_ship_cell (board : board_t) (c : cell_t) : Prop :=
  (board.points c.1 c.2).has_boat = true ∧ (board.points c.1 c.2).is_shot = false ∧
  ∀ c' : cell_t, c' ≠ c → (board.points c'.1 c'.2).has_boat = true →
    (board.points c'.1 c'.2).is_shot = true

instance (board : board_t) (c : cell_t) : Decidable (last_ship_cell board c) := by
  unfold last_ship_cell; infer_instance

/-- The state in which the round loop is entered: shooter and target are different
players, the game is not over, the shooter's counters are zero, and the target's board is
an empty board on which `MAX_BOATS_PER_PLAYER` ships were placed, with no cell shot. -/
def round_start (game : game_t) : Prop :=
  game.shooting_player ≠ game.target_player ∧ game.is_game_over = false ∧
  (game.deref game.shooting_player).shoots = 0 ∧
  (game.deref game.shooting_player).missed_shots = 0 ∧
  (game.deref game.shooting_player).boats_pieces_sunk = 0 ∧
  fleet_inv (game.deref game.target_player).board ∧
  (game.deref game.target_player).board.boats_count = MAX_BOATS_PER_PLAYER ∧
  ∀ c : cell_t, ((game.deref game.target_player).board.points c.1 c.2).is_shot = false

/-- Shooter and target are different players, the target's fleet is complete, and the
shooter's counters count the cells shot on the target's board. -/
def round_counts (game : game_t) : Prop :=
  game.shooting_player ≠ game.target_player ∧
  fleet_inv (game.deref game.target_player).board ∧
  (game.deref game.target_player).board.boats_count = MAX_BOATS_PER_PLAYER ∧
  (game.deref game.shooting_player).boats_pieces_sunk
    = (hit_cells (game.deref game.target_player).board).card ∧
  (game.deref game.shooting_player).shoots
    = (shot_cells (game.deref game.target_player).board).card

/-- The invariant of the round loop: `round_counts`, and while the game is not over
neither the win nor the loss limit has been reached. -/
def round_inv (game : game_t) : Prop :=
  round_counts game ∧
  (game.is_game_over = false →
    (game.deref game.shooting_player).boats_pieces_sunk < MAX_BOATS_PER_PLAYER * BOAT_SIZE ∧
    (game.deref game.shooting_player).shoots < MAX_SHOOTS_PER_PLAYER)

/-- The in-range cells named by a list of shot coordinates. -/
def cells_of (shots : List (Int × Int)) : Finset cell_t :=
  (shots.filterMap (fun s => cell_index s.1 s.2)).toFinset

/-- The player after a fresh shot of theirs: the hit or the miss is counted, then the
shot. -/
def scored (p : player_t) (hit : Bool) : player_t :=
  if hit then p.inc_boats_pieces_sunk.inc_shoots else p.inc_missed_shots.inc_shoots

/-- The player after a fresh shot of theirs, with the `size_t` increments. -/
def scored_size_t (p : player_t) (hit : Bool) : player_t :=
  if hit then p.inc_boats_pieces_sunk_size_t.inc_shoots_size_t
  else p.inc_missed_shots_size_t.inc_shoots_size_t

/-- A game in which player 2, whose `shoots` and `missed_shots` are at `SIZE_MAX`, shoots
at player 1, who owns `one_boat_board`. -/
def saturated_game : game_t :=
  { shooting_player := player_ref.player2
    target_player := player_ref.player1
    player1 := ⟨"A", 0, 0, 0, 0, one_boat_board⟩
    player2 := ⟨"B", SIZE_MAX, SIZE_MAX, 0, 0, one_boat_board⟩
    is_game_over := false
    play_again := false }

/-- The game after a fresh shot of the shooting player at the cell `c` of the target's
board: the cell is marked shot and the shooter's counters are updated. -/
def after_fresh_shot (game : game_t) (c : cell_t) : game_t :=
  (game.assign game.target_player ((game.deref game.target_player).set_board
      (set_point (game.deref game.target_player).board c
        (with_shot ((game.deref game.target_player).board.points c.1 c.2))))).assign
    game.shooting_player
    (scored (game.deref game.shooting_player)
      ((game.deref game.target_player).board.points c.1 c.2).has_boat)

/-! ## Sunk ships, as the specification counts them -/

/-- A ship is sunk when every cell it references has `is_shot` set. -/
def ship_sunk (board : board_t) (k : Fin MAX_BOATS_PER_PLAYER) : Prop :=
  ∀ c ∈ ship_cells board k, (board.points c.1 c.2).is_shot = true

instance (board : board_t) (k : Fin MAX_BOATS_PER_PLAYER) : Decidable (ship_sunk board k) := by
  unfold ship_sunk; infer_instance

/-- The ships of the fleet (`boats[k]` with `k < boats_count`) that are sunk. -/
def sunk_ships (board : board_t) : Finset (Fin MAX_BOATS_PER_PLAYER) :=
  Finset.univ.filter (fun k => k.val < board.boats_count ∧ ship_sunk board k)

/-- A sequence of `shoot` calls on one board, whatever each call returns. -/
def shoot_cells (board : board_t) : List (Int × Int) → Option board_t
  | [] => some board
  | (x, y) :: rest =>
    match shoot board x y with
    | none => none
    | some (_, board') => shoot_cells board' rest

/-- The board `full_board` after the whole ship on row `B` and one cell of the ship on row
`A` have been shot. -/
def shot_board : board_t :=
  (shoot_cells full_board [(0, 1), (1, 1), (2, 1), (3, 1), (4, 1), (0, 0)]).getD empty_board

/-- A board in its second round: `full_board` is initialised again, two ships are placed
on rows `F` and `G`, and the five cells of row `C` where the third ship of the first round
lay are shot.  `boats[2]` still holds the pointers of the first round. -/
def replayed_board : board_t :=
  ((place_boats (initialize_board full_board) [(0, 5, HORIZONTAL), (0, 6, HORIZONTAL)]).bind
    (fun board => shoot_cells board [(0, 2), (1, 2), (2, 2), (3, 2), (4, 2)])).getD empty_board

/-! ## Sample rounds -/

/-- The state in which the first round's loop is entered when player 1 places ships on
rows `A`, `B`, `C` (the second input is rejected and asked again). -/
def first_round : game_t :=
  (start_round sample_game false
    [(0, 0, HORIZONTAL), (2, 0, VERTICAL), (0, 1, HORIZONTAL), (0, 2, HORIZONTAL)]).getD
    sample_game

/-- Shots that hit fourteen of the fifteen ship cells of `first_round`, with one repeated
shot and one miss among them. -/
def fourteen_hits : List (Int × Int) :=
  [(0, 0), (0, 0), (1, 0), (2, 0), (3, 0), (4, 0), (9, 9),
   (0, 1), (1, 1), (2, 1), (3, 1), (4, 1),
   (0, 2), (1, 2), (2, 2), (3, 2)]

/-- Thirty different cells of rows `E`, `F`, none of which holds a ship in `first_round`,
the last of them being `(9, 5)`. -/
def thirty_misses : List (Int × Int) :=
  (List.range 20).map (fun i => ((i : Int), (4 : Int))) ++
  (List.range 10).map (fun i => ((i : Int), (5 : Int)))

/-- The state of `first_round` after the first twenty-nine shots of `thirty_misses`. -/
def after_29_misses : game_t :=
  (round_loop first_round (thirty_misses.take 29)).getD first_round

/-! ## Counter consistency -/

/-- The opponent of a player. -/
def player_ref.other : player_ref → player_ref
  | player_ref.player1 => player_ref.player2
  | player_ref.player2 => player_ref.player1

/-- A sequence of `shoot_and_print_result` calls, each with its shooter, its target and
its coordinates; `none` as soon as one call has no defined result. -/
def shoot_steps (game : game_t) : List (player_ref × player_ref × Int × Int) → Option game_t
  | [] => some game
  | (shooting_player, target_player, x, y) :: rest =>
    match shoot_and_print_result game shooting_player target_player x y with
    | none => none
    | some game' => shoot_steps game' rest

/-- What `new_game` establishes and the placement of ships keeps: every counter of both
players is zero and no cell of either board is shot. -/
def fresh_counters (game : game_t) : Prop :=
  ∀ ref : player_ref,
    (game.deref ref).shoots = 0 ∧ (game.deref ref).missed_shots = 0 ∧
    (game.deref ref).boats_pieces_sunk = 0 ∧
    ∀ c : cell_t, ((game.deref ref).board.points c.1 c.2).is_shot = false

/-- Each player's `shoots` is the sum of `missed_shots` and `boats_pieces_sunk`, and
`boats_pieces_sunk` is the number of ship cells shot on the opponent's board. -/
def counters_consistent (game : game_t) : Prop :=
  ∀ ref : player_ref,
    (game.deref ref).shoots
      = (game.deref ref).missed_shots + (game.deref ref).boats_pieces_sunk ∧
    (game.deref ref).boats_pieces_sunk = (hit_cells (game.deref ref.other).board).card

/-- Shots of both players at each other's board, with one repeated shot. -/
def sample_steps : List (player_ref × player_ref × Int × Int) :=
  [(player_ref.player2, player_ref.player1, 0, 0),
   (player_ref.player1, player_ref.player2, 3, 3),
   (player_ref.player2, player_ref.player1, 0, 0),
   (player_ref.player2, player_ref.player1, 7, 7),
   (player_ref.player2, player_ref.player1, 4, 2)]

/-! ## `print_board` -/

/-- The symbol `print_board` prints for a cell: the `if` chain of its inner loop. -/
def cell_symbol (p : point_t) (show_boats : Bool) : Char :=
  if p.is_shot && p.has_boat then 'X'
  else if p.has_boat && show_boats then '>'
  else if !p.has_boat && p.is_shot then 'O'
  else '~'

/-- The text of `printf(" %2d ", n)` for a column number `n` below 100. -/
def column_label (n : Nat) : String :=
  " " ++ (if n < 10 then " " else "") ++ toString n ++ " "

/-- Source: `print_board`, as the text it writes: the line of column numbers, then one
line per row `i` with the row letter and the symbols of `points[j][i]`, `j = 0..19`. -/
def print_board (board : board_t) (show_boats : Bool) : String :=
  "  " ++
  String.join ((List.finRange NUMBER_OF_COLUMNS).map (fun i => column_label (i.val + 1))) ++
  "\n" ++
  String.join ((List.finRange NUMBER_OF_ROWS).map (fun i =>
    String.singleton (Char.ofNat (i.val + 65)) ++ "  " ++
    String.join ((List.finRange NUMBER_OF_COLUMNS).map (fun j =>
      " " ++ String.singleton (cell_symbol (board.points j i) show_boats) ++ "  ")) ++
    "\n"))

/-- The character of a printed text at the place where `print_board` writes the symbol of
the cell in row `i` (letter `A + i`) and column `j` (number `j + 1`).  The line of column
numbers takes 83 characters (two blanks, twenty labels of four, the line end); the line of
a row takes 84 (the letter, two blanks, twenty items of four, the line end); the symbol is
the second character of an item. -/
def printed_symbol (text : String) (i : Fin NUMBER_OF_ROWS) (j : Fin NUMBER_OF_COLUMNS) :
    Option Char :=
  text.data[87 + 84 * i.val + 4 * j.val]?

/-- The board shot like `shot_board`, with ships on rows `A` and `B` as there, but with
the third ship standing at `(10, 10)` downwards instead of lying on row `C`. -/
def other_fleet_board : board_t :=
  ((place_boats (initialize_board empty_board)
      [(0, 0, HORIZONTAL), (0, 1, HORIZONTAL), (10, 10, VERTICAL)]).bind
    (fun board =>
      shoot_cells board [(0, 1), (1, 1), (2, 1), (3, 1), (4, 1), (0, 0)])).getD empty_board

/-! ## A sample session of three rounds -/

/-- The inputs with which each player of the sample session places ships on rows `A`,
`B`, `C`. -/
def session_inputs : List (Int × Int × boat_orientation_t) :=
  [(0, 0, HORIZONTAL), (0, 1, HORIZONTAL), (0, 2, HORIZONTAL)]

/-- The end of the first round: player 2 hits the fifteenth ship cell. -/
def first_round_end : game_t :=
  (round_loop first_round (fourteen_hits ++ [(4, 2)])).getD first_round

/-- The state in which the loop of the second round is entered, after a replay. -/
def second_round : game_t :=
  (start_round first_round_end true session_inputs).getD first_round_end

/-- The end of the second round: the shooter misses thirty times. -/
def second_round_end : game_t :=
  (round_loop second_round thirty_misses).getD second_round

/-- The state in which the loop of the third round is entered, after a second replay. -/
def third_round : game_t :=
  (start_round second_round_end true session_inputs).getD second_round_end

/-! # Theorems -/

/-! ## Basic facts about subscripts -/

theorem cell_index_eq_some_iff (x y : Int) (c : cell_t) :
    cell_index x y = some c ↔ x = (c.1.val : Int) ∧ y = (c.2.val : Int) := by
  obtain ⟨⟨i, hi⟩, ⟨j, hj⟩⟩ := c
  unfold cell_index
  split
  · rename_i h
    simp only [Option.some.injEq, Prod.mk.injEq, Fin.mk.injEq]
    omega
  · rename_i h
    simp only [false_iff, reduceCtorEq]
    simp only [NUMBER_OF_COLUMNS, NUMBER_OF_ROWS] at h hi hj
    omega

theorem cell_index_isSome_iff (x y : Int) :
    (∃ c, cell_index x y = some c) ↔ inside (x, y) := by
  unfold cell_index inside
  split
  · rename_i h
    exact ⟨fun _ => h, fun _ => ⟨_, rfl⟩⟩
  · rename_i h
    constructor
    · rintro ⟨c, hc⟩
      cases hc
    · intro h'
      exact absurd h' h

theorem cell_index_cast (c : cell_t) : cell_index (c.1.val : Int) (c.2.val : Int) = some c :=
  (cell_index_eq_some_iff _ _ c).2 ⟨rfl, rfl⟩

theorem point_at_eq_some_iff (board : board_t) (x y : Int) (p : point_t) :
    point_at board x y = some p ↔ ∃ c, cell_index x y = some c ∧ board.points c.1 c.2 = p := by
  unfold point_at
  cases h : cell_index x y <;> simp

/-! ## `can_place_boat` -/

theorem can_place_loop_spec (board : board_t) (run : Nat → Int × Int) (n : Nat) :
    ∀ i : Nat, (∀ k, i ≤ k → k < i + n → inside (run k)) →
      ∃ r, can_place_loop board run n i = some r ∧
        (r = true ↔ ∀ k, i ≤ k → k < i + n →
          ∃ p, point_at board (run k).1 (run k).2 = some p ∧ p.has_boat = false) := by
  induction n with
  | zero =>
    intro i _
    refine ⟨true, rfl, ?_⟩
    simp only [true_iff]
    intro k h1 h2
    omega
  | succ n ih =>
    intro i hin
    obtain ⟨c, hc⟩ := (cell_index_isSome_iff _ _).2 (hin i (le_refl _) (by omega))
    have hp : point_at board (run i).1 (run i).2 = some (board.points c.1 c.2) := by
      simp [point_at, hc]
    obtain ⟨r, hr, hiff⟩ := ih (i + 1) (fun k h1 h2 => hin k (by omega) (by omega))
    simp only [can_place_loop, hp]
    by_cases hb : (board.points c.1 c.2).has_boat = true
    · refine ⟨false, by simp [hb], ?_⟩
      simp only [Bool.false_eq_true, false_iff]
      intro hall
      obtain ⟨p, hp', hfree⟩ := hall i (le_refl _) (by omega)
      rw [hp] at hp'
      cases hp'
      simp [hb] at hfree
    · refine ⟨r, by simp [hb, hr], ?_⟩
      rw [hiff]
      constructor
      · intro hall k h1 h2
        by_cases hk : k = i
        · subst hk
          exact ⟨_, hp, by simpa using hb⟩
        · exact hall k (by omega) (by omega)
      · intro hall k h1 h2
        exact hall k (by omega) (by omega)

theorem can_place_boat_spec (board : board_t) (x y : Int) (orientation : boat_orientation_t)
    (hx : 0 ≤ x ∧ x < (NUMBER_OF_COLUMNS : Nat)) (hy : 0 ≤ y ∧ y < (NUMBER_OF_ROWS : Nat)) :
    ∃ r, can_place_boat board x y orientation = some r ∧
      (r = true ↔ ∀ i, i < BOAT_SIZE →
        inside (run_cell x y orientation i) ∧
        ∃ p, point_at board (run_cell x y orientation i).1 (run_cell x y orientation i).2
              = some p ∧ p.has_boat = false) := by
  simp only [NUMBER_OF_COLUMNS, NUMBER_OF_ROWS, Nat.cast_ofNat] at hx hy
  cases orientation with
  | VERTICAL =>
    simp only [can_place_boat, if_true]
    by_cases hfit : y + (BOAT_SIZE : Nat) > (NUMBER_OF_ROWS : Nat)
    · refine ⟨false, by rw [if_pos hfit], ?_⟩
      simp only [Bool.false_eq_true, false_iff]
      intro hall
      have h4 := (hall 4 (by decide)).1
      simp only [inside, run_cell, NUMBER_OF_ROWS, BOAT_SIZE, Nat.cast_ofNat] at h4 hfit
      omega
    · have hin : ∀ k : Nat, 0 ≤ k → k < 0 + BOAT_SIZE → inside ((fun i : Nat => (x, y + (i : Int))) k) := by
        intro k _ hk
        simp only [inside, NUMBER_OF_COLUMNS, NUMBER_OF_ROWS, BOAT_SIZE, Nat.cast_ofNat] at hfit hk ⊢
        omega
      obtain ⟨r, hr, hiff⟩ := can_place_loop_spec board (fun i : Nat => (x, y + (i : Int))) BOAT_SIZE 0 hin
      refine ⟨r, by rw [if_neg hfit]; exact hr, ?_⟩
      rw [hiff]
      constructor
      · intro hall i hi
        exact ⟨hin i (Nat.zero_le _) (by omega), hall i (Nat.zero_le _) (by omega)⟩
      · intro hall k _ hk
        exact (hall k (by omega)).2
  | HORIZONTAL =>
    simp only [can_place_boat, reduceCtorEq, if_false]
    by_cases hfit : x + (BOAT_SIZE : Nat) > (NUMBER_OF_COLUMNS : Nat)
    · refine ⟨false, by rw [if_pos hfit], ?_⟩
      simp only [Bool.false_eq_true, false_iff]
      intro hall
      have h4 := (hall 4 (by decide)).1
      simp only [inside, run_cell, NUMBER_OF_COLUMNS, BOAT_SIZE, Nat.cast_ofNat] at h4 hfit
      omega
    · have hin : ∀ k : Nat, 0 ≤ k → k < 0 + BOAT_SIZE → inside ((fun i : Nat => (x + (i : Int), y)) k) := by
        intro k _ hk
        simp only [inside, NUMBER_OF_COLUMNS, NUMBER_OF_ROWS, BOAT_SIZE, Nat.cast_ofNat] at hfit hk ⊢
        omega
      obtain ⟨r, hr, hiff⟩ := can_place_loop_spec board (fun i : Nat => (x + (i : Int), y)) BOAT_SIZE 0 hin
      refine ⟨r, by rw [if_neg hfit]; exact hr, ?_⟩
      rw [hiff]
      constructor
      · intro hall i hi
        exact ⟨hin i (Nat.zero_le _) (by omega), hall i (Nat.zero_le _) (by omega)⟩
      · intro hall k _ hk
        exact (hall k (by omega)).2

/-- C1: for an in-range start `(x, y)` and either orientation, `can_place_boat` returns a
result, and that result is `true` exactly when each of the `BOAT_SIZE` cells of the run
lies inside the grid and has no boat.  (The embedded function returns no board: the source
performs no write.) -/
theorem can_place_boat_iff (board : board_t) (x y : Int) (orientation : boat_orientation_t)
    (hx : 0 ≤ x ∧ x < (NUMBER_OF_COLUMNS : Nat)) (hy : 0 ≤ y ∧ y < (NUMBER_OF_ROWS : Nat)) :
    ∃ r, can_place_boat board x y orientation = some r ∧
      (r = true ↔ ∀ i, i < BOAT_SIZE →
        inside (run_cell x y orientation i) ∧
        ∃ p, point_at board (run_cell x y orientation i).1 (run_cell x y orientation i).2
              = some p ∧ p.has_boat = false) :=
  can_place_boat_spec board x y orientation hx hy

theorem can_place_boat_iff_witness :
    (0 ≤ (3 : Int) ∧ (3 : Int) < (NUMBER_OF_COLUMNS : Nat)) ∧
    (0 ≤ (4 : Int) ∧ (4 : Int) < (NUMBER_OF_ROWS : Nat)) ∧
    ∃ r, can_place_boat one_boat_board 3 4 VERTICAL = some r ∧
      (r = true ↔ ∀ i, i < BOAT_SIZE →
        inside (run_cell 3 4 VERTICAL i) ∧
        ∃ p, point_at one_boat_board (run_cell 3 4 VERTICAL i).1 (run_cell 3 4 VERTICAL i).2
              = some p ∧ p.has_boat = false) :=
  ⟨by decide, by decide, can_place_boat_iff one_boat_board 3 4 VERTICAL (by decide) (by decide)⟩

/-! ## `place_boat` -/

/-- C2: `place_boat` is atomic.  Whenever it returns `false` the board after the call is
the board before the call (cells, recorded ships and `boats_count`), and a `VERTICAL`
placement at `(x = 0, y = 18)` returns `false` on every board, leaving it unchanged. -/
theorem place_boat_atomic :
    (∀ (board : board_t) (x y : Int) (orientation : boat_orientation_t) (board' : board_t),
      place_boat board x y orientation = some (false, board') → board' = board) ∧
    (∀ board : board_t, place_boat board 0 18 VERTICAL = some (false, board)) := by
  constructor
  · intro board x y orientation board' h
    unfold place_boat at h
    split at h
    · cases h
    · simp only [Option.some.injEq, Prod.mk.injEq, true_and] at h
      exact h.symm
    · split at h
      · cases h
      · simp at h
  · intro board
    have hcan : can_place_boat board 0 18 VERTICAL = some false := by
      simp only [can_place_boat, if_true]
      rw [if_pos (by decide)]
    simp only [place_boat, hcan]

theorem place_boat_atomic_witness :
    place_boat one_boat_board 2 0 HORIZONTAL = some (false, one_boat_board) ∧
    one_boat_board = one_boat_board ∧
    place_boat one_boat_board 0 18 VERTICAL = some (false, one_boat_board) :=
  ⟨rfl, place_boat_atomic.1 one_boat_board 2 0 HORIZONTAL one_boat_board rfl,
   place_boat_atomic.2 one_boat_board⟩

theorem place_loop_spec (run : Nat → Int × Int) (n : Nat) :
    ∀ (i : Nat) (board : board_t), board.boats_count < MAX_BOATS_PER_PLAYER →
      i + n ≤ BOAT_SIZE → (∀ k, i ≤ k → k < i + n → inside (run k)) →
      ∃ board', place_loop run n i board = some board' ∧
        board'.boats_count = board.boats_count ∧
        (∀ c : cell_t, (board'.points c.1 c.2).is_shot = (board.points c.1 c.2).is_shot) ∧
        (∀ c : cell_t, (board'.points c.1 c.2).has_boat = true ↔
          ((board.points c.1 c.2).has_boat = true ∨
            ∃ k, i ≤ k ∧ k < i + n ∧ run k = ((c.1.val : Int), (c.2.val : Int)))) ∧
        (∀ (k : Fin MAX_BOATS_PER_PLAYER) (j : Fin BOAT_SIZE), board'.boats k j =
          if k.val = board.boats_count ∧ i ≤ j.val ∧ j.val < i + n then
            cell_index (run j.val).1 (run j.val).2
          else board.boats k j) := by
  induction n with
  | zero =>
    intro i board _ _ _
    refine ⟨board, rfl, rfl, fun _ => rfl, ?_, ?_⟩
    · intro c
      constructor
      · intro h
        exact Or.inl h
      · rintro (h | ⟨k, h1, h2, _⟩)
        · exact h
        · omega
    · intro k j
      rw [if_neg]
      omega
  | succ n ih =>
    intro i board hcount hle hin
    obtain ⟨c0, hc0⟩ := (cell_index_isSome_iff _ _).2 (hin i (le_refl _) (by omega))
    have hi5 : i < BOAT_SIZE := by omega
    obtain ⟨board', hloop, hcnt, hshot, hboat, hboats⟩ :=
      ih (i + 1)
        (write_boat (set_point board c0 (with_boat (board.points c0.1 c0.2)))
          board.boats_count i c0)
        hcount (by omega) (fun k h1 h2 => hin k (by omega) (by omega))
    refine ⟨board', ?_, hcnt, ?_, ?_, ?_⟩
    · simp only [place_loop, hc0, set_boat, if_pos (And.intro hcount hi5)]
      exact hloop
    · intro c
      rw [hshot c]
      simp only [write_boat, set_point, with_boat]
      split <;> rename_i h
      · rw [h.1, h.2]
      · rfl
    · intro c
      rw [hboat c]
      simp only [write_boat, set_point, with_boat]
      have hrun : run i = ((c0.1.val : Int), (c0.2.val : Int)) := by
        have := (cell_index_eq_some_iff _ _ c0).1 hc0
        exact Prod.ext this.1 this.2
      by_cases hc : c.1 = c0.1 ∧ c.2 = c0.2
      · simp only [hc, and_self, if_true, true_or, true_iff]
        exact Or.inr ⟨i, le_refl _, by omega, hrun⟩
      · simp only [hc, if_false]
        constructor
        · rintro (h | ⟨k, h1, h2, h3⟩)
          · exact Or.inl h
          · exact Or.inr ⟨k, by omega, by omega, h3⟩
        · rintro (h | ⟨k, h1, h2, h3⟩)
          · exact Or.inl h
          · by_cases hk : k = i
            · subst hk
              rw [hrun] at h3
              simp only [Prod.mk.injEq, Nat.cast_inj] at h3
              exact absurd ⟨(Fin.ext h3.1).symm, (Fin.ext h3.2).symm⟩ hc
            · exact Or.inr ⟨k, by omega, by omega, h3⟩
    · intro k j
      rw [hboats k j]
      simp only [write_boat, set_point]
      by_cases hk : k.val = board.boats_count
      · by_cases hj : j.val = i
        · rw [if_neg (by omega), if_pos ⟨hk, hj⟩, if_pos ⟨hk, by omega, by omega⟩, hj, hc0]
        · by_cases hj2 : i + 1 ≤ j.val ∧ j.val < i + 1 + n
          · rw [if_pos ⟨hk, hj2⟩, if_pos ⟨hk, by omega, by omega⟩]
          · rw [if_neg (by tauto), if_neg (by tauto), if_neg (by omega)]
      · rw [if_neg (by tauto), if_neg (by tauto), if_neg (by tauto)]

theorem place_loop_run (board : board_t) (x y : Int) (orientation : boat_orientation_t) :
    (if orientation = VERTICAL then
        place_loop (fun i => (x, y + i)) BOAT_SIZE 0 board
      else
        place_loop (fun i => (x + i, y)) BOAT_SIZE 0 board)
      = place_loop (run_cell x y orientation) BOAT_SIZE 0 board := by
  cases orientation <;> rfl

theorem run_cell_injective (x y : Int) (orientation : boat_orientation_t) (i j : Nat)
    (h : run_cell x y orientation i = run_cell x y orientation j) : i = j := by
  cases orientation <;> simp only [run_cell, Prod.mk.injEq] at h <;> omega

theorem in_run_iff (x y : Int) (orientation : boat_orientation_t) (c : cell_t) :
    in_run x y orientation c ↔
      ∃ i, i < BOAT_SIZE ∧
        cell_index (run_cell x y orientation i).1 (run_cell x y orientation i).2 = some c := by
  unfold in_run
  constructor
  · rintro ⟨i, hi, h⟩
    exact ⟨i, hi, (cell_index_eq_some_iff _ _ c).2 ⟨by rw [h], by rw [h]⟩⟩
  · rintro ⟨i, hi, h⟩
    have := (cell_index_eq_some_iff _ _ c).1 h
    exact ⟨i, hi, Prod.ext this.1 this.2⟩

/-- What a successful `place_boat` does to the board, field by field. -/
theorem place_boat_success (board : board_t) (x y : Int) (orientation : boat_orientation_t)
    (hcount : board.boats_count < MAX_BOATS_PER_PLAYER)
    (hx : 0 ≤ x ∧ x < (NUMBER_OF_COLUMNS : Nat)) (hy : 0 ≤ y ∧ y < (NUMBER_OF_ROWS : Nat))
    (hcan : can_place_boat board x y orientation = some true) :
    (∀ i, i < BOAT_SIZE → inside (run_cell x y orientation i)) ∧
    (∀ c : cell_t, in_run x y orientation c → (board.points c.1 c.2).has_boat = false) ∧
    ∃ board', place_boat board x y orientation = some (true, board') ∧
      board'.boats_count = board.boats_count + 1 ∧
      (∀ c : cell_t, (board'.points c.1 c.2).is_shot = (board.points c.1 c.2).is_shot) ∧
      (∀ c : cell_t, (board'.points c.1 c.2).has_boat = true ↔
        ((board.points c.1 c.2).has_boat = true ∨ in_run x y orientation c)) ∧
      (∀ (k : Fin MAX_BOATS_PER_PLAYER) (j : Fin BOAT_SIZE), board'.boats k j =
        if k.val = board.boats_count then
          cell_index (run_cell x y orientation j.val).1 (run_cell x y orientation j.val).2
        else board.boats k j) := by
  obtain ⟨r, hr, hiff⟩ := can_place_boat_spec board x y orientation hx hy
  rw [hcan] at hr
  cases hr
  have hall := hiff.1 rfl
  have hin : ∀ i, i < BOAT_SIZE → inside (run_cell x y orientation i) :=
    fun i hi => (hall i hi).1
  have hfree : ∀ c : cell_t, in_run x y orientation c →
      (board.points c.1 c.2).has_boat = false := by
    rintro c ⟨i, hi, hrun⟩
    obtain ⟨p, hp, hpf⟩ := (hall i hi).2
    rw [hrun] at hp
    simp only [point_at, cell_index_cast, Option.map_some', Option.some.injEq] at hp
    rw [hp]
    exact hpf
  refine ⟨hin, hfree, ?_⟩
  obtain ⟨board', hloop, hcnt, hshot, hboat, hboats⟩ :=
    place_loop_spec (run_cell x y orientation) BOAT_SIZE 0 board hcount (by omega)
      (fun k _ hk => hin k (by omega))
  refine ⟨count_boat board', ?_, ?_, hshot, ?_, ?_⟩
  · simp only [place_boat, hcan, place_loop_run, hloop]
  · simp only [count_boat, hcnt]
  · intro c
    show (board'.points c.1 c.2).has_boat = true ↔ _
    rw [hboat c]
    unfold in_run
    constructor
    · rintro (h | ⟨k, _, hk, hrun⟩)
      · exact Or.inl h
      · exact Or.inr ⟨k, by omega, hrun⟩
    · rintro (h | ⟨k, hk, hrun⟩)
      · exact Or.inl h
      · exact Or.inr ⟨k, Nat.zero_le _, by omega, hrun⟩
  · intro k j
    show board'.boats k j = _
    rw [hboats k j]
    have hj := j.isLt
    by_cases hk : k.val = board.boats_count
    · rw [if_pos ⟨hk, Nat.zero_le _, by omega⟩, if_pos hk]
    · rw [if_neg (by tauto), if_neg hk]

theorem card_in_run (x y : Int) (orientation : boat_orientation_t)
    (hin : ∀ i, i < BOAT_SIZE → inside (run_cell x y orientation i)) :
    (Finset.univ.filter (fun c : cell_t => in_run x y orientation c)).card = BOAT_SIZE := by
  have hcell : ∀ i, i < BOAT_SIZE → ∃ c : cell_t,
      cell_index (run_cell x y orientation i).1 (run_cell x y orientation i).2 = some c :=
    fun i hi => (cell_index_isSome_iff _ _).2 (hin i hi)
  rw [← Finset.card_range BOAT_SIZE]
  symm
  refine Finset.card_bij
    (fun i _ => (cell_index (run_cell x y orientation i).1
      (run_cell x y orientation i).2).getD (0, 0)) ?_ ?_ ?_
  · intro i hi
    obtain ⟨c, hc⟩ := hcell i (Finset.mem_range.1 hi)
    simp only [hc, Option.getD_some, Finset.mem_filter, Finset.mem_univ, true_and]
    exact (in_run_iff x y orientation c).2 ⟨i, Finset.mem_range.1 hi, hc⟩
  · intro i hi j hj h
    obtain ⟨c, hc⟩ := hcell i (Finset.mem_range.1 hi)
    obtain ⟨d, hd⟩ := hcell j (Finset.mem_range.1 hj)
    simp only [hc, hd, Option.getD_some] at h
    subst h
    have h1 := (cell_index_eq_some_iff _ _ c).1 hc
    have h2 := (cell_index_eq_some_iff _ _ c).1 hd
    exact run_cell_injective x y orientation i j
      (Prod.ext (h1.1.trans h2.1.symm) (h1.2.trans h2.2.symm))
  · intro c hc
    simp only [Finset.mem_filter, Finset.mem_univ, true_and] at hc
    obtain ⟨i, hi, h⟩ := (in_run_iff x y orientation c).1 hc
    exact ⟨i, Finset.mem_range.2 hi, by simp only [h, Option.getD_some]⟩

/-- C3: on a board with fewer than `MAX_BOATS_PER_PLAYER` ships and for an in-range start,
if `can_place_boat` returns `true` then `place_boat` with the same arguments returns
`true`; every cell of the run had no boat before and has one afterwards, `has_boat` of
every other cell and `is_shot` of every cell are unchanged, and the cells that gained
`has_boat` number exactly `BOAT_SIZE`. -/
theorem place_boat_marks_run (board : board_t) (x y : Int) (orientation : boat_orientation_t)
    (hcount : board.boats_count < MAX_BOATS_PER_PLAYER)
    (hx : 0 ≤ x ∧ x < (NUMBER_OF_COLUMNS : Nat)) (hy : 0 ≤ y ∧ y < (NUMBER_OF_ROWS : Nat))
    (hcan : can_place_boat board x y orientation = some true) :
    ∃ board', place_boat board x y orientation = some (true, board') ∧
      (∀ c : cell_t, in_run x y orientation c →
        (board.points c.1 c.2).has_boat = false ∧ (board'.points c.1 c.2).has_boat = true) ∧
      (∀ c : cell_t, ¬ in_run x y orientation c →
        (board'.points c.1 c.2).has_boat = (board.points c.1 c.2).has_boat) ∧
      (∀ c : cell_t, (board'.points c.1 c.2).is_shot = (board.points c.1 c.2).is_shot) ∧
      (Finset.univ.filter (fun c : cell_t =>
        (board.points c.1 c.2).has_boat = false ∧
          (board'.points c.1 c.2).has_boat = true)).card = BOAT_SIZE := by
  obtain ⟨hin, hfree, board', hplace, _, hshot, hboat, _⟩ :=
    place_boat_success board x y orientation hcount hx hy hcan
  refine ⟨board', hplace, ?_, ?_, hshot, ?_⟩
  · intro c hc
    exact ⟨hfree c hc, (hboat c).2 (Or.inr hc)⟩
  · intro c hc
    have := hboat c
    simp only [hc, or_false] at this
    exact Bool.eq_iff_iff.2 this
  · rw [← card_in_run x y orientation hin]
    congr 1
    ext c
    simp only [Finset.mem_filter, Finset.mem_univ, true_and]
    constructor
    · rintro ⟨h1, h2⟩
      rcases (hboat c).1 h2 with h | h
      · rw [h1] at h
        cases h
      · exact h
    · intro hc
      exact ⟨hfree c hc, (hboat c).2 (Or.inr hc)⟩

theorem place_boat_marks_run_witness :
    one_boat_board.boats_count < MAX_BOATS_PER_PLAYER ∧
    (0 ≤ (3 : Int) ∧ (3 : Int) < (NUMBER_OF_COLUMNS : Nat)) ∧
    (0 ≤ (4 : Int) ∧ (4 : Int) < (NUMBER_OF_ROWS : Nat)) ∧
    can_place_boat one_boat_board 3 4 VERTICAL = some true ∧
    ∃ board', place_boat one_boat_board 3 4 VERTICAL = some (true, board') ∧
      (∀ c : cell_t, in_run 3 4 VERTICAL c →
        (one_boat_board.points c.1 c.2).has_boat = false ∧
          (board'.points c.1 c.2).has_boat = true) ∧
      (∀ c : cell_t, ¬ in_run 3 4 VERTICAL c →
        (board'.points c.1 c.2).has_boat = (one_boat_board.points c.1 c.2).has_boat) ∧
      (∀ c : cell_t,
        (board'.points c.1 c.2).is_shot = (one_boat_board.points c.1 c.2).is_shot) ∧
      (Finset.univ.filter (fun c : cell_t =>
        (one_boat_board.points c.1 c.2).has_boat = false ∧
          (board'.points c.1 c.2).has_boat = true)).card = BOAT_SIZE :=
  ⟨by decide, by decide, by decide, rfl,
    place_boat_marks_run one_boat_board 3 4 VERTICAL (by decide) (by decide) (by decide) rfl⟩

/-! ## The fleet invariant -/

theorem mem_ship_cells (board : board_t) (k : Fin MAX_BOATS_PER_PLAYER) (c : cell_t) :
    c ∈ ship_cells board k ↔ ∃ i : Fin BOAT_SIZE, board.boats k i = some c := by
  simp only [ship_cells, Finset.mem_filter, Finset.mem_univ, true_and]

theorem place_loop_count (run : Nat → Int × Int) (n : Nat) :
    ∀ (i : Nat) (board board' : board_t), place_loop run (n + 1) i board = some board' →
      board.boats_count < MAX_BOATS_PER_PLAYER := by
  intro i board board' h
  by_contra hlt
  simp only [place_loop, set_boat] at h
  split at h
  · cases h
  · rw [if_neg (fun hc => hlt hc.1)] at h
    cases h

theorem place_loop_boats_count (run : Nat → Int × Int) (n : Nat) :
    ∀ (i : Nat) (board board' : board_t), place_loop run n i board = some board' →
      board'.boats_count = board.boats_count := by
  induction n with
  | zero =>
    intro i board board' h
    simp only [place_loop, Option.some.injEq] at h
    rw [h]
  | succ n ih =>
    intro i board board' h
    simp only [place_loop, set_boat] at h
    split at h
    · cases h
    · split at h
      · cases h
      · rename_i b hb
        split at hb
        · simp only [Option.some.injEq] at hb
          rw [ih (i + 1) b board' h, ← hb]
          rfl
        · cases hb

/-- Every defined result of `place_boat` is either a rejection that leaves the board as
it was, or a success on a board that still had room for a ship. -/
theorem place_boat_cases (board : board_t) (x y : Int) (orientation : boat_orientation_t)
    (r : Bool) (board' : board_t) (h : place_boat board x y orientation = some (r, board')) :
    (r = false ∧ board' = board) ∨
    (r = true ∧ can_place_boat board x y orientation = some true ∧
      board.boats_count < MAX_BOATS_PER_PLAYER ∧
      board'.boats_count = board.boats_count + 1) := by
  unfold place_boat at h
  split at h
  · cases h
  · simp only [Option.some.injEq, Prod.mk.injEq] at h
    exact Or.inl ⟨h.1.symm, h.2.symm⟩
  · rename_i hcan
    rw [place_loop_run] at h
    split at h
    · cases h
    · rename_i b hloop
      simp only [Option.some.injEq, Prod.mk.injEq] at h
      refine Or.inr ⟨h.1.symm, hcan, place_loop_count _ _ _ _ _ hloop, ?_⟩
      rw [← h.2, ← place_loop_boats_count _ _ _ _ _ hloop]
      rfl

theorem fleet_inv_initialize_board (board : board_t) : fleet_inv (initialize_board board) := by
  refine ⟨Nat.zero_le _, ?_, ?_, ?_⟩
  · intro k hk
    exact absurd hk (Nat.not_lt_zero _)
  · intro c
    simp only [initialize_board, Bool.false_eq_true, false_iff]
    rintro ⟨k, hk, _⟩
    exact absurd hk (Nat.not_lt_zero _)
  · intro k₁ _ hk
    exact absurd hk (Nat.not_lt_zero _)

/-- A successful `place_boat` keeps the fleet invariant, records the run as the next ship
and leaves the ships recorded before as they were. -/
theorem fleet_inv_place_boat (board : board_t) (x y : Int) (orientation : boat_orientation_t)
    (board' : board_t) (hinv : fleet_inv board)
    (hx : 0 ≤ x ∧ x < (NUMBER_OF_COLUMNS : Nat)) (hy : 0 ≤ y ∧ y < (NUMBER_OF_ROWS : Nat))
    (h : place_boat board x y orientation = some (true, board')) :
    fleet_inv board' ∧ board'.boats_count = board.boats_count + 1 ∧
    (∀ k : Fin MAX_BOATS_PER_PLAYER, k.val = board.boats_count →
      ship_is_run board' k x y orientation) ∧
    (∀ k : Fin MAX_BOATS_PER_PLAYER, k.val ≠ board.boats_count →
      ∀ i, board'.boats k i = board.boats k i) ∧
    (∀ c : cell_t, (board'.points c.1 c.2).is_shot = (board.points c.1 c.2).is_shot) ∧
    (∀ c : cell_t, (board'.points c.1 c.2).has_boat = true ↔
      ((board.points c.1 c.2).has_boat = true ∨ in_run x y orientation c)) := by
  rcases place_boat_cases board x y orientation true board' h with ⟨hf, _⟩ | ⟨_, hcan, hcount, _⟩
  · cases hf
  obtain ⟨hin, hfree, b, hplace, hcnt, hshot, hboat, hboats⟩ :=
    place_boat_success board x y orientation hcount hx hy hcan
  rw [h] at hplace
  simp only [Option.some.injEq, Prod.mk.injEq, true_and] at hplace
  subst hplace
  obtain ⟨_, hships, hcells, hdisj⟩ := hinv
  have hold : ∀ k : Fin MAX_BOATS_PER_PLAYER, k.val ≠ board.boats_count →
      ∀ i, board'.boats k i = board.boats k i := by
    intro k hk i
    rw [hboats k i, if_neg hk]
  have hnew : ∀ k : Fin MAX_BOATS_PER_PLAYER, k.val = board.boats_count →
      ship_is_run board' k x y orientation := by
    intro k hk
    refine ⟨hin, fun i => ?_⟩
    rw [hboats k i, if_pos hk]
  have hcells_old : ∀ k : Fin MAX_BOATS_PER_PLAYER, k.val ≠ board.boats_count →
      ship_cells board' k = ship_cells board k := by
    intro k hk
    ext c
    simp only [mem_ship_cells, hold k hk]
  have hcells_new : ∀ (k : Fin MAX_BOATS_PER_PLAYER) (c : cell_t), k.val = board.boats_count →
      (c ∈ ship_cells board' k ↔ in_run x y orientation c) := by
    intro k c hk
    rw [mem_ship_cells, in_run_iff]
    constructor
    · rintro ⟨i, hi⟩
      rw [(hnew k hk).2 i] at hi
      exact ⟨i.val, i.isLt, hi⟩
    · rintro ⟨i, hi, hc⟩
      refine ⟨⟨i, hi⟩, ?_⟩
      rw [(hnew k hk).2 ⟨i, hi⟩]
      exact hc
  refine ⟨⟨?_, ?_, ?_, ?_⟩, hcnt, hnew, hold, hshot, hboat⟩
  · rw [hcnt]
    exact hcount
  · intro k hk
    by_cases hk' : k.val = board.boats_count
    · exact ⟨x, y, orientation, hnew k hk'⟩
    · obtain ⟨x', y', o', hin', hrun'⟩ := hships k (by omega)
      exact ⟨x', y', o', hin', fun i => by rw [hold k hk' i, hrun' i]⟩
  · intro c
    rw [hboat c, hcells c, hcnt]
    constructor
    · rintro (⟨k, hk, hc⟩ | hc)
      · exact ⟨k, by omega, by rw [hcells_old k (by omega)]; exact hc⟩
      · exact ⟨⟨board.boats_count, hcount⟩, by simp, (hcells_new _ c rfl).2 hc⟩
    · rintro ⟨k, hk, hc⟩
      by_cases hk' : k.val = board.boats_count
      · exact Or.inr ((hcells_new k c hk').1 hc)
      · exact Or.inl ⟨k, by omega, by rw [← hcells_old k hk']; exact hc⟩
  · intro k₁ k₂ h1 h2 hne
    rw [hcnt] at h1 h2
    have hclash : ∀ (k k' : Fin MAX_BOATS_PER_PLAYER), k.val = board.boats_count →
        k'.val < board.boats_count → Disjoint (ship_cells board' k) (ship_cells board' k') := by
      intro k k' hk hk'
      rw [Finset.disjoint_left]
      intro c hc hc'
      have hcfree := hfree c ((hcells_new k c hk).1 hc)
      rw [hcells_old k' (by omega)] at hc'
      have := (hcells c).2 ⟨k', hk', hc'⟩
      rw [hcfree] at this
      cases this
    by_cases e1 : k₁.val = board.boats_count
    · by_cases e2 : k₂.val = board.boats_count
      · exact absurd (Fin.ext (e1.trans e2.symm)) hne
      · exact hclash k₁ k₂ e1 (by omega)
    · by_cases e2 : k₂.val = board.boats_count
      · exact (hclash k₂ k₁ e2 (by omega)).symm
      · rw [hcells_old k₁ e1, hcells_old k₂ e2]
        exact hdisj k₁ k₂ (by omega) (by omega) hne

/-- Every `place_boat` call with a defined result keeps the fleet invariant. -/
theorem fleet_inv_place_boat_any (board : board_t) (x y : Int)
    (orientation : boat_orientation_t) (r : Bool) (board' : board_t) (hinv : fleet_inv board)
    (hx : 0 ≤ x ∧ x < (NUMBER_OF_COLUMNS : Nat)) (hy : 0 ≤ y ∧ y < (NUMBER_OF_ROWS : Nat))
    (h : place_boat board x y orientation = some (r, board')) : fleet_inv board' := by
  cases r with
  | false =>
    rcases place_boat_cases board x y orientation false board' h with ⟨_, hb⟩ | ⟨hf, _⟩
    · rw [hb]
      exact hinv
    · cases hf
  | true => exact (fleet_inv_place_boat board x y orientation board' hinv hx hy h).1

theorem fleet_inv_place_boats (calls : List (Int × Int × boat_orientation_t)) :
    ∀ (board board' : board_t), fleet_inv board → (∀ call ∈ calls, in_range call) →
      place_boats board calls = some board' → fleet_inv board' := by
  induction calls with
  | nil =>
    intro board board' hinv _ h
    simp only [place_boats, Option.some.injEq] at h
    rw [← h]
    exact hinv
  | cons call rest ih =>
    intro board board' hinv hrange h
    obtain ⟨x, y, orientation⟩ := call
    simp only [place_boats] at h
    split at h
    · cases h
    · rename_i r b hplace
      have hr : in_range (x, y, orientation) := hrange _ (List.mem_cons_self _ _)
      exact ih b board'
        (fleet_inv_place_boat_any board x y orientation r b hinv ⟨hr.1, hr.2.1⟩
          ⟨hr.2.2.1, hr.2.2.2⟩ hplace)
        (fun c hc => hrange c (List.mem_cons_of_mem _ hc)) h

/-- C4: on every board reached from `initialize_board` by a sequence of `place_boat` calls
(successful or not) with in-range start coordinates, the cell sets of any two distinct
recorded ships `boats[k₁]`, `boats[k₂]` with `k₁, k₂ < boats_count` are disjoint. -/
theorem recorded_ships_disjoint (board₀ board : board_t)
    (calls : List (Int × Int × boat_orientation_t)) (hrange : ∀ call ∈ calls, in_range call)
    (hreach : place_boats (initialize_board board₀) calls = some board)
    (k₁ k₂ : Fin MAX_BOATS_PER_PLAYER) (h₁ : k₁.val < board.boats_count)
    (h₂ : k₂.val < board.boats_count) (hne : k₁ ≠ k₂) :
    Disjoint (ship_cells board k₁) (ship_cells board k₂) :=
  (fleet_inv_place_boats calls _ board (fleet_inv_initialize_board board₀) hrange hreach).2.2.2
    k₁ k₂ h₁ h₂ hne

theorem recorded_ships_disjoint_witness :
    (∀ call ∈ [((0 : Int), (0 : Int), HORIZONTAL), (2, 0, VERTICAL), (7, 3, VERTICAL)],
      in_range call) ∧
    place_boats (initialize_board empty_board)
      [(0, 0, HORIZONTAL), (2, 0, VERTICAL), (7, 3, VERTICAL)] = some two_boat_board ∧
    (0 : Fin MAX_BOATS_PER_PLAYER).val < two_boat_board.boats_count ∧
    (1 : Fin MAX_BOATS_PER_PLAYER).val < two_boat_board.boats_count ∧
    (0 : Fin MAX_BOATS_PER_PLAYER) ≠ 1 ∧
    Disjoint (ship_cells two_boat_board 0) (ship_cells two_boat_board 1) :=
  ⟨by decide, rfl, by decide, by decide, by decide,
    recorded_ships_disjoint empty_board two_boat_board
      [(0, 0, HORIZONTAL), (2, 0, VERTICAL), (7, 3, VERTICAL)] (by decide) rfl 0 1
      (by decide) (by decide) (by decide)⟩

/-! ## A full fleet -/

theorem boats_count_le_place_boats (calls : List (Int × Int × boat_orientation_t)) :
    ∀ (board board' : board_t), board.boats_count ≤ MAX_BOATS_PER_PLAYER →
      place_boats board calls = some board' →
      board'.boats_count ≤ MAX_BOATS_PER_PLAYER := by
  induction calls with
  | nil =>
    intro board board' hle h
    simp only [place_boats, Option.some.injEq] at h
    rw [← h]
    exact hle
  | cons call rest ih =>
    intro board board' hle h
    obtain ⟨x, y, orientation⟩ := call
    simp only [place_boats] at h
    split at h
    · cases h
    · rename_i r b hplace
      refine ih b board' ?_ h
      rcases place_boat_cases board x y orientation r b hplace with ⟨_, hb⟩ | ⟨_, _, hlt, hb⟩
      · rw [hb]
        exact hle
      · rw [hb]
        exact hlt

/-- C5, as the claim states it, fails: on the board `full_board`, whose `boats_count` is
`MAX_BOATS_PER_PLAYER`, the call `place_boat` at `(0, 3)` `HORIZONTAL` does not report
failure, because `can_place_boat` accepts the run and nothing tests `boats_count`. -/
theorem place_boat_full_fleet_not_rejected :
    full_board.boats_count = MAX_BOATS_PER_PLAYER ∧
    can_place_boat full_board 0 3 HORIZONTAL = some true ∧
    ¬ ∃ board', place_boat full_board 0 3 HORIZONTAL = some (false, board') := by
  refine ⟨rfl, rfl, ?_⟩
  rintro ⟨board', h⟩
  have hnone : place_boat full_board 0 3 HORIZONTAL = none := rfl
  rw [hnone] at h
  cases h

/-- C5, amended: `place_boat` has no test of `boats_count`.  On a board whose
`boats_count` is `MAX_BOATS_PER_PLAYER`, for an in-range start, it reports failure and
leaves the board (with `boats_count` still 3) as it was when `can_place_boat` rejects the
run, and it has no defined result when `can_place_boat` accepts the run (the store to
`boats[3][0]` is outside the array).  On every board reached from `initialize_board` by
`place_boat` calls that all have a defined result, `boats_count` is at most
`MAX_BOATS_PER_PLAYER`. -/
theorem place_boat_full_fleet :
    (∀ (board : board_t) (x y : Int) (orientation : boat_orientation_t),
      board.boats_count = MAX_BOATS_PER_PLAYER →
      0 ≤ x ∧ x < (NUMBER_OF_COLUMNS : Nat) → 0 ≤ y ∧ y < (NUMBER_OF_ROWS : Nat) →
      (can_place_boat board x y orientation = some false ∧
        place_boat board x y orientation = some (false, board)) ∨
      (can_place_boat board x y orientation = some true ∧
        place_boat board x y orientation = none)) ∧
    (∀ (board₀ board : board_t) (calls : List (Int × Int × boat_orientation_t)),
      place_boats (initialize_board board₀) calls = some board →
      board.boats_count ≤ MAX_BOATS_PER_PLAYER) := by
  constructor
  · intro board x y orientation hfull hx hy
    obtain ⟨r, hr, _⟩ := can_place_boat_spec board x y orientation hx hy
    cases r with
    | false =>
      left
      exact ⟨hr, by simp only [place_boat, hr]⟩
    | true =>
      right
      refine ⟨hr, ?_⟩
      cases hplace : place_boat board x y orientation with
      | none => rfl
      | some res =>
        obtain ⟨r', b⟩ := res
        rcases place_boat_cases board x y orientation r' b hplace with
          ⟨hf, hb⟩ | ⟨_, _, hlt, _⟩
        · subst hf hb
          simp only [place_boat, hr] at hplace
          split at hplace
          · cases hplace
          · simp at hplace
        · omega
  · intro board₀ board calls h
    exact boats_count_le_place_boats calls _ board (Nat.zero_le _) h

theorem place_boat_full_fleet_witness :
    full_board.boats_count = MAX_BOATS_PER_PLAYER ∧
    ((can_place_boat full_board 2 1 VERTICAL = some false ∧
        place_boat full_board 2 1 VERTICAL = some (false, full_board)) ∨
      (can_place_boat full_board 2 1 VERTICAL = some true ∧
        place_boat full_board 2 1 VERTICAL = none)) ∧
    full_board.boats_count ≤ MAX_BOATS_PER_PLAYER :=
  ⟨rfl, place_boat_full_fleet.1 full_board 2 1 VERTICAL rfl (by decide) (by decide),
    place_boat_full_fleet.2 empty_board full_board
      [(0, 0, HORIZONTAL), (0, 1, HORIZONTAL), (0, 2, HORIZONTAL)] rfl⟩

/-! ## `shoot` and `shoot_and_print_result` -/

theorem shoot_fresh (board : board_t) (x y : Int) (c : cell_t) (hc : cell_index x y = some c)
    (hfresh : (board.points c.1 c.2).is_shot = false) :
    shoot board x y = some (true, set_point board c (with_shot (board.points c.1 c.2))) := by
  simp only [shoot, hc, hfresh, Bool.false_eq_true, if_false]

theorem shoot_again (board : board_t) (x y : Int) (c : cell_t) (hc : cell_index x y = some c)
    (hshot : (board.points c.1 c.2).is_shot = true) :
    shoot board x y = some (false, board) := by
  simp only [shoot, hc, hshot, if_true]

theorem set_point_points_self (board : board_t) (c : cell_t) (p : point_t) :
    (set_point board c p).points c.1 c.2 = p := by
  simp only [set_point, and_self, if_true]

theorem set_point_points_ne (board : board_t) (c c' : cell_t) (p : point_t) (h : c' ≠ c) :
    (set_point board c p).points c'.1 c'.2 = board.points c'.1 c'.2 := by
  simp only [set_point]
  rw [if_neg]
  rintro ⟨h1, h2⟩
  exact h (Prod.ext h1 h2)

/-- C6: for an in-range cell `(x, y)` that is not yet shot, `shoot` returns `true` (a fresh
shot), sets `is_shot` of that cell and changes nothing else, so that the hit or miss read
from `has_boat` afterwards is the cell's `has_boat`; a second `shoot` on the same cell
returns `false` (already shot) and leaves the board exactly as the first call left it. -/
theorem shoot_twice (board : board_t) (x y : Int)
    (hx : 0 ≤ x ∧ x < (NUMBER_OF_COLUMNS : Nat)) (hy : 0 ≤ y ∧ y < (NUMBER_OF_ROWS : Nat)) :
    ∃ c : cell_t, cell_index x y = some c ∧
      ((board.points c.1 c.2).is_shot = false →
        ∃ board', shoot board x y = some (true, board') ∧
          (board'.points c.1 c.2).is_shot = true ∧
          (board'.points c.1 c.2).has_boat = (board.points c.1 c.2).has_boat ∧
          point_at board' x y =
            some { is_shot := true, has_boat := (board.points c.1 c.2).has_boat } ∧
          (∀ c' : cell_t, c' ≠ c → board'.points c'.1 c'.2 = board.points c'.1 c'.2) ∧
          board'.boats = board.boats ∧ board'.boats_count = board.boats_count ∧
          shoot board' x y = some (false, board')) := by
  obtain ⟨c, hc⟩ := (cell_index_isSome_iff x y).2 ⟨hx.1, hx.2, hy.1, hy.2⟩
  refine ⟨c, hc, fun hfresh => ?_⟩
  refine ⟨_, shoot_fresh board x y c hc hfresh, ?_, ?_, ?_, ?_, rfl, rfl, ?_⟩
  · simp only [set_point_points_self, with_shot]
  · simp only [set_point_points_self, with_shot]
  · simp only [point_at, hc, Option.map_some', set_point_points_self, with_shot]
  · intro c' hc'
    exact set_point_points_ne board c c' _ hc'
  · exact shoot_again _ x y c hc (by simp only [set_point_points_self, with_shot])

theorem shoot_twice_witness :
    (0 ≤ (2 : Int) ∧ (2 : Int) < (NUMBER_OF_COLUMNS : Nat)) ∧
    (0 ≤ (0 : Int) ∧ (0 : Int) < (NUMBER_OF_ROWS : Nat)) ∧
    (one_boat_board.points 2 0).is_shot = false ∧
    ∃ c : cell_t, cell_index 2 0 = some c ∧
      ((one_boat_board.points c.1 c.2).is_shot = false →
        ∃ board', shoot one_boat_board 2 0 = some (true, board') ∧
          (board'.points c.1 c.2).is_shot = true ∧
          (board'.points c.1 c.2).has_boat = (one_boat_board.points c.1 c.2).has_boat ∧
          point_at board' 2 0 =
            some { is_shot := true, has_boat := (one_boat_board.points c.1 c.2).has_boat } ∧
          (∀ c' : cell_t, c' ≠ c →
            board'.points c'.1 c'.2 = one_boat_board.points c'.1 c'.2) ∧
          board'.boats = one_boat_board.boats ∧
          board'.boats_count = one_boat_board.boats_count ∧
          shoot board' 2 0 = some (false, board')) :=
  ⟨by decide, by decide, rfl, shoot_twice one_boat_board 2 0 (by decide) (by decide)⟩

theorem deref_assign_same (game : game_t) (ref : player_ref) (p : player_t) :
    (game.assign ref p).deref ref = p := by
  cases ref <;> rfl

theorem deref_assign_ne (game : game_t) (ref ref' : player_ref) (p : player_t)
    (h : ref' ≠ ref) : (game.assign ref p).deref ref' = game.deref ref' := by
  cases ref <;> cases ref' <;> first | rfl | exact absurd rfl h

theorem assign_deref_self (game : game_t) (ref : player_ref) :
    game.assign ref (game.deref ref) = game := by
  cases ref <;> rfl

theorem set_board_self (p : player_t) : p.set_board p.board = p := rfl

theorem assign_assign_same (game : game_t) (ref : player_ref) (p q : player_t) :
    (game.assign ref p).assign ref q = game.assign ref q := by
  cases ref <;> rfl

/-- What `shoot_and_print_result` computes when shooter and target are different players
and the cell `(x, y)` is the in-range cell `c`. -/
theorem shoot_and_print_result_spec (game : game_t) (s t : player_ref) (hst : s ≠ t)
    (x y : Int) (c : cell_t) (hc : cell_index x y = some c) :
    shoot_and_print_result game s t x y =
      some (if ((game.deref t).board.points c.1 c.2).is_shot then game
        else (game.assign t ((game.deref t).set_board
            (set_point (game.deref t).board c
              (with_shot ((game.deref t).board.points c.1 c.2))))).assign s
          (scored (game.deref s) ((game.deref t).board.points c.1 c.2).has_boat)) := by
  by_cases hshot : ((game.deref t).board.points c.1 c.2).is_shot = true
  · simp only [shoot_and_print_result, shoot_again _ x y c hc hshot, hshot, if_true,
      set_board_self, assign_deref_self]
  · have hfresh : ((game.deref t).board.points c.1 c.2).is_shot = false := by
      simpa using hshot
    simp only [shoot_and_print_result, shoot_fresh _ x y c hc hfresh, hfresh,
      Bool.false_eq_true, if_false, deref_assign_same, point_at, hc, Option.map_some',
      player_t.set_board, set_point_points_self, with_shot, scored,
      deref_assign_ne _ t s _ hst]
    cases hb : ((game.deref t).board.points c.1 c.2).has_boat <;>
      simp only [Bool.false_eq_true, if_false, if_true, deref_assign_same, assign_assign_same]

theorem size_t_succ_lt (n : Nat) (h : n < SIZE_MAX) : size_t_succ n = n + 1 := by
  unfold size_t_succ
  exact Nat.mod_eq_of_lt (by omega)

theorem size_t_succ_max : size_t_succ SIZE_MAX = 0 := by
  decide

/-- What `shoot_and_print_result_size_t` computes when shooter and target are different
players and the cell `(x, y)` is the in-range cell `c`. -/
theorem shoot_and_print_result_size_t_spec (game : game_t) (s t : player_ref) (hst : s ≠ t)
    (x y : Int) (c : cell_t) (hc : cell_index x y = some c) :
    shoot_and_print_result_size_t game s t x y =
      some (if ((game.deref t).board.points c.1 c.2).is_shot then game
        else (game.assign t ((game.deref t).set_board
            (set_point (game.deref t).board c
              (with_shot ((game.deref t).board.points c.1 c.2))))).assign s
          (scored_size_t (game.deref s) ((game.deref t).board.points c.1 c.2).has_boat)) := by
  by_cases hshot : ((game.deref t).board.points c.1 c.2).is_shot = true
  · simp only [shoot_and_print_result_size_t, shoot_again _ x y c hc hshot, hshot, if_true,
      set_board_self, assign_deref_self]
  · have hfresh : ((game.deref t).board.points c.1 c.2).is_shot = false := by
      simpa using hshot
    simp only [shoot_and_print_result_size_t, shoot_fresh _ x y c hc hfresh, hfresh,
      Bool.false_eq_true, if_false, deref_assign_same, point_at, hc, Option.map_some',
      player_t.set_board, set_point_points_self, with_shot, scored_size_t,
      deref_assign_ne _ t s _ hst]
    cases hb : ((game.deref t).board.points c.1 c.2).has_boat <;>
      simp only [Bool.false_eq_true, if_false, if_true, deref_assign_same, assign_assign_same]

/-- Where the shooter's three counters are below `SIZE_MAX`, the function with the
`size_t` increments and the function that adds 1 on natural numbers are the same. -/
theorem shoot_and_print_result_size_t_eq (game : game_t) (s t : player_ref) (hst : s ≠ t)
    (x y : Int) (hxy : inside (x, y))
    (hsunk : (game.deref s).boats_pieces_sunk < SIZE_MAX)
    (hmissed : (game.deref s).missed_shots < SIZE_MAX)
    (hshoots : (game.deref s).shoots < SIZE_MAX) :
    shoot_and_print_result_size_t game s t x y = shoot_and_print_result game s t x y := by
  obtain ⟨c, hc⟩ := (cell_index_isSome_iff x y).2 hxy
  rw [shoot_and_print_result_size_t_spec game s t hst x y c hc,
    shoot_and_print_result_spec game s t hst x y c hc]
  have hscored : ∀ hit : Bool, scored_size_t (game.deref s) hit = scored (game.deref s) hit := by
    intro hit
    cases hit
    · simp only [scored_size_t, scored, Bool.false_eq_true, if_false,
        player_t.inc_missed_shots_size_t, player_t.inc_shoots_size_t,
        player_t.inc_missed_shots, player_t.inc_shoots, size_t_succ_lt _ hmissed,
        size_t_succ_lt _ hshoots]
    · simp only [scored_size_t, scored, if_true, player_t.inc_boats_pieces_sunk_size_t,
        player_t.inc_shoots_size_t, player_t.inc_boats_pieces_sunk, player_t.inc_shoots,
        size_t_succ_lt _ hsunk, size_t_succ_lt _ hshoots]
  rw [hscored]

/-- C7, as the claim states it, fails at two inputs.  In `saturated_game` the shooter's
`shoots` and `missed_shots` are `SIZE_MAX`; the fresh miss at `(9, 9)` leaves both at 0,
not one higher, because `++` on a `size_t` wraps.  And when shooter and target are the
same player (player 1 of `sample_game` shooting at `(2, 0)` of their own board, a fresh
hit), the counters of the target are the counters of the shooter and do change. -/
theorem shoot_and_print_result_counters_fail :
    (saturated_game.deref player_ref.player2).shoots = SIZE_MAX ∧
    (saturated_game.deref player_ref.player2).missed_shots = SIZE_MAX ∧
    point_at (saturated_game.deref player_ref.player1).board 9 9
      = some { is_shot := false, has_boat := false } ∧
    (shoot_and_print_result_size_t saturated_game player_ref.player2 player_ref.player1
        9 9).map
      (fun game => ((game.deref player_ref.player2).shoots,
        (game.deref player_ref.player2).missed_shots)) = some (0, 0) ∧
    point_at (sample_game.deref player_ref.player1).board 2 0
      = some { is_shot := false, has_boat := true } ∧
    ((sample_game.deref player_ref.player1).shoots,
      (sample_game.deref player_ref.player1).boats_pieces_sunk) = (0, 0) ∧
    (shoot_and_print_result_size_t sample_game player_ref.player1 player_ref.player1
        2 0).map
      (fun game => ((game.deref player_ref.player1).shoots,
        (game.deref player_ref.player1).boats_pieces_sunk)) = some (1, 1) := by
  refine ⟨rfl, rfl, rfl, ?_, rfl, rfl, ?_⟩ <;> decide

/-- C7, amended: for a shooter and a target that are different players and an in-range
`(x, y)`, `shoot_and_print_result` returns, and it updates the shooter's counters by
outcome.  On an already shot cell `shoots`, `missed_shots` and `boats_pieces_sunk` are
unchanged.  On an unshot cell with a boat `boats_pieces_sunk` and `shoots` are each
incremented as a `size_t` (one more when below `SIZE_MAX`, 0 when at `SIZE_MAX`) and
`missed_shots` is unchanged.  On an unshot cell without a boat `missed_shots` and `shoots`
are each incremented so and `boats_pieces_sunk` is unchanged.  The target's counters and
both players' `wins` are unchanged in all three cases. -/
theorem shoot_and_print_result_counters (game : game_t) (s t : player_ref) (hst : s ≠ t)
    (x y : Int)
    (hx : 0 ≤ x ∧ x < (NUMBER_OF_COLUMNS : Nat)) (hy : 0 ≤ y ∧ y < (NUMBER_OF_ROWS : Nat)) :
    ∃ (p : point_t) (game' : game_t),
      point_at (game.deref t).board x y = some p ∧
      shoot_and_print_result_size_t game s t x y = some game' ∧
      (p.is_shot = true →
        (game'.deref s).shoots = (game.deref s).shoots ∧
        (game'.deref s).missed_shots = (game.deref s).missed_shots ∧
        (game'.deref s).boats_pieces_sunk = (game.deref s).boats_pieces_sunk) ∧
      (p.is_shot = false → p.has_boat = true →
        ((game.deref s).boats_pieces_sunk < SIZE_MAX →
          (game'.deref s).boats_pieces_sunk = (game.deref s).boats_pieces_sunk + 1) ∧
        ((game.deref s).boats_pieces_sunk = SIZE_MAX →
          (game'.deref s).boats_pieces_sunk = 0) ∧
        ((game.deref s).shoots < SIZE_MAX →
          (game'.deref s).shoots = (game.deref s).shoots + 1) ∧
        ((game.deref s).shoots = SIZE_MAX → (game'.deref s).shoots = 0) ∧
        (game'.deref s).missed_shots = (game.deref s).missed_shots) ∧
      (p.is_shot = false → p.has_boat = false →
        ((game.deref s).missed_shots < SIZE_MAX →
          (game'.deref s).missed_shots = (game.deref s).missed_shots + 1) ∧
        ((game.deref s).missed_shots = SIZE_MAX → (game'.deref s).missed_shots = 0) ∧
        ((game.deref s).shoots < SIZE_MAX →
          (game'.deref s).shoots = (game.deref s).shoots + 1) ∧
        ((game.deref s).shoots = SIZE_MAX → (game'.deref s).shoots = 0) ∧
        (game'.deref s).boats_pieces_sunk = (game.deref s).boats_pieces_sunk) ∧
      (game'.deref t).shoots = (game.deref t).shoots ∧
      (game'.deref t).missed_shots = (game.deref t).missed_shots ∧
      (game'.deref t).boats_pieces_sunk = (game.deref t).boats_pieces_sunk ∧
      (game'.deref t).wins = (game.deref t).wins ∧
      (game'.deref s).wins = (game.deref s).wins := by
  obtain ⟨c, hc⟩ := (cell_index_isSome_iff x y).2 ⟨hx.1, hx.2, hy.1, hy.2⟩
  refine ⟨(game.deref t).board.points c.1 c.2, _, by simp only [point_at, hc, Option.map_some'],
    shoot_and_print_result_size_t_spec game s t hst x y c hc, ?_⟩
  cases hshot : ((game.deref t).board.points c.1 c.2).is_shot
  · cases hboat : ((game.deref t).board.points c.1 c.2).has_boat
    · simp only [Bool.false_eq_true, if_false, deref_assign_same,
        deref_assign_ne _ s t _ hst.symm, scored_size_t, player_t.inc_shoots_size_t,
        player_t.inc_missed_shots_size_t, player_t.set_board, false_implies, true_implies,
        true_and, and_true]
      refine ⟨fun h => size_t_succ_lt _ h, fun h => ?_, fun h => size_t_succ_lt _ h,
        fun h => ?_⟩
      · rw [h]
        exact size_t_succ_max
      · rw [h]
        exact size_t_succ_max
    · simp only [Bool.false_eq_true, Bool.true_eq_false, if_false, if_true,
        deref_assign_same, deref_assign_ne _ s t _ hst.symm, scored_size_t,
        player_t.inc_shoots_size_t, player_t.inc_boats_pieces_sunk_size_t,
        player_t.set_board, false_implies, true_implies, true_and, and_true]
      refine ⟨fun h => size_t_succ_lt _ h, fun h => ?_, fun h => size_t_succ_lt _ h,
        fun h => ?_⟩
      · rw [h]
        exact size_t_succ_max
      · rw [h]
        exact size_t_succ_max
  · simp

theorem shoot_and_print_result_counters_witness :
    player_ref.player2 ≠ player_ref.player1 ∧
    (0 ≤ (2 : Int) ∧ (2 : Int) < (NUMBER_OF_COLUMNS : Nat)) ∧
    (0 ≤ (0 : Int) ∧ (0 : Int) < (NUMBER_OF_ROWS : Nat)) ∧
    (shoot_and_print_result_size_t sample_game player_ref.player2 player_ref.player1
        2 0).map
      (fun game => ((game.deref player_ref.player2).shoots,
        (game.deref player_ref.player2).missed_shots,
        (game.deref player_ref.player2).boats_pieces_sunk)) = some (1, 0, 1) ∧
    ∃ (p : point_t) (game' : game_t),
      point_at (sample_game.deref player_ref.player1).board 2 0 = some p ∧
      shoot_and_print_result_size_t sample_game player_ref.player2 player_ref.player1 2 0
        = some game' ∧
      (p.is_shot = true →
        (game'.deref player_ref.player2).shoots
          = (sample_game.deref player_ref.player2).shoots ∧
        (game'.deref player_ref.player2).missed_shots
          = (sample_game.deref player_ref.player2).missed_shots ∧
        (game'.deref player_ref.player2).boats_pieces_sunk
          = (sample_game.deref player_ref.player2).boats_pieces_sunk) ∧
      (p.is_shot = false → p.has_boat = true →
        ((sample_game.deref player_ref.player2).boats_pieces_sunk < SIZE_MAX →
          (game'.deref player_ref.player2).boats_pieces_sunk
            = (sample_game.deref player_ref.player2).boats_pieces_sunk + 1) ∧
        ((sample_game.deref player_ref.player2).boats_pieces_sunk = SIZE_MAX →
          (game'.deref player_ref.player2).boats_pieces_sunk = 0) ∧
        ((sample_game.deref player_ref.player2).shoots < SIZE_MAX →
          (game'.deref player_ref.player2).shoots
            = (sample_game.deref player_ref.player2).shoots + 1) ∧
        ((sample_game.deref player_ref.player2).shoots = SIZE_MAX →
          (game'.deref player_ref.player2).shoots = 0) ∧
        (game'.deref player_ref.player2).missed_shots
          = (sample_game.deref player_ref.player2).missed_shots) ∧
      (p.is_shot = false → p.has_boat = false →
        ((sample_game.deref player_ref.player2).missed_shots < SIZE_MAX →
          (game'.deref player_ref.player2).missed_shots
            = (sample_game.deref player_ref.player2).missed_shots + 1) ∧
        ((sample_game.deref player_ref.player2).missed_shots = SIZE_MAX →
          (game'.deref player_ref.player2).missed_shots = 0) ∧
        ((sample_game.deref player_ref.player2).shoots < SIZE_MAX →
          (game'.deref player_ref.player2).shoots
            = (sample_game.deref player_ref.player2).shoots + 1) ∧
        ((sample_game.deref player_ref.player2).shoots = SIZE_MAX →
          (game'.deref player_ref.player2).shoots = 0) ∧
        (game'.deref player_ref.player2).boats_pieces_sunk
          = (sample_game.deref player_ref.player2).boats_pieces_sunk) ∧
      (game'.deref player_ref.player1).shoots
        = (sample_game.deref player_ref.player1).shoots ∧
      (game'.deref player_ref.player1).missed_shots
        = (sample_game.deref player_ref.player1).missed_shots ∧
      (game'.deref player_ref.player1).boats_pieces_sunk
        = (sample_game.deref player_ref.player1).boats_pieces_sunk ∧
      (game'.deref player_ref.player1).wins = (sample_game.deref player_ref.player1).wins ∧
      (game'.deref player_ref.player2).wins = (sample_game.deref player_ref.player2).wins :=
  ⟨by decide, by decide, by decide, by decide,
    shoot_and_print_result_counters sample_game player_ref.player2 player_ref.player1
      (by decide) 2 0 (by decide) (by decide)⟩

/-! ## `boats_sunk` -/

theorem is_boat_sunk_spec (board : board_t) (k : Fin MAX_BOATS_PER_PLAYER)
    (hvalid : ∀ j, ∃ c, board.boats k j = some c) (l : List (Fin BOAT_SIZE)) :
    ∃ r, is_boat_sunk board k l = some r ∧
      (r = true ↔ ∀ j ∈ l, ∀ c, board.boats k j = some c →
        (board.points c.1 c.2).is_shot = true) := by
  induction l with
  | nil => exact ⟨true, rfl, by simp⟩
  | cons j rest ih =>
    obtain ⟨c, hc⟩ := hvalid j
    obtain ⟨r, hr, hiff⟩ := ih
    simp only [is_boat_sunk, hc]
    by_cases hshot : (board.points c.1 c.2).is_shot = true
    · refine ⟨r, by simp only [hshot, if_true, hr], ?_⟩
      rw [hiff]
      constructor
      · intro hall j' hj' c' hc'
        rcases List.mem_cons.1 hj' with h | h
        · subst h
          rw [hc] at hc'
          cases hc'
          exact hshot
        · exact hall j' h c' hc'
      · intro hall j' hj'
        exact hall j' (List.mem_cons_of_mem _ hj')
    · refine ⟨false, by simp only [hshot, if_false, Bool.false_eq_true], ?_⟩
      simp only [Bool.false_eq_true, false_iff]
      intro hall
      exact hshot (hall j (List.mem_cons_self _ _) c hc)

theorem is_boat_sunk_finRange (board : board_t) (k : Fin MAX_BOATS_PER_PLAYER)
    (hvalid : ∀ j, ∃ c, board.boats k j = some c) :
    is_boat_sunk board k (List.finRange BOAT_SIZE) = some (decide (ship_sunk board k)) := by
  obtain ⟨r, hr, hiff⟩ := is_boat_sunk_spec board k hvalid (List.finRange BOAT_SIZE)
  rw [hr]
  congr 1
  have hsunk : ship_sunk board k ↔ ∀ j ∈ List.finRange BOAT_SIZE, ∀ c,
      board.boats k j = some c → (board.points c.1 c.2).is_shot = true := by
    unfold ship_sunk
    constructor
    · intro h j _ c hc
      exact h c ((mem_ship_cells board k c).2 ⟨j, hc⟩)
    · intro h c hc
      obtain ⟨j, hj⟩ := (mem_ship_cells board k c).1 hc
      exact h j (List.mem_finRange j) c hj
  cases r with
  | true => exact (decide_eq_true (hsunk.2 (hiff.1 rfl))).symm
  | false =>
    refine (decide_eq_false ?_).symm
    intro h
    have := hiff.2 (hsunk.1 h)
    cases this

theorem boats_sunk_loop_spec (board : board_t)
    (hvalid : ∀ k j, ∃ c, board.boats k j = some c) (l : List (Fin MAX_BOATS_PER_PLAYER)) :
    ∀ n : Nat, boats_sunk_loop board l n
      = some (n + l.countP (fun k => decide (ship_sunk board k))) := by
  induction l with
  | nil =>
    intro n
    rfl
  | cons k rest ih =>
    intro n
    simp only [boats_sunk_loop, is_boat_sunk_finRange board k (hvalid k)]
    by_cases hs : ship_sunk board k
    · simp only [decide_eq_true hs, ih, List.countP_cons_of_pos]
      congr 1
      omega
    · simp only [decide_eq_false hs, ih, Bool.false_eq_true, not_false_eq_true,
        List.countP_cons_of_neg]

theorem fleet_inv_valid (board : board_t) (hinv : fleet_inv board)
    (hfull : board.boats_count = MAX_BOATS_PER_PLAYER) :
    ∀ k j, ∃ c, board.boats k j = some c := by
  intro k j
  obtain ⟨x, y, orientation, hin, hrun⟩ := hinv.2.1 k (by rw [hfull]; exact k.isLt)
  rw [hrun j]
  exact (cell_index_isSome_iff _ _).2 (hin j.val j.isLt)

theorem boats_sunk_full_fleet (board : board_t) (hinv : fleet_inv board)
    (hfull : board.boats_count = MAX_BOATS_PER_PLAYER) :
    boats_sunk_loop board (List.finRange MAX_BOATS_PER_PLAYER) 0
      = some (sunk_ships board).card := by
  rw [boats_sunk_loop_spec board (fleet_inv_valid board hinv hfull)]
  congr 1
  have hset : sunk_ships board = Finset.univ.filter (fun k => ship_sunk board k) := by
    unfold sunk_ships
    ext k
    simp only [Finset.mem_filter, Finset.mem_univ, true_and, and_iff_right_iff_imp]
    intro _
    rw [hfull]
    exact k.isLt
  rw [hset, Fin.univ_def]
  simp only [Finset.card, Finset.filter, Multiset.filter_coe, Multiset.coe_card,
    List.countP_eq_length_filter, Nat.zero_add]

theorem shoot_frame (board : board_t) (x y : Int) (r : Bool) (board' : board_t)
    (h : shoot board x y = some (r, board')) :
    board'.boats = board.boats ∧ board'.boats_count = board.boats_count ∧
    ∀ c : cell_t, (board'.points c.1 c.2).has_boat = (board.points c.1 c.2).has_boat := by
  unfold shoot at h
  split at h
  · cases h
  · rename_i c hc
    split at h
    · simp only [Option.some.injEq, Prod.mk.injEq] at h
      rw [← h.2]
      exact ⟨rfl, rfl, fun _ => rfl⟩
    · simp only [Option.some.injEq, Prod.mk.injEq] at h
      rw [← h.2]
      refine ⟨rfl, rfl, fun c' => ?_⟩
      by_cases hcc : c' = c
      · rw [hcc, set_point_points_self]
        rfl
      · rw [set_point_points_ne board c c' _ hcc]

theorem fleet_inv_congr (board board' : board_t) (hboats : board'.boats = board.boats)
    (hcount : board'.boats_count = board.boats_count)
    (hhas : ∀ c : cell_t, (board'.points c.1 c.2).has_boat = (board.points c.1 c.2).has_boat)
    (hinv : fleet_inv board) : fleet_inv board' := by
  have hcells : ∀ k, ship_cells board' k = ship_cells board k := by
    intro k
    unfold ship_cells
    rw [hboats]
  unfold fleet_inv ship_is_run
  simp only [hcells, hcount, hhas, hboats]
  exact hinv

theorem fleet_inv_shoot_cells (shots : List (Int × Int)) :
    ∀ (board board' : board_t), fleet_inv board → shoot_cells board shots = some board' →
      fleet_inv board' ∧ board'.boats_count = board.boats_count := by
  induction shots with
  | nil =>
    intro board board' hinv h
    simp only [shoot_cells, Option.some.injEq] at h
    rw [← h]
    exact ⟨hinv, rfl⟩
  | cons shot rest ih =>
    intro board board' hinv h
    obtain ⟨x, y⟩ := shot
    simp only [shoot_cells] at h
    split at h
    · cases h
    · rename_i r b hshoot
      obtain ⟨hb, hc, hh⟩ := shoot_frame board x y r b hshoot
      obtain ⟨h1, h2⟩ := ih b board' (fleet_inv_congr board b hb hc hh hinv) h
      exact ⟨h1, h2.trans hc⟩

/-- C8, as the claim states it, fails for a fleet of fewer than `MAX_BOATS_PER_PLAYER`
ships, because `boats_sunk` follows all three rows of `boats` whatever `boats_count` is.
On `two_boat_board` (two ships, `boats[2]` never written) it has no defined result; on
`replayed_board` (two ships, neither of them hit, `boats[2]` left over from the round
before) it returns 1 although no ship of the fleet is sunk. -/
theorem boats_sunk_partial_fleet :
    two_boat_board.boats_count = 2 ∧
    boats_sunk (sample_game_on two_boat_board) player_ref.player1 = none ∧
    replayed_board.boats_count = 2 ∧
    sunk_ships replayed_board = ∅ ∧
    boats_sunk (sample_game_on replayed_board) player_ref.player1 = some 1 := by
  refine ⟨rfl, rfl, rfl, ?_, rfl⟩
  decide

/-- C8, amended: for a fleet of exactly `MAX_BOATS_PER_PLAYER` ships placed on the board of
the player pointed at, `boats_sunk` returns the number of ships of the fleet all of whose
`BOAT_SIZE` cells have `is_shot` set (a ship with an unshot cell is not counted, a ship
with all cells shot is counted); the result is at most `MAX_BOATS_PER_PLAYER`.  (The
embedded function returns only the count: the source performs no write.) -/
theorem boats_sunk_counts_sunk_ships (game : game_t) (target_player : player_ref)
    (hinv : fleet_inv (game.deref target_player).board)
    (hfull : (game.deref target_player).board.boats_count = MAX_BOATS_PER_PLAYER) :
    boats_sunk game target_player = some (sunk_ships (game.deref target_player).board).card ∧
    (sunk_ships (game.deref target_player).board).card ≤ MAX_BOATS_PER_PLAYER ∧
    ∀ k : Fin MAX_BOATS_PER_PLAYER, k ∈ sunk_ships (game.deref target_player).board ↔
      ∀ j : Fin BOAT_SIZE, ∃ c : cell_t, (game.deref target_player).board.boats k j = some c ∧
        ((game.deref target_player).board.points c.1 c.2).is_shot = true := by
  refine ⟨boats_sunk_full_fleet _ hinv hfull, ?_, ?_⟩
  · exact (Finset.card_le_univ _).trans (by simp)
  · intro k
    have hk : k.val < (game.deref target_player).board.boats_count := by
      rw [hfull]
      exact k.isLt
    simp only [sunk_ships, ship_sunk, Finset.mem_filter, Finset.mem_univ, true_and, hk,
      mem_ship_cells]
    constructor
    · intro h j
      obtain ⟨c, hc⟩ := fleet_inv_valid _ hinv hfull k j
      exact ⟨c, hc, h c ⟨j, hc⟩⟩
    · rintro h c ⟨j, hj⟩
      obtain ⟨c', hc', hshot⟩ := h j
      rw [hj] at hc'
      cases hc'
      exact hshot

theorem fleet_inv_full_board : fleet_inv full_board :=
  fleet_inv_place_boats [(0, 0, HORIZONTAL), (0, 1, HORIZONTAL), (0, 2, HORIZONTAL)]
    (initialize_board empty_board) full_board (fleet_inv_initialize_board empty_board)
    (by decide) rfl

theorem fleet_inv_shot_board : fleet_inv shot_board :=
  (fleet_inv_shoot_cells [(0, 1), (1, 1), (2, 1), (3, 1), (4, 1), (0, 0)] full_board shot_board
    fleet_inv_full_board rfl).1

theorem boats_sunk_counts_sunk_ships_witness :
    fleet_inv ((sample_game_on shot_board).deref player_ref.player1).board ∧
    ((sample_game_on shot_board).deref player_ref.player1).board.boats_count
      = MAX_BOATS_PER_PLAYER ∧
    boats_sunk (sample_game_on shot_board) player_ref.player1 = some 1 ∧
    boats_sunk (sample_game_on shot_board) player_ref.player1
      = some (sunk_ships ((sample_game_on shot_board).deref player_ref.player1).board).card ∧
    (sunk_ships ((sample_game_on shot_board).deref player_ref.player1).board).card
      ≤ MAX_BOATS_PER_PLAYER :=
  ⟨fleet_inv_shot_board, rfl, rfl,
    (boats_sunk_counts_sunk_ships (sample_game_on shot_board) player_ref.player1
      fleet_inv_shot_board rfl).1,
    (boats_sunk_counts_sunk_ships (sample_game_on shot_board) player_ref.player1
      fleet_inv_shot_board rfl).2.1⟩

/-! ## The round loop -/

@[simp] theorem assign_shooting_player (game : game_t) (ref : player_ref) (p : player_t) :
    (game.assign ref p).shooting_player = game.shooting_player := by
  cases ref <;> rfl

@[simp] theorem assign_target_player (game : game_t) (ref : player_ref) (p : player_t) :
    (game.assign ref p).target_player = game.target_player := by
  cases ref <;> rfl

@[simp] theorem assign_is_game_over (game : game_t) (ref : player_ref) (p : player_t) :
    (game.assign ref p).is_game_over = game.is_game_over := by
  cases ref <;> rfl

@[simp] theorem set_game_over_deref (game : game_t) (ref : player_ref) :
    game.set_game_over.deref ref = game.deref ref := by
  cases ref <;> rfl

@[simp] theorem set_game_over_shooting_player (game : game_t) :
    game.set_game_over.shooting_player = game.shooting_player := rfl

@[simp] theorem set_game_over_target_player (game : game_t) :
    game.set_game_over.target_player = game.target_player := rfl

@[simp] theorem set_game_over_is_game_over (game : game_t) :
    game.set_game_over.is_game_over = true := rfl

theorem after_fresh_shot_shooter (game : game_t) (c : cell_t) :
    (after_fresh_shot game c).deref game.shooting_player
      = scored (game.deref game.shooting_player)
          ((game.deref game.target_player).board.points c.1 c.2).has_boat := by
  simp only [after_fresh_shot, deref_assign_same]

theorem after_fresh_shot_target (game : game_t) (c : cell_t)
    (hst : game.shooting_player ≠ game.target_player) :
    (after_fresh_shot game c).deref game.target_player
      = (game.deref game.target_player).set_board
          (set_point (game.deref game.target_player).board c
            (with_shot ((game.deref game.target_player).board.points c.1 c.2))) := by
  simp only [after_fresh_shot, deref_assign_ne _ _ _ _ hst.symm, deref_assign_same]

/-- One pass of the round loop on a cell that is already shot: the shot changes nothing
and the two tests are made on the counters as they were. -/
theorem round_step_shot (game : game_t) (hst : game.shooting_player ≠ game.target_player)
    (x y : Int) (c : cell_t) (hc : cell_index x y = some c)
    (hshot : ((game.deref game.target_player).board.points c.1 c.2).is_shot = true) :
    round_step game x y = some (
      if (game.deref game.shooting_player).boats_pieces_sunk
          ≥ MAX_BOATS_PER_PLAYER * BOAT_SIZE then
        (round_event.won,
          (game.assign game.shooting_player
            (game.deref game.shooting_player).inc_wins).set_game_over)
      else if (game.deref game.shooting_player).shoots ≥ MAX_SHOOTS_PER_PLAYER then
        (round_event.lost,
          (game.assign game.target_player
            (game.deref game.target_player).inc_wins).set_game_over)
      else (round_event.no_result, game)) := by
  simp only [round_step, shoot_and_print_result_spec game _ _ hst x y c hc, hshot, if_true]
  split_ifs <;> rfl

/-- One pass of the round loop on a cell that is not yet shot. -/
theorem round_step_fresh (game : game_t) (hst : game.shooting_player ≠ game.target_player)
    (x y : Int) (c : cell_t) (hc : cell_index x y = some c)
    (hfresh : ((game.deref game.target_player).board.points c.1 c.2).is_shot = false) :
    round_step game x y = some (
      if ((after_fresh_shot game c).deref game.shooting_player).boats_pieces_sunk
          ≥ MAX_BOATS_PER_PLAYER * BOAT_SIZE then
        (round_event.won,
          ((after_fresh_shot game c).assign game.shooting_player
            ((after_fresh_shot game c).deref game.shooting_player).inc_wins).set_game_over)
      else if ((after_fresh_shot game c).deref game.shooting_player).shoots
          ≥ MAX_SHOOTS_PER_PLAYER then
        (round_event.lost,
          ((after_fresh_shot game c).assign game.target_player
            ((after_fresh_shot game c).deref game.target_player).inc_wins).set_game_over)
      else (round_event.no_result, after_fresh_shot game c)) := by
  have hsar : shoot_and_print_result game game.shooting_player game.target_player x y
      = some (after_fresh_shot game c) := by
    rw [shoot_and_print_result_spec game _ _ hst x y c hc, hfresh]
    simp only [Bool.false_eq_true, if_false]
    rfl
  have h1 : (after_fresh_shot game c).shooting_player = game.shooting_player := by
    simp only [after_fresh_shot, assign_shooting_player]
  have h2 : (after_fresh_shot game c).target_player = game.target_player := by
    simp only [after_fresh_shot, assign_target_player]
  simp only [round_step, hsar, h1, h2]
  split_ifs <;> rfl

/-! ### Counting cells -/

theorem mem_shot_cells (board : board_t) (c : cell_t) :
    c ∈ shot_cells board ↔ (board.points c.1 c.2).is_shot = true := by
  simp only [shot_cells, Finset.mem_filter, Finset.mem_univ, true_and]

theorem mem_boat_cells (board : board_t) (c : cell_t) :
    c ∈ boat_cells board ↔ (board.points c.1 c.2).has_boat = true := by
  simp only [boat_cells, Finset.mem_filter, Finset.mem_univ, true_and]

theorem mem_hit_cells (board : board_t) (c : cell_t) :
    c ∈ hit_cells board ↔
      (board.points c.1 c.2).is_shot = true ∧ (board.points c.1 c.2).has_boat = true := by
  simp only [hit_cells, Finset.mem_filter, Finset.mem_univ, true_and]

theorem points_after_shot (board : board_t) (c c' : cell_t) :
    (set_point board c (with_shot (board.points c.1 c.2))).points c'.1 c'.2
      = if c' = c then with_shot (board.points c.1 c.2) else board.points c'.1 c'.2 := by
  by_cases h : c' = c
  · rw [if_pos h, h, set_point_points_self]
  · rw [if_neg h, set_point_points_ne board c c' _ h]

theorem shot_cells_after_shot (board : board_t) (c : cell_t) :
    shot_cells (set_point board c (with_shot (board.points c.1 c.2)))
      = insert c (shot_cells board) := by
  ext c'
  rw [Finset.mem_insert, mem_shot_cells, mem_shot_cells, points_after_shot]
  by_cases h : c' = c
  · simp only [h, if_true, with_shot, true_or]
  · simp only [h, if_false, false_or]

theorem hit_cells_after_hit (board : board_t) (c : cell_t)
    (hboat : (board.points c.1 c.2).has_boat = true) :
    hit_cells (set_point board c (with_shot (board.points c.1 c.2)))
      = insert c (hit_cells board) := by
  ext c'
  rw [Finset.mem_insert, mem_hit_cells, mem_hit_cells, points_after_shot]
  by_cases h : c' = c
  · simp only [h, if_true, with_shot, hboat, and_self, true_or]
  · simp only [h, if_false, false_or]

theorem hit_cells_after_miss (board : board_t) (c : cell_t)
    (hboat : (board.points c.1 c.2).has_boat = false) :
    hit_cells (set_point board c (with_shot (board.points c.1 c.2))) = hit_cells board := by
  ext c'
  rw [mem_hit_cells, mem_hit_cells, points_after_shot]
  by_cases h : c' = c
  · simp only [h, if_true, with_shot, hboat, Bool.false_eq_true, and_false]
  · simp only [h, if_false]

theorem hit_cells_subset_boat_cells (board : board_t) : hit_cells board ⊆ boat_cells board := by
  intro c hc
  exact (mem_boat_cells board c).2 ((mem_hit_cells board c).1 hc).2

theorem card_ship_cells (board : board_t) (k : Fin MAX_BOATS_PER_PLAYER) (x y : Int)
    (orientation : boat_orientation_t) (hrun : ship_is_run board k x y orientation) :
    (ship_cells board k).card = BOAT_SIZE := by
  rw [← card_in_run x y orientation hrun.1]
  congr 1
  ext c
  simp only [mem_ship_cells, Finset.mem_filter, Finset.mem_univ, true_and, in_run_iff]
  constructor
  · rintro ⟨i, hi⟩
    rw [hrun.2 i] at hi
    exact ⟨i.val, i.isLt, hi⟩
  · rintro ⟨i, hi, h⟩
    exact ⟨⟨i, hi⟩, by rw [hrun.2 ⟨i, hi⟩]; exact h⟩

/-- A complete fleet occupies `MAX_BOATS_PER_PLAYER * BOAT_SIZE` cells. -/
theorem card_boat_cells (board : board_t) (hinv : fleet_inv board)
    (hfull : board.boats_count = MAX_BOATS_PER_PLAYER) :
    (boat_cells board).card = MAX_BOATS_PER_PLAYER * BOAT_SIZE := by
  obtain ⟨_, hships, hcells, hdisj⟩ := hinv
  have hlt : ∀ k : Fin MAX_BOATS_PER_PLAYER, k.val < board.boats_count := by
    intro k
    rw [hfull]
    exact k.isLt
  have hunion : boat_cells board = Finset.univ.biUnion (ship_cells board) := by
    ext c
    rw [mem_boat_cells, hcells c, Finset.mem_biUnion]
    constructor
    · rintro ⟨k, _, hc⟩
      exact ⟨k, Finset.mem_univ _, hc⟩
    · rintro ⟨k, _, hc⟩
      exact ⟨k, hlt k, hc⟩
  rw [hunion, Finset.card_biUnion (fun k₁ _ k₂ _ hne => hdisj k₁ k₂ (hlt k₁) (hlt k₂) hne)]
  have hfive : ∀ k ∈ (Finset.univ : Finset (Fin MAX_BOATS_PER_PLAYER)),
      (ship_cells board k).card = BOAT_SIZE := by
    intro k _
    obtain ⟨x, y, orientation, hrun⟩ := hships k (hlt k)
    exact card_ship_cells board k x y orientation hrun
  rw [Finset.sum_congr rfl hfive]
  simp

/-- On a board with a complete fleet, `MAX_BOATS_PER_PLAYER * BOAT_SIZE` ship cells are
shot exactly when every ship cell is shot. -/
theorem card_hit_cells_iff (board : board_t) (hinv : fleet_inv board)
    (hfull : board.boats_count = MAX_BOATS_PER_PLAYER) :
    (hit_cells board).card ≤ MAX_BOATS_PER_PLAYER * BOAT_SIZE ∧
    (MAX_BOATS_PER_PLAYER * BOAT_SIZE ≤ (hit_cells board).card ↔
      ∀ c : cell_t, (board.points c.1 c.2).has_boat = true →
        (board.points c.1 c.2).is_shot = true) := by
  have hcard := card_boat_cells board hinv hfull
  have hsub := hit_cells_subset_boat_cells board
  refine ⟨hcard ▸ Finset.card_le_card hsub, ?_⟩
  constructor
  · intro hle c hc
    have heq : hit_cells board = boat_cells board :=
      Finset.eq_of_subset_of_card_le hsub (by rw [hcard]; exact hle)
    have : c ∈ hit_cells board := by
      rw [heq]
      exact (mem_boat_cells board c).2 hc
    exact ((mem_hit_cells board c).1 this).1
  · intro hall
    have heq : hit_cells board = boat_cells board := by
      ext c
      rw [mem_hit_cells, mem_boat_cells]
      exact ⟨fun h => h.2, fun h => ⟨hall c h, h⟩⟩
    rw [heq, hcard]

theorem fleet_inv_after_shot (board : board_t) (c : cell_t) (hinv : fleet_inv board) :
    fleet_inv (set_point board c (with_shot (board.points c.1 c.2))) := by
  refine fleet_inv_congr board _ rfl rfl (fun c' => ?_) hinv
  rw [points_after_shot]
  by_cases h : c' = c
  · rw [if_pos h, h]
    rfl
  · rw [if_neg h]

/-- After a fresh shot at `c`, the win condition on the number of hit ship cells holds
exactly when `c` was the last unshot ship cell. -/
theorem win_cond_iff_last_ship_cell (board : board_t) (c : cell_t) (hinv : fleet_inv board)
    (hfull : board.boats_count = MAX_BOATS_PER_PLAYER)
    (hlt : (hit_cells board).card < MAX_BOATS_PER_PLAYER * BOAT_SIZE)
    (hfresh : (board.points c.1 c.2).is_shot = false) :
    MAX_BOATS_PER_PLAYER * BOAT_SIZE
        ≤ (hit_cells (set_point board c (with_shot (board.points c.1 c.2)))).card
      ↔ last_ship_cell board c := by
  rw [(card_hit_cells_iff _ (fleet_inv_after_shot board c hinv) hfull).2]
  constructor
  · intro hall
    have hboat : (board.points c.1 c.2).has_boat = true := by
      by_contra hb
      have hb' : (board.points c.1 c.2).has_boat = false := by simpa using hb
      have hcard := (card_hit_cells_iff _ (fleet_inv_after_shot board c hinv) hfull).2.2 hall
      rw [hit_cells_after_miss board c hb'] at hcard
      omega
    refine ⟨hboat, hfresh, fun c' hne hb => ?_⟩
    have := hall c'
    rw [points_after_shot, if_neg hne] at this
    exact this hb
  · rintro ⟨hboat, _, hothers⟩ c'
    rw [points_after_shot]
    by_cases h : c' = c
    · rw [if_pos h]
      intro _
      rfl
    · rw [if_neg h]
      exact hothers c' h

/-- The counters of the shooter after a fresh shot still count the cells shot on the
target's board. -/
theorem scored_counts (board : board_t) (c : cell_t) (p : player_t)
    (hsunk : p.boats_pieces_sunk = (hit_cells board).card)
    (hshoots : p.shoots = (shot_cells board).card)
    (hfresh : (board.points c.1 c.2).is_shot = false) :
    (scored p (board.points c.1 c.2).has_boat).boats_pieces_sunk
      = (hit_cells (set_point board c (with_shot (board.points c.1 c.2)))).card ∧
    (scored p (board.points c.1 c.2).has_boat).shoots
      = (shot_cells (set_point board c (with_shot (board.points c.1 c.2)))).card ∧
    (scored p (board.points c.1 c.2).has_boat).shoots = p.shoots + 1 ∧
    (scored p (board.points c.1 c.2).has_boat).wins = p.wins := by
  have hnotshot : c ∉ shot_cells board := by
    rw [mem_shot_cells, hfresh]
    exact Bool.false_ne_true
  have hnothit : c ∉ hit_cells board := by
    rw [mem_hit_cells, hfresh]
    exact fun h => Bool.false_ne_true h.1
  rw [shot_cells_after_shot, Finset.card_insert_of_not_mem hnotshot]
  cases hb : (board.points c.1 c.2).has_boat
  · rw [hit_cells_after_miss board c hb]
    simp only [scored, Bool.false_eq_true, if_false, player_t.inc_shoots,
      player_t.inc_missed_shots, hsunk, hshoots, and_self]
  · rw [hit_cells_after_hit board c hb, Finset.card_insert_of_not_mem hnothit]
    simp only [scored, if_true, player_t.inc_shoots, player_t.inc_boats_pieces_sunk, hsunk,
      hshoots, and_self]

theorem inc_wins_fields (p : player_t) :
    p.inc_wins.board = p.board ∧ p.inc_wins.shoots = p.shoots ∧
    p.inc_wins.boats_pieces_sunk = p.boats_pieces_sunk ∧ p.inc_wins.wins = p.wins + 1 :=
  ⟨rfl, rfl, rfl, rfl⟩

theorem round_counts_after_fresh_shot (game : game_t) (c : cell_t) (h : round_counts game)
    (hfresh : ((game.deref game.target_player).board.points c.1 c.2).is_shot = false) :
    round_counts (after_fresh_shot game c) := by
  obtain ⟨hst, hfleet, hfull, hsunk, hshoots⟩ := h
  have h1 : (after_fresh_shot game c).shooting_player = game.shooting_player := by
    simp only [after_fresh_shot, assign_shooting_player]
  have h2 : (after_fresh_shot game c).target_player = game.target_player := by
    simp only [after_fresh_shot, assign_target_player]
  obtain ⟨hs1, hs2, _, _⟩ := scored_counts _ c _ hsunk hshoots hfresh
  unfold round_counts
  rw [h1, h2, after_fresh_shot_shooter, after_fresh_shot_target game c hst]
  exact ⟨hst, fleet_inv_after_shot _ c hfleet, hfull, hs1, hs2⟩

theorem round_counts_won (game : game_t) (h : round_counts game) :
    round_counts (game.assign game.shooting_player
      (game.deref game.shooting_player).inc_wins).set_game_over := by
  obtain ⟨hst, hfleet, hfull, hsunk, hshoots⟩ := h
  unfold round_counts
  simp only [set_game_over_shooting_player, set_game_over_target_player,
    assign_shooting_player, assign_target_player, set_game_over_deref, deref_assign_same,
    deref_assign_ne _ _ _ _ hst.symm]
  exact ⟨hst, hfleet, hfull, hsunk, hshoots⟩

theorem round_counts_lost (game : game_t) (h : round_counts game) :
    round_counts (game.assign game.target_player
      (game.deref game.target_player).inc_wins).set_game_over := by
  obtain ⟨hst, hfleet, hfull, hsunk, hshoots⟩ := h
  unfold round_counts
  simp only [set_game_over_shooting_player, set_game_over_target_player,
    assign_shooting_player, assign_target_player, set_game_over_deref, deref_assign_same,
    deref_assign_ne _ _ _ _ hst]
  exact ⟨hst, hfleet, hfull, hsunk, hshoots⟩

/-- One pass of the round loop from a state that satisfies the invariant and is not over:
the pass has a defined result, keeps the invariant and the two player pointers, and
prints the win exactly when the shot hit the last unshot ship cell. -/
theorem round_step_inv (game : game_t) (hinv : round_inv game)
    (hrun : game.is_game_over = false) (x y : Int) (c : cell_t)
    (hc : cell_index x y = some c) :
    ∃ event game', round_step game x y = some (event, game') ∧ round_inv game' ∧
      game'.shooting_player = game.shooting_player ∧
      game'.target_player = game.target_player ∧
      (event = round_event.won ↔ last_ship_cell (game.deref game.target_player).board c) ∧
      (event = round_event.won →
        game'.is_game_over = true ∧
        (game'.deref game.shooting_player).wins = (game.deref game.shooting_player).wins + 1 ∧
        (game'.deref game.target_player).wins = (game.deref game.target_player).wins ∧
        MAX_BOATS_PER_PLAYER * BOAT_SIZE ≤ (hit_cells (game'.deref game.target_player).board).card) := by
  obtain ⟨hcounts, hbounds⟩ := hinv
  obtain ⟨hlt15, hlt30⟩ := hbounds hrun
  have hst := hcounts.1
  by_cases hshot : ((game.deref game.target_player).board.points c.1 c.2).is_shot = true
  · refine ⟨round_event.no_result, game, ?_, ⟨hcounts, hbounds⟩, rfl, rfl, ?_, ?_⟩
    · rw [round_step_shot game hst x y c hc hshot, if_neg (by omega), if_neg (by omega)]
    · simp only [reduceCtorEq, false_iff]
      rintro ⟨_, hfresh, _⟩
      rw [hshot] at hfresh
      cases hfresh
    · intro h
      cases h
  · have hfresh : ((game.deref game.target_player).board.points c.1 c.2).is_shot = false := by
      simpa using hshot
    have hcounts' := round_counts_after_fresh_shot game c hcounts hfresh
    have h1 : (after_fresh_shot game c).shooting_player = game.shooting_player := by
      simp only [after_fresh_shot, assign_shooting_player]
    have h2 : (after_fresh_shot game c).target_player = game.target_player := by
      simp only [after_fresh_shot, assign_target_player]
    have hover : (after_fresh_shot game c).is_game_over = false := by
      simp only [after_fresh_shot, assign_is_game_over, hrun]
    obtain ⟨hs1, _, _, hw⟩ := scored_counts _ c _ hcounts.2.2.2.1 hcounts.2.2.2.2 hfresh
    have hT := after_fresh_shot_target game c hst
    have hS := after_fresh_shot_shooter game c
    have hiff := win_cond_iff_last_ship_cell _ c hcounts.2.1 hcounts.2.2.1
      (by rw [← hcounts.2.2.2.1]; exact hlt15) hfresh
    rw [← hs1, ← hS] at hiff
    rw [round_step_fresh game hst x y c hc hfresh]
    by_cases hwin : ((after_fresh_shot game c).deref game.shooting_player).boats_pieces_sunk
        ≥ MAX_BOATS_PER_PLAYER * BOAT_SIZE
    · rw [if_pos hwin]
      have hw' := round_counts_won _ hcounts'
      rw [h1] at hw'
      refine ⟨_, _, rfl, ⟨hw', fun h => by simp at h⟩, ?_, ?_, ?_, ?_⟩
      · simp only [set_game_over_shooting_player, assign_shooting_player, h1]
      · simp only [set_game_over_target_player, assign_target_player, h2]
      · simp only [true_iff]
        exact hiff.1 hwin
      · intro _
        refine ⟨rfl, ?_, ?_, ?_⟩
        · simp only [set_game_over_deref, deref_assign_same, (inc_wins_fields _).2.2.2, hS, hw]
        · simp only [set_game_over_deref, deref_assign_ne _ _ _ _ hst.symm, hT]
          rfl
        · simp only [set_game_over_deref, deref_assign_ne _ _ _ _ hst.symm, hT]
          rw [hS, hs1] at hwin
          exact hwin
    · rw [if_neg hwin]
      have hnot : ¬ last_ship_cell (game.deref game.target_player).board c :=
        fun h => hwin (hiff.2 h)
      by_cases hlose : ((after_fresh_shot game c).deref game.shooting_player).shoots
          ≥ MAX_SHOOTS_PER_PLAYER
      · rw [if_pos hlose]
        have hl' := round_counts_lost _ hcounts'
        rw [h2] at hl'
        refine ⟨_, _, rfl, ⟨hl', fun h => by simp at h⟩, ?_, ?_, ?_, ?_⟩
        · simp only [set_game_over_shooting_player, assign_shooting_player, h1]
        · simp only [set_game_over_target_player, assign_target_player, h2]
        · simp only [reduceCtorEq, false_iff]
          exact hnot
        · intro h
          cases h
      · rw [if_neg hlose]
        refine ⟨_, _, rfl, ⟨hcounts', fun _ => ?_⟩, h1, h2, ?_, ?_⟩
        · rw [h1]
          exact ⟨by omega, by omega⟩
        · simp only [reduceCtorEq, false_iff]
          exact hnot
        · intro h
          cases h

theorem round_loop_inv (shots : List (Int × Int)) :
    ∀ game : game_t, round_inv game → (∀ shot ∈ shots, inside shot) →
      ∃ game', round_loop game shots = some game' ∧ round_inv game' ∧
        game'.shooting_player = game.shooting_player ∧
        game'.target_player = game.target_player := by
  induction shots with
  | nil =>
    intro game hinv _
    exact ⟨game, rfl, hinv, rfl, rfl⟩
  | cons shot rest ih =>
    intro game hinv hin
    obtain ⟨x, y⟩ := shot
    cases hover : game.is_game_over with
    | true =>
      refine ⟨game, ?_, hinv, rfl, rfl⟩
      simp only [round_loop, hover, if_true]
    | false =>
      obtain ⟨c, hc⟩ := (cell_index_isSome_iff x y).2 (hin (x, y) (List.mem_cons_self _ _))
      obtain ⟨event, game₁, hstep, hinv₁, hs, ht, _⟩ := round_step_inv game hinv hover x y c hc
      obtain ⟨game', hloop, hinv', hs', ht'⟩ :=
        ih game₁ hinv₁ (fun shot h => hin shot (List.mem_cons_of_mem _ h))
      refine ⟨game', ?_, hinv', hs'.trans hs, ht'.trans ht⟩
      simp only [round_loop, hover, Bool.false_eq_true, if_false, hstep]
      exact hloop

theorem card_eq_zero_of_forall_not (board : board_t)
    (h : ∀ c : cell_t, (board.points c.1 c.2).is_shot = false) :
    (shot_cells board).card = 0 ∧ (hit_cells board).card = 0 := by
  constructor
  · rw [Finset.card_eq_zero, Finset.eq_empty_iff_forall_not_mem]
    intro c hc
    rw [mem_shot_cells, h c] at hc
    cases hc
  · rw [Finset.card_eq_zero, Finset.eq_empty_iff_forall_not_mem]
    intro c hc
    rw [mem_hit_cells, h c] at hc
    cases hc.1

theorem round_inv_of_round_start (game : game_t) (h : round_start game) : round_inv game := by
  obtain ⟨hst, _, hshoots, _, hsunk, hfleet, hfull, hnone⟩ := h
  obtain ⟨h1, h2⟩ := card_eq_zero_of_forall_not _ hnone
  refine ⟨⟨hst, hfleet, hfull, by rw [hsunk, h2], by rw [hshoots, h1]⟩, fun _ => ?_⟩
  rw [hsunk, hshoots]
  exact ⟨by decide, by decide⟩

/-- When every cell of a complete fleet is shot, `boats_sunk` returns
`MAX_BOATS_PER_PLAYER`. -/
theorem boats_sunk_all_hit (game : game_t) (target_player : player_ref)
    (hinv : fleet_inv (game.deref target_player).board)
    (hfull : (game.deref target_player).board.boats_count = MAX_BOATS_PER_PLAYER)
    (hall : MAX_BOATS_PER_PLAYER * BOAT_SIZE
      ≤ (hit_cells (game.deref target_player).board).card) :
    boats_sunk game target_player = some MAX_BOATS_PER_PLAYER := by
  have hshot := (card_hit_cells_iff _ hinv hfull).2.1 hall
  have huniv : sunk_ships (game.deref target_player).board = Finset.univ := by
    ext k
    have hk : k.val < (game.deref target_player).board.boats_count := by
      rw [hfull]
      exact k.isLt
    simp only [sunk_ships, ship_sunk, Finset.mem_filter, Finset.mem_univ, true_and, hk,
      iff_true]
    intro c hc
    exact hshot c ((hinv.2.2.1 c).2 ⟨k, hk, hc⟩)
  unfold boats_sunk
  rw [boats_sunk_full_fleet _ hinv hfull, huniv]
  simp

theorem ask_boats_loop_spec (inputs : List (Int × Int × boat_orientation_t)) :
    ∀ (n : Nat) (board board' : board_t), fleet_inv board →
      board.boats_count + n = MAX_BOATS_PER_PLAYER →
      (∀ input ∈ inputs, in_range input) →
      ask_boats_loop n board inputs = some board' →
      fleet_inv board' ∧ board'.boats_count = MAX_BOATS_PER_PLAYER ∧
      ∀ c : cell_t, (board'.points c.1 c.2).is_shot = (board.points c.1 c.2).is_shot := by
  induction inputs with
  | nil =>
    intro n board board' hinv hn _ h
    cases n with
    | zero =>
      simp only [ask_boats_loop, Option.some.injEq] at h
      subst h
      exact ⟨hinv, by omega, fun _ => rfl⟩
    | succ n => simp only [ask_boats_loop, reduceCtorEq] at h
  | cons input rest ih =>
    intro n board board' hinv hn hin h
    obtain ⟨x, y, orientation⟩ := input
    have hr : in_range (x, y, orientation) := hin _ (List.mem_cons_self _ _)
    have hrest : ∀ input ∈ rest, in_range input := fun i hi => hin i (List.mem_cons_of_mem _ hi)
    cases n with
    | zero =>
      simp only [ask_boats_loop, Option.some.injEq] at h
      subst h
      exact ⟨hinv, by omega, fun _ => rfl⟩
    | succ n =>
      simp only [ask_boats_loop] at h
      split at h
      · cases h
      · rename_i b hplace
        obtain ⟨hinv', hcnt, _, _, hshot, _⟩ :=
          fleet_inv_place_boat board x y orientation b hinv ⟨hr.1, hr.2.1⟩
            ⟨hr.2.2.1, hr.2.2.2⟩ hplace
        obtain ⟨h1, h2, h3⟩ := ih n b board' hinv' (by omega) hrest h
        exact ⟨h1, h2, fun c => (h3 c).trans (hshot c)⟩
      · rename_i b hplace
        rcases place_boat_cases board x y orientation false b hplace with ⟨_, hb⟩ | ⟨hf, _⟩
        · subst hb
          exact ih (n + 1) b board' hinv hn hrest h
        · cases hf

/-- The state in which `main` enters the round loop, in the first round and after a
replay, is a `round_start` state. -/
theorem round_start_of_start_round (game game₀ : game_t) (replay : Bool)
    (inputs : List (Int × Int × boat_orientation_t))
    (hin : ∀ input ∈ inputs, in_range input)
    (h : start_round game replay inputs = some game₀) : round_start game₀ := by
  cases replay with
  | false =>
    simp only [start_round, Bool.false_eq_true, if_false, ask_boats_positions, new_game,
      game_t.deref] at h
    split at h
    · cases h
    · rename_i board hask
      simp only [Option.some.injEq] at h
      subst h
      obtain ⟨h1, h2, h3⟩ := ask_boats_loop_spec inputs _ _ board
        (fleet_inv_initialize_board game.player1.board) rfl hin hask
      exact ⟨by simp [game_t.assign], rfl, rfl, rfl, rfl, h1, h2, fun c => (h3 c).trans rfl⟩
  | true =>
    simp only [start_round, if_true, ask_boats_positions, new_game, swap_players,
      game_t.deref] at h
    split at h
    · cases h
    · rename_i board hask
      simp only [Option.some.injEq] at h
      subst h
      obtain ⟨h1, h2, h3⟩ := ask_boats_loop_spec inputs _ _ board
        (fleet_inv_initialize_board game.player2.board) rfl hin hask
      exact ⟨by simp [game_t.assign], rfl, rfl, rfl, rfl, h1, h2, fun c => (h3 c).trans rfl⟩

theorem round_start_first_round : round_start first_round :=
  round_start_of_start_round sample_game first_round false
    [(0, 0, HORIZONTAL), (2, 0, VERTICAL), (0, 1, HORIZONTAL), (0, 2, HORIZONTAL)]
    (by decide) rfl

theorem round_loop_over (game : game_t) (shots : List (Int × Int))
    (h : game.is_game_over = true) : round_loop game shots = some game := by
  cases shots with
  | nil => rfl
  | cons shot rest =>
    obtain ⟨x, y⟩ := shot
    simp only [round_loop, h, if_true]

theorem cells_of_cons (x y : Int) (c : cell_t) (rest : List (Int × Int))
    (hc : cell_index x y = some c) : cells_of ((x, y) :: rest) = insert c (cells_of rest) := by
  simp only [cells_of, List.filterMap_cons, hc, List.toFinset_cons]

/-- One pass of the round loop whose shot is a fresh miss, from a state that satisfies
the invariant and is not over: the shooter loses exactly when this was shot number
`MAX_SHOOTS_PER_PLAYER`. -/
theorem round_step_miss (game : game_t) (hinv : round_inv game)
    (hrun : game.is_game_over = false) (x y : Int) (c : cell_t)
    (hc : cell_index x y = some c)
    (hfresh : ((game.deref game.target_player).board.points c.1 c.2).is_shot = false)
    (hwater : ((game.deref game.target_player).board.points c.1 c.2).has_boat = false) :
    ∃ event game', round_step game x y = some (event, game') ∧ round_inv game' ∧
      game'.shooting_player = game.shooting_player ∧
      game'.target_player = game.target_player ∧
      (game'.deref game.target_player).board
        = set_point (game.deref game.target_player).board c
            (with_shot ((game.deref game.target_player).board.points c.1 c.2)) ∧
      (game'.deref game.shooting_player).wins = (game.deref game.shooting_player).wins ∧
      (game'.is_game_over = true ↔
        MAX_SHOOTS_PER_PLAYER ≤ (game.deref game.shooting_player).shoots + 1) ∧
      (game'.deref game.target_player).wins = (game.deref game.target_player).wins +
        (if MAX_SHOOTS_PER_PLAYER ≤ (game.deref game.shooting_player).shoots + 1 then 1
          else 0) := by
  obtain ⟨hcounts, hbounds⟩ := hinv
  obtain ⟨hlt15, hlt30⟩ := hbounds hrun
  have hst := hcounts.1
  have hcounts' := round_counts_after_fresh_shot game c hcounts hfresh
  have h1 : (after_fresh_shot game c).shooting_player = game.shooting_player := by
    simp only [after_fresh_shot, assign_shooting_player]
  have h2 : (after_fresh_shot game c).target_player = game.target_player := by
    simp only [after_fresh_shot, assign_target_player]
  have hover : (after_fresh_shot game c).is_game_over = false := by
    simp only [after_fresh_shot, assign_is_game_over, hrun]
  have hT := after_fresh_shot_target game c hst
  have hS := after_fresh_shot_shooter game c
  rw [hwater] at hS
  have hsunk : ((after_fresh_shot game c).deref game.shooting_player).boats_pieces_sunk
      = (game.deref game.shooting_player).boats_pieces_sunk := by
    rw [hS]
    rfl
  have hshoots : ((after_fresh_shot game c).deref game.shooting_player).shoots
      = (game.deref game.shooting_player).shoots + 1 := by
    rw [hS]
    rfl
  have hwins : ((after_fresh_shot game c).deref game.shooting_player).wins
      = (game.deref game.shooting_player).wins := by
    rw [hS]
    rfl
  rw [round_step_fresh game hst x y c hc hfresh, if_neg (by rw [hsunk]; omega)]
  by_cases hlose : ((after_fresh_shot game c).deref game.shooting_player).shoots
      ≥ MAX_SHOOTS_PER_PLAYER
  · rw [if_pos hlose]
    have hl' := round_counts_lost _ hcounts'
    rw [h2] at hl'
    rw [hshoots] at hlose
    refine ⟨_, _, rfl, ⟨hl', fun h => by simp at h⟩, ?_, ?_, ?_, ?_, ?_, ?_⟩
    · simp only [set_game_over_shooting_player, assign_shooting_player, h1]
    · simp only [set_game_over_target_player, assign_target_player, h2]
    · simp only [set_game_over_deref, deref_assign_same, (inc_wins_fields _).1, hT]
      rfl
    · simp only [set_game_over_deref, deref_assign_ne _ _ _ _ hst, hwins]
    · simp only [set_game_over_is_game_over, true_iff]
      exact hlose
    · simp only [set_game_over_deref, deref_assign_same, (inc_wins_fields _).2.2.2, hT]
      rw [if_pos hlose]
      rfl
  · rw [if_neg hlose]
    rw [hshoots] at hlose
    refine ⟨_, _, rfl, ⟨hcounts', fun _ => ?_⟩, h1, h2, ?_, hwins, ?_, ?_⟩
    · rw [h1, hsunk, hshoots]
      exact ⟨hlt15, by omega⟩
    · rw [hT]
      rfl
    · rw [hover]
      simp only [Bool.false_eq_true, false_iff]
      exact hlose
    · rw [hT, if_neg hlose]
      rfl

/-- The round loop on shots that all miss: the game is over at the end exactly when
`MAX_SHOOTS_PER_PLAYER` different cells have been shot, and then the target has won. -/
theorem round_loop_misses (shots : List (Int × Int)) :
    ∀ game : game_t, round_inv game → game.is_game_over = false →
      (∀ shot ∈ shots, inside shot) →
      (∀ shot ∈ shots, ∀ c : cell_t, cell_index shot.1 shot.2 = some c →
        ((game.deref game.target_player).board.points c.1 c.2).has_boat = false) →
      ∃ game', round_loop game shots = some game' ∧
        game'.shooting_player = game.shooting_player ∧
        game'.target_player = game.target_player ∧
        (game'.is_game_over = true ↔ MAX_SHOOTS_PER_PLAYER
          ≤ (shot_cells (game.deref game.target_player).board ∪ cells_of shots).card) ∧
        (game'.deref game.target_player).wins = (game.deref game.target_player).wins +
          (if MAX_SHOOTS_PER_PLAYER
              ≤ (shot_cells (game.deref game.target_player).board ∪ cells_of shots).card
            then 1 else 0) ∧
        (game'.deref game.shooting_player).wins = (game.deref game.shooting_player).wins := by
  induction shots with
  | nil =>
    intro game hinv hrun _ _
    have hlt := (hinv.2 hrun).2
    rw [hinv.1.2.2.2.2] at hlt
    have hcard : ¬ MAX_SHOOTS_PER_PLAYER
        ≤ (shot_cells (game.deref game.target_player).board ∪ cells_of []).card := by
      simp only [cells_of, List.filterMap_nil, List.toFinset_nil, Finset.union_empty]
      omega
    refine ⟨game, rfl, rfl, rfl, ?_, by rw [if_neg hcard]; rfl, rfl⟩
    rw [hrun]
    simp only [Bool.false_eq_true, false_iff]
    exact hcard
  | cons shot rest ih =>
    intro game hinv hrun hin hwater
    obtain ⟨x, y⟩ := shot
    obtain ⟨c, hc⟩ := (cell_index_isSome_iff x y).2 (hin (x, y) (List.mem_cons_self _ _))
    have hin' : ∀ shot ∈ rest, inside shot := fun sh h => hin sh (List.mem_cons_of_mem _ h)
    rw [cells_of_cons x y c rest hc]
    by_cases hshot : ((game.deref game.target_player).board.points c.1 c.2).is_shot = true
    · obtain ⟨hlt15, hlt30⟩ := hinv.2 hrun
      have hstep : round_step game x y = some (round_event.no_result, game) := by
        rw [round_step_shot game hinv.1.1 x y c hc hshot, if_neg (by omega), if_neg (by omega)]
      have hmem : c ∈ shot_cells (game.deref game.target_player).board ∪ cells_of rest :=
        Finset.mem_union_left _ ((mem_shot_cells _ c).2 hshot)
      rw [Finset.union_insert, Finset.insert_eq_of_mem hmem]
      obtain ⟨game', hloop, h⟩ :=
        ih game hinv hrun hin' (fun sh h => hwater sh (List.mem_cons_of_mem _ h))
      refine ⟨game', ?_, h⟩
      simp only [round_loop, hrun, Bool.false_eq_true, if_false, hstep]
      exact hloop
    · have hfresh : ((game.deref game.target_player).board.points c.1 c.2).is_shot = false := by
        simpa using hshot
      have hw := hwater (x, y) (List.mem_cons_self _ _) c hc
      obtain ⟨event, game₁, hstep, hinv₁, h1, h2, hboard, hswins, hover, htwins⟩ :=
        round_step_miss game hinv hrun x y c hc hfresh hw
      have hnotshot : c ∉ shot_cells (game.deref game.target_player).board := by
        rw [mem_shot_cells, hfresh]
        exact Bool.false_ne_true
      have hloop₁ : round_loop game ((x, y) :: rest) = round_loop game₁ rest := by
        simp only [round_loop, hrun, Bool.false_eq_true, if_false, hstep]
      rw [hloop₁]
      by_cases hl : MAX_SHOOTS_PER_PLAYER ≤ (game.deref game.shooting_player).shoots + 1
      · have hcard : MAX_SHOOTS_PER_PLAYER ≤ (shot_cells (game.deref game.target_player).board
            ∪ insert c (cells_of rest)).card := by
          have hsub : insert c (shot_cells (game.deref game.target_player).board)
              ⊆ shot_cells (game.deref game.target_player).board ∪ insert c (cells_of rest) := by
            intro a ha
            rcases Finset.mem_insert.1 ha with h | h
            · rw [h]
              exact Finset.mem_union_right _ (Finset.mem_insert_self c _)
            · exact Finset.mem_union_left _ h
          have := Finset.card_le_card hsub
          rw [Finset.card_insert_of_not_mem hnotshot, ← hinv.1.2.2.2.2] at this
          omega
        rw [if_pos hl] at htwins
        refine ⟨game₁, round_loop_over game₁ rest (hover.2 hl), h1, h2, ?_, ?_, hswins⟩
        · exact ⟨fun _ => hcard, fun _ => hover.2 hl⟩
        · rw [if_pos hcard]
          exact htwins
      · have hrun₁ : game₁.is_game_over = false := by
          cases h : game₁.is_game_over
          · rfl
          · exact absurd (hover.1 h) hl
        rw [if_neg hl] at htwins
        obtain ⟨game', hloop, hs', ht', hover', htwins', hswins'⟩ := ih game₁ hinv₁ hrun₁ hin' (by
          intro sh hsh c' hc'
          rw [h2, hboard, points_after_shot]
          have := hwater sh (List.mem_cons_of_mem _ hsh) c' hc'
          by_cases hcc : c' = c
          · rw [if_pos hcc]
            exact hw
          · rw [if_neg hcc]
            exact this)
        rw [h2, hboard, shot_cells_after_shot, Finset.insert_union, ← Finset.union_insert]
          at hover' htwins'
        rw [htwins, Nat.add_zero] at htwins'
        rw [h1, hswins] at hswins'
        exact ⟨game', hloop, hs'.trans h1, ht'.trans h2, hover', htwins', hswins'⟩

/-- C16: whatever the board held before, `initialize_board` leaves every one of the 20x20
cells with `is_shot = false` and `has_boat = false`, and `boats_count` equal to 0. -/
theorem initialize_board_clears (board : board_t) :
    (∀ (i : Fin NUMBER_OF_COLUMNS) (j : Fin NUMBER_OF_ROWS),
      (initialize_board board).points i j = { is_shot := false, has_boat := false }) ∧
    (initialize_board board).boats_count = 0 :=
  ⟨fun _ _ => rfl, rfl⟩

/-- C14: for every game state, `new_game` sets both players' `shoots`, `missed_shots` and
`boats_pieces_sunk` to 0, leaves every cell of both boards with `is_shot = false` and
`has_boat = false` and both `boats_count` at 0, sets `is_game_over` to false, and leaves
both players' `wins` and names unchanged. -/
theorem new_game_resets (game : game_t) :
    (∀ ref : player_ref,
      ((new_game game).deref ref).shoots = 0 ∧
      ((new_game game).deref ref).missed_shots = 0 ∧
      ((new_game game).deref ref).boats_pieces_sunk = 0 ∧
      (∀ (i : Fin NUMBER_OF_COLUMNS) (j : Fin NUMBER_OF_ROWS),
        ((new_game game).deref ref).board.points i j
          = { is_shot := false, has_boat := false }) ∧
      ((new_game game).deref ref).board.boats_count = 0 ∧
      ((new_game game).deref ref).wins = (game.deref ref).wins ∧
      ((new_game game).deref ref).name = (game.deref ref).name) ∧
    (new_game game).is_game_over = false := by
  refine ⟨fun ref => ?_, rfl⟩
  cases ref <;> exact ⟨rfl, rfl, rfl, fun _ _ => rfl, rfl, rfl, rfl⟩

/-! ## Index safety -/

/-- C19: on a board with `boats_count < MAX_BOATS_PER_PLAYER`, for an in-range start and
either orientation, `can_place_boat`, `place_boat` and `shoot` all have a defined result:
no subscript of `points` or of `boats` they use is outside its array. -/
theorem validated_calls_defined (board : board_t) (x y : Int)
    (orientation : boat_orientation_t)
    (hcount : board.boats_count < MAX_BOATS_PER_PLAYER)
    (hx : 0 ≤ x ∧ x < (NUMBER_OF_COLUMNS : Nat)) (hy : 0 ≤ y ∧ y < (NUMBER_OF_ROWS : Nat)) :
    (∃ r, can_place_boat board x y orientation = some r) ∧
    (∃ r board', place_boat board x y orientation = some (r, board')) ∧
    (∃ r board', shoot board x y = some (r, board')) := by
  obtain ⟨r, hr, _⟩ := can_place_boat_spec board x y orientation hx hy
  refine ⟨⟨r, hr⟩, ?_, ?_⟩
  · cases r with
    | false => exact ⟨false, board, by simp only [place_boat, hr]⟩
    | true =>
      obtain ⟨_, _, board', hplace, _⟩ :=
        place_boat_success board x y orientation hcount hx hy hr
      exact ⟨true, board', hplace⟩
  · obtain ⟨c, hc⟩ := (cell_index_isSome_iff x y).2 ⟨hx.1, hx.2, hy.1, hy.2⟩
    by_cases hshot : (board.points c.1 c.2).is_shot = true
    · exact ⟨false, board, shoot_again board x y c hc hshot⟩
    · exact ⟨true, _, shoot_fresh board x y c hc (by simpa using hshot)⟩

theorem validated_calls_defined_witness :
    one_boat_board.boats_count < MAX_BOATS_PER_PLAYER ∧
    (0 ≤ (19 : Int) ∧ (19 : Int) < (NUMBER_OF_COLUMNS : Nat)) ∧
    (0 ≤ (15 : Int) ∧ (15 : Int) < (NUMBER_OF_ROWS : Nat)) ∧
    (∃ r, can_place_boat one_boat_board 19 15 VERTICAL = some r) ∧
    (∃ r board', place_boat one_boat_board 19 15 VERTICAL = some (r, board')) ∧
    (∃ r board', shoot one_boat_board 19 15 = some (r, board')) :=
  ⟨by decide, by decide, by decide,
    validated_calls_defined one_boat_board 19 15 VERTICAL (by decide) (by decide) (by decide)⟩

/-! ## The shape of recorded ships -/

/-- What a successful `place_boat` records, for an in-range start, on any board. -/
theorem place_boat_records (board : board_t) (x y : Int) (orientation : boat_orientation_t)
    (board' : board_t)
    (hx : 0 ≤ x ∧ x < (NUMBER_OF_COLUMNS : Nat)) (hy : 0 ≤ y ∧ y < (NUMBER_OF_ROWS : Nat))
    (h : place_boat board x y orientation = some (true, board')) :
    board.boats_count < MAX_BOATS_PER_PLAYER ∧
    board'.boats_count = board.boats_count + 1 ∧
    (∀ k : Fin MAX_BOATS_PER_PLAYER, k.val = board.boats_count →
      ship_is_run board' k x y orientation ∧
      ∀ i : Fin BOAT_SIZE, ∃ c : cell_t, board'.boats k i = some c ∧
        (board'.points c.1 c.2).has_boat = true) ∧
    (∀ k : Fin MAX_BOATS_PER_PLAYER, k.val < board.boats_count →
      ∀ i, board'.boats k i = board.boats k i) := by
  rcases place_boat_cases board x y orientation true board' h with ⟨hf, _⟩ | ⟨_, hcan, hcount, _⟩
  · cases hf
  obtain ⟨hin, _, b, hplace, hcnt, _, hboat, hboats⟩ :=
    place_boat_success board x y orientation hcount hx hy hcan
  rw [h] at hplace
  simp only [Option.some.injEq, Prod.mk.injEq, true_and] at hplace
  subst hplace
  refine ⟨hcount, hcnt, fun k hk => ⟨⟨hin, fun i => ?_⟩, fun i => ?_⟩, fun k hk i => ?_⟩
  · rw [hboats k i, if_pos hk]
  · have hex : ∃ c : cell_t, cell_index (run_cell x y orientation i.val).1
        (run_cell x y orientation i.val).2 = some c :=
      (cell_index_isSome_iff _ _).2 (hin i.val i.isLt)
    obtain ⟨c, hc⟩ := hex
    refine ⟨c, by rw [hboats k i, if_pos hk, hc], (hboat c).2 (Or.inr ?_)⟩
    exact (in_run_iff x y orientation c).2 ⟨i.val, i.isLt, hc⟩
  · rw [hboats k i, if_neg (by omega)]

/-- C17: on every board reached from `initialize_board` by `place_boat` calls with
in-range starts, each recorded ship `boats[k]`, `k < boats_count`, references in order
`i = 0..4` the cells `(x, y+i)` (`VERTICAL`) or `(x+i, y)` (`HORIZONTAL`) of a run with an
in-range start `(x, y)`, all inside the grid and all with `has_boat` set, and at most
`MAX_BOATS_PER_PLAYER` ships are recorded; each successful call records its own run as
ship number `boats_count`, increases `boats_count` by exactly 1 and leaves the ships
recorded before unchanged. -/
theorem recorded_ship_shape :
    (∀ (board₀ board : board_t) (calls : List (Int × Int × boat_orientation_t)),
      (∀ call ∈ calls, in_range call) →
      place_boats (initialize_board board₀) calls = some board →
      board.boats_count ≤ MAX_BOATS_PER_PLAYER ∧
      ∀ k : Fin MAX_BOATS_PER_PLAYER, k.val < board.boats_count →
        ∃ (x y : Int) (orientation : boat_orientation_t), inside (x, y) ∧
          (∀ i, i < BOAT_SIZE → inside (run_cell x y orientation i)) ∧
          ∀ i : Fin BOAT_SIZE, ∃ c : cell_t,
            cell_index (run_cell x y orientation i.val).1 (run_cell x y orientation i.val).2
              = some c ∧
            board.boats k i = some c ∧ (board.points c.1 c.2).has_boat = true) ∧
    (∀ (board board' : board_t) (x y : Int) (orientation : boat_orientation_t),
      0 ≤ x ∧ x < (NUMBER_OF_COLUMNS : Nat) → 0 ≤ y ∧ y < (NUMBER_OF_ROWS : Nat) →
      place_boat board x y orientation = some (true, board') →
      board'.boats_count = board.boats_count + 1 ∧
      (∀ k : Fin MAX_BOATS_PER_PLAYER, k.val = board.boats_count →
        ∀ i : Fin BOAT_SIZE, ∃ c : cell_t,
          cell_index (run_cell x y orientation i.val).1 (run_cell x y orientation i.val).2
            = some c ∧
          board'.boats k i = some c ∧ (board'.points c.1 c.2).has_boat = true) ∧
      (∀ k : Fin MAX_BOATS_PER_PLAYER, k.val < board.boats_count →
        ∀ i, board'.boats k i = board.boats k i)) := by
  constructor
  · intro board₀ board calls hrange hreach
    have hinv := fleet_inv_place_boats calls _ board (fleet_inv_initialize_board board₀)
      hrange hreach
    refine ⟨hinv.1, fun k hk => ?_⟩
    obtain ⟨x, y, orientation, hin, hrun⟩ := hinv.2.1 k hk
    have h0 := hin 0 (by decide)
    refine ⟨x, y, orientation, ?_, hin, fun i => ?_⟩
    · cases orientation <;> simpa [run_cell, inside] using h0
    · have hex : ∃ c : cell_t, cell_index (run_cell x y orientation i.val).1
          (run_cell x y orientation i.val).2 = some c :=
        (cell_index_isSome_iff _ _).2 (hin i.val i.isLt)
      obtain ⟨c, hc⟩ := hex
      refine ⟨c, hc, by rw [hrun i, hc], (hinv.2.2.1 c).2 ⟨k, hk, ?_⟩⟩
      exact (mem_ship_cells board k c).2 ⟨i, by rw [hrun i, hc]⟩
  · intro board board' x y orientation hx hy h
    obtain ⟨_, hcnt, hnew, hold⟩ := place_boat_records board x y orientation board' hx hy h
    refine ⟨hcnt, fun k hk i => ?_, hold⟩
    obtain ⟨hrun, hcells⟩ := hnew k hk
    obtain ⟨c, hc, hb⟩ := hcells i
    exact ⟨c, by rw [← hrun.2 i, hc], hc, hb⟩

theorem recorded_ship_shape_witness :
    (∀ call ∈ [((0 : Int), (0 : Int), HORIZONTAL), (2, 0, VERTICAL), (7, 3, VERTICAL)],
      in_range call) ∧
    place_boats (initialize_board empty_board)
      [(0, 0, HORIZONTAL), (2, 0, VERTICAL), (7, 3, VERTICAL)] = some two_boat_board ∧
    two_boat_board.boats_count = 2 ∧
    two_boat_board.boats 1 2 = some (7, 5) ∧
    (two_boat_board.boats_count ≤ MAX_BOATS_PER_PLAYER ∧
      ∀ k : Fin MAX_BOATS_PER_PLAYER, k.val < two_boat_board.boats_count →
        ∃ (x y : Int) (orientation : boat_orientation_t), inside (x, y) ∧
          (∀ i, i < BOAT_SIZE → inside (run_cell x y orientation i)) ∧
          ∀ i : Fin BOAT_SIZE, ∃ c : cell_t,
            cell_index (run_cell x y orientation i.val).1 (run_cell x y orientation i.val).2
              = some c ∧
            two_boat_board.boats k i = some c ∧
            (two_boat_board.points c.1 c.2).has_boat = true) ∧
    (0 ≤ (0 : Int) ∧ (0 : Int) < (NUMBER_OF_COLUMNS : Nat)) ∧
    (0 ≤ (3 : Int) ∧ (3 : Int) < (NUMBER_OF_ROWS : Nat)) ∧
    (place_boat one_boat_board 0 3 HORIZONTAL).map Prod.fst = some true ∧
    ∀ board', place_boat one_boat_board 0 3 HORIZONTAL = some (true, board') →
      board'.boats_count = one_boat_board.boats_count + 1 ∧
      (∀ k : Fin MAX_BOATS_PER_PLAYER, k.val = one_boat_board.boats_count →
        ∀ i : Fin BOAT_SIZE, ∃ c : cell_t,
          cell_index (run_cell 0 3 HORIZONTAL i.val).1 (run_cell 0 3 HORIZONTAL i.val).2
            = some c ∧
          board'.boats k i = some c ∧ (board'.points c.1 c.2).has_boat = true) ∧
      (∀ k : Fin MAX_BOATS_PER_PLAYER, k.val < one_boat_board.boats_count →
        ∀ i, board'.boats k i = one_boat_board.boats k i) :=
  ⟨by decide, rfl, rfl, rfl,
    recorded_ship_shape.1 empty_board two_boat_board
      [(0, 0, HORIZONTAL), (2, 0, VERTICAL), (7, 3, VERTICAL)] (by decide) rfl,
    by decide, by decide, rfl,
    fun board' => recorded_ship_shape.2 one_boat_board board' 0 3 HORIZONTAL (by decide)
      (by decide)⟩

/-! ## Turns -/

/-- C13: in a round entered as `main` enters it (`start_round`, in-range inputs), after any
sequence of in-range shots the loop has a defined state, and as long as the game is not
over a pass of the round loop whose target cell is already shot leaves the whole game
state unchanged: counters, `wins`, boards, the two player pointers and `is_game_over`. -/
theorem already_shot_turn_unchanged (game₁ game₀ : game_t) (replay : Bool)
    (inputs : List (Int × Int × boat_orientation_t))
    (hin : ∀ input ∈ inputs, in_range input)
    (hstart : start_round game₁ replay inputs = some game₀)
    (shots : List (Int × Int)) (hshots : ∀ shot ∈ shots, inside shot)
    (x y : Int) (hxy : inside (x, y)) :
    ∃ (game : game_t) (c : cell_t), round_loop game₀ shots = some game ∧
      cell_index x y = some c ∧
      (game.is_game_over = false →
        ((game.deref game.target_player).board.points c.1 c.2).is_shot = true →
        round_step game x y = some (round_event.no_result, game)) := by
  have h₀ := round_start_of_start_round game₁ game₀ replay inputs hin hstart
  obtain ⟨game, hloop, hinv, _, _⟩ :=
    round_loop_inv shots game₀ (round_inv_of_round_start game₀ h₀) hshots
  obtain ⟨c, hc⟩ := (cell_index_isSome_iff x y).2 hxy
  refine ⟨game, c, hloop, hc, fun hrun hshot => ?_⟩
  obtain ⟨hlt15, hlt30⟩ := hinv.2 hrun
  rw [round_step_shot game hinv.1.1 x y c hc hshot, if_neg (by omega), if_neg (by omega)]

theorem already_shot_turn_unchanged_witness :
    (∀ input ∈ [((0 : Int), (0 : Int), HORIZONTAL), (2, 0, VERTICAL), (0, 1, HORIZONTAL),
      (0, 2, HORIZONTAL)], in_range input) ∧
    start_round sample_game false
      [(0, 0, HORIZONTAL), (2, 0, VERTICAL), (0, 1, HORIZONTAL), (0, 2, HORIZONTAL)]
      = some first_round ∧
    (∀ shot ∈ fourteen_hits, inside shot) ∧ inside ((9 : Int), (9 : Int)) ∧
    ((round_loop first_round fourteen_hits).map
      (fun game => (game.is_game_over,
        ((game.deref game.target_player).board.points 9 9).is_shot))) = some (false, true) ∧
    ∃ (game : game_t) (c : cell_t), round_loop first_round fourteen_hits = some game ∧
      cell_index 9 9 = some c ∧
      (game.is_game_over = false →
        ((game.deref game.target_player).board.points c.1 c.2).is_shot = true →
        round_step game 9 9 = some (round_event.no_result, game)) :=
  ⟨by decide, rfl, by decide, by decide, by decide,
    already_shot_turn_unchanged sample_game first_round false
      [(0, 0, HORIZONTAL), (2, 0, VERTICAL), (0, 1, HORIZONTAL), (0, 2, HORIZONTAL)]
      (by decide) rfl fourteen_hits (by decide) 9 9 (by decide)⟩

/-- C11, as the claim states it, fails: from `first_round`, where player 2 shoots at
player 1, the fresh miss at `(9, 9)` triggers neither the win nor the loss, and after the
pass player 2 is still the shooter and player 1 still the target. -/
theorem no_swap_after_fresh_shot :
    first_round.shooting_player = player_ref.player2 ∧
    first_round.target_player = player_ref.player1 ∧
    ((first_round.deref first_round.target_player).board.points 9 9).is_shot = false ∧
    (round_step first_round 9 9).map
      (fun r => (r.1, r.2.shooting_player, r.2.target_player, r.2.is_game_over))
      = some (round_event.no_result, player_ref.player2, player_ref.player1, false) := by
  decide

/-- C11, amended: in the round loop, after a fresh shot at an in-range cell by a shooter
who is not the target, `shooting_player` and `target_player` are unchanged (the same
player shoots again; the loop never calls `swap_players`), and when the pass triggers
neither the win nor the loss `is_game_over` stays false. -/
theorem same_shooter_after_fresh_shot (game : game_t) (x y : Int)
    (hst : game.shooting_player ≠ game.target_player)
    (hrun : game.is_game_over = false) (hxy : inside (x, y)) :
    ∃ c : cell_t, cell_index x y = some c ∧
      (((game.deref game.target_player).board.points c.1 c.2).is_shot = false →
        ∃ event game', round_step game x y = some (event, game') ∧
          game'.shooting_player = game.shooting_player ∧
          game'.target_player = game.target_player ∧
          (event = round_event.no_result → game'.is_game_over = false)) := by
  obtain ⟨c, hc⟩ := (cell_index_isSome_iff x y).2 hxy
  refine ⟨c, hc, fun hfresh => ?_⟩
  have h1 : (after_fresh_shot game c).shooting_player = game.shooting_player := by
    simp only [after_fresh_shot, assign_shooting_player]
  have h2 : (after_fresh_shot game c).target_player = game.target_player := by
    simp only [after_fresh_shot, assign_target_player]
  have hover : (after_fresh_shot game c).is_game_over = false := by
    simp only [after_fresh_shot, assign_is_game_over, hrun]
  rw [round_step_fresh game hst x y c hc hfresh]
  split_ifs
  · exact ⟨_, _, rfl, by simp [h1], by simp [h2], fun h => by cases h⟩
  · exact ⟨_, _, rfl, by simp [h1], by simp [h2], fun h => by cases h⟩
  · exact ⟨_, _, rfl, h1, h2, fun _ => hover⟩

theorem same_shooter_after_fresh_shot_witness :
    first_round.shooting_player ≠ first_round.target_player ∧
    first_round.is_game_over = false ∧ inside ((9 : Int), (9 : Int)) ∧
    ∃ c : cell_t, cell_index 9 9 = some c ∧
      (((first_round.deref first_round.target_player).board.points c.1 c.2).is_shot = false →
        ∃ event game', round_step first_round 9 9 = some (event, game') ∧
          game'.shooting_player = first_round.shooting_player ∧
          game'.target_player = first_round.target_player ∧
          (event = round_event.no_result → game'.is_game_over = false)) :=
  ⟨by decide, by decide, by decide,
    same_shooter_after_fresh_shot first_round 9 9 (by decide) (by decide) (by decide)⟩

/-! ## Setup -/

/-- When `main` enters the round loop, the shooter's board is the freshly initialised
board: `ask_boats_positions` is only called for the target. -/
theorem start_round_shooter_board (game game₀ : game_t) (replay : Bool)
    (inputs : List (Int × Int × boat_orientation_t))
    (h : start_round game replay inputs = some game₀) :
    ∃ board : board_t,
      (game₀.deref game₀.shooting_player).board = initialize_board board := by
  cases replay with
  | false =>
    simp only [start_round, Bool.false_eq_true, if_false, ask_boats_positions, new_game,
      game_t.deref] at h
    split at h
    · cases h
    · simp only [Option.some.injEq] at h
      subst h
      exact ⟨game.player2.board, rfl⟩
  | true =>
    simp only [start_round, if_true, ask_boats_positions, new_game, swap_players,
      game_t.deref] at h
    split at h
    · cases h
    · simp only [Option.some.injEq] at h
      subst h
      exact ⟨game.player1.board, rfl⟩

/-- C12, as the claim states it, fails: when the loop of the first round is entered in
`first_round`, the board of the shooting player (player 2) holds no ship. -/
theorem shooter_board_empty_at_round_start :
    start_round sample_game false
      [(0, 0, HORIZONTAL), (2, 0, VERTICAL), (0, 1, HORIZONTAL), (0, 2, HORIZONTAL)]
      = some first_round ∧
    first_round.shooting_player = player_ref.player2 ∧
    (first_round.deref player_ref.player2).board.boats_count = 0 ∧
    boat_cells (first_round.deref player_ref.player2).board = ∅ ∧
    (first_round.deref player_ref.player1).board.boats_count = MAX_BOATS_PER_PLAYER := by
  refine ⟨rfl, rfl, rfl, ?_, rfl⟩
  decide

/-- C12, amended: in every round, when the shooting loop begins, the board of the target
player holds exactly `MAX_BOATS_PER_PLAYER` placed ships (`boats_count = 3` and 15 cells
with `has_boat`), and the board of the shooting player, who is the other player, holds
none (`boats_count = 0` and no cell with `has_boat`). -/
theorem setup_at_round_start (game game₀ : game_t) (replay : Bool)
    (inputs : List (Int × Int × boat_orientation_t))
    (hin : ∀ input ∈ inputs, in_range input)
    (hstart : start_round game replay inputs = some game₀) :
    game₀.shooting_player ≠ game₀.target_player ∧
    (game₀.deref game₀.target_player).board.boats_count = MAX_BOATS_PER_PLAYER ∧
    (boat_cells (game₀.deref game₀.target_player).board).card
      = MAX_BOATS_PER_PLAYER * BOAT_SIZE ∧
    (game₀.deref game₀.shooting_player).board.boats_count = 0 ∧
    boat_cells (game₀.deref game₀.shooting_player).board = ∅ := by
  have h₀ := round_start_of_start_round game game₀ replay inputs hin hstart
  obtain ⟨hst, _, _, _, _, hfleet, hfull, _⟩ := h₀
  obtain ⟨board, hboard⟩ := start_round_shooter_board game game₀ replay inputs hstart
  refine ⟨hst, hfull, card_boat_cells _ hfleet hfull, by rw [hboard]; rfl, ?_⟩
  rw [hboard, Finset.eq_empty_iff_forall_not_mem]
  intro c hc
  rw [mem_boat_cells] at hc
  cases hc

theorem setup_at_round_start_witness :
    (∀ input ∈ [((0 : Int), (0 : Int), HORIZONTAL), (2, 0, VERTICAL), (0, 1, HORIZONTAL),
      (0, 2, HORIZONTAL)], in_range input) ∧
    start_round sample_game false
      [(0, 0, HORIZONTAL), (2, 0, VERTICAL), (0, 1, HORIZONTAL), (0, 2, HORIZONTAL)]
      = some first_round ∧
    first_round.shooting_player ≠ first_round.target_player ∧
    (first_round.deref first_round.target_player).board.boats_count
      = MAX_BOATS_PER_PLAYER ∧
    (boat_cells (first_round.deref first_round.target_player).board).card
      = MAX_BOATS_PER_PLAYER * BOAT_SIZE ∧
    (first_round.deref first_round.shooting_player).board.boats_count = 0 ∧
    boat_cells (first_round.deref first_round.shooting_player).board = ∅ :=
  ⟨by decide, rfl,
    setup_at_round_start sample_game first_round false
      [(0, 0, HORIZONTAL), (2, 0, VERTICAL), (0, 1, HORIZONTAL), (0, 2, HORIZONTAL)]
      (by decide) rfl⟩

/-! ## Replay -/

/-- C15: the code at the claim's failing input.  After `new_game` and `swap_players`, as
the replay branch of `main` runs them, the shooter is always player 1 and the target
player 2, whatever the state before.  In the sample session the first round starts with
player 2 shooting at player 1, the second with player 1 shooting at player 2, and the
third again with player 1 shooting at player 2: the shooter of round 3 is not the target
of round 2. -/
theorem replay_shooter_is_player1 :
    (∀ game : game_t,
      (swap_players (new_game game)).shooting_player = player_ref.player1 ∧
      (swap_players (new_game game)).target_player = player_ref.player2) ∧
    first_round.shooting_player = player_ref.player2 ∧
    first_round.target_player = player_ref.player1 ∧
    first_round_end.is_game_over = true ∧
    start_round first_round_end true session_inputs = some second_round ∧
    second_round.shooting_player = player_ref.player1 ∧
    second_round.target_player = player_ref.player2 ∧
    second_round_end.is_game_over = true ∧
    start_round second_round_end true session_inputs = some third_round ∧
    third_round.shooting_player = player_ref.player1 ∧
    third_round.target_player = player_ref.player2 ∧
    third_round.shooting_player ≠ second_round.target_player := by
  refine ⟨fun game => ⟨rfl, rfl⟩, rfl, rfl, ?_, rfl, rfl, rfl, ?_, rfl, rfl, rfl, ?_⟩ <;> decide

/-! ## `print_board` -/

theorem cell_symbol_hidden (p q : point_t) (hshot : p.is_shot = q.is_shot)
    (hboat : p.is_shot = true → p.has_boat = q.has_boat) :
    cell_symbol p false = cell_symbol q false := by
  obtain ⟨ps, pb⟩ := p
  obtain ⟨qs, qb⟩ := q
  simp only at hshot hboat
  subst hshot
  cases ps
  · cases pb <;> cases qb <;> rfl
  · rw [hboat rfl]

theorem length_flatten_uniform {α β : Type} (f : α → List β) (m : Nat)
    (hm : ∀ a, (f a).length = m) (l : List α) :
    ((l.map f).flatten).length = m * l.length := by
  induction l with
  | nil => simp
  | cons a l ih =>
    simp only [List.map_cons, List.flatten_cons, List.length_append, hm, ih, List.length_cons]
    ring

theorem getElem?_flatten_uniform {α β : Type} (f : α → List β) (m : Nat)
    (hm : ∀ a, (f a).length = m) :
    ∀ (l : List α) (i k : Nat), k < m →
      ((l.map f).flatten)[m * i + k]? = (l[i]?).bind (fun a => (f a)[k]?) := by
  intro l
  induction l with
  | nil =>
    intro i k _
    simp
  | cons a l ih =>
    intro i k hk
    cases i with
    | zero =>
      simp only [List.map_cons, List.flatten_cons, Nat.mul_zero, Nat.zero_add,
        List.getElem?_cons_zero, Option.some_bind]
      rw [List.getElem?_append_left (by rw [hm]; exact hk)]
    | succ i =>
      simp only [List.map_cons, List.flatten_cons, List.getElem?_cons_succ]
      rw [List.getElem?_append_right (by rw [hm]; nlinarith)]
      rw [hm, ← ih i k hk]
      congr 1
      rw [Nat.mul_succ]
      omega

theorem header_length :
    ("  " ++ String.join ((List.finRange NUMBER_OF_COLUMNS).map
      (fun i => column_label (i.val + 1))) ++ "\n").data.length = 83 := by
  decide

theorem getElem?_finRange_val (n : Nat) (i : Fin n) : (List.finRange n)[i.val]? = some i := by
  rw [List.getElem?_eq_getElem (by simp)]
  simp

theorem item_length (board : board_t) (show_boats : Bool) (i : Fin NUMBER_OF_ROWS)
    (j : Fin NUMBER_OF_COLUMNS) :
    (" " ++ String.singleton (cell_symbol (board.points j i) show_boats)
      ++ "  ").data.length = 4 :=
  rfl

theorem row_length (board : board_t) (show_boats : Bool) (i : Fin NUMBER_OF_ROWS) :
    (String.singleton (Char.ofNat (i.val + 65)) ++ "  " ++
      String.join ((List.finRange NUMBER_OF_COLUMNS).map (fun j =>
        " " ++ String.singleton (cell_symbol (board.points j i) show_boats) ++ "  ")) ++
      "\n").data.length = 84 := by
  simp only [String.data_append, String.data_join, List.map_map, List.length_append]
  rw [show (String.data ∘ fun j : Fin NUMBER_OF_COLUMNS =>
      " " ++ String.singleton (cell_symbol (board.points j i) show_boats) ++ "  ")
      = (fun j => (" " ++ String.singleton (cell_symbol (board.points j i) show_boats)
          ++ "  ").data) from rfl]
  rw [length_flatten_uniform _ 4 (item_length board show_boats i)]
  rfl

/-- The text of `print_board` holds, at the place of row `i` and column `j`, the symbol of
`points[j][i]`. -/
theorem printed_symbol_print_board (board : board_t) (show_boats : Bool)
    (i : Fin NUMBER_OF_ROWS) (j : Fin NUMBER_OF_COLUMNS) :
    printed_symbol (print_board board show_boats) i j
      = some (cell_symbol (board.points j i) show_boats) := by
  have hi : i.val < 20 := i.isLt
  have hj : j.val < 20 := j.isLt
  unfold printed_symbol print_board
  rw [String.data_append, List.getElem?_append_right (by rw [header_length]; omega),
    header_length]
  rw [show 87 + 84 * i.val + 4 * j.val - 83 = 84 * i.val + (4 + 4 * j.val) by omega,
    String.data_join, List.map_map]
  rw [show (String.data ∘ fun i : Fin NUMBER_OF_ROWS =>
      String.singleton (Char.ofNat (i.val + 65)) ++ "  " ++
        String.join ((List.finRange NUMBER_OF_COLUMNS).map (fun j =>
          " " ++ String.singleton (cell_symbol (board.points j i) show_boats) ++ "  ")) ++
        "\n")
      = (fun i => (String.singleton (Char.ofNat (i.val + 65)) ++ "  " ++
        String.join ((List.finRange NUMBER_OF_COLUMNS).map (fun j =>
          " " ++ String.singleton (cell_symbol (board.points j i) show_boats) ++ "  ")) ++
        "\n").data) from rfl]
  rw [getElem?_flatten_uniform _ 84 (row_length board show_boats) _ i.val (4 + 4 * j.val)
    (by omega), getElem?_finRange_val, Option.some_bind]
  simp only [String.data_append, String.data_join, List.map_map]
  rw [show (String.data ∘ fun j : Fin NUMBER_OF_COLUMNS =>
      " " ++ String.singleton (cell_symbol (board.points j i) show_boats) ++ "  ")
      = (fun j => (" " ++ String.singleton (cell_symbol (board.points j i) show_boats)
          ++ "  ").data) from rfl]
  have hlen := length_flatten_uniform _ 4 (item_length board show_boats i)
    (List.finRange NUMBER_OF_COLUMNS)
  rw [List.getElem?_append_left (by
    simp only [List.length_append, hlen, String.data_singleton, List.length_singleton,
      List.length_finRange]
    show 4 + 4 * j.val < 1 + 2 + 4 * 20
    omega)]
  rw [List.getElem?_append_right (by
    show 3 ≤ 4 + 4 * j.val
    omega)]
  rw [show 4 + 4 * j.val
      - ((String.singleton (Char.ofNat (i.val + 65))).data ++ [' ', ' ']).length
      = 4 * j.val + 1 from by
    show 4 + 4 * j.val - 3 = 4 * j.val + 1
    omega]
  rw [getElem?_flatten_uniform _ 4 (item_length board show_boats i) _ j.val 1 (by omega),
    getElem?_finRange_val, Option.some_bind]
  rfl

/-- The text of `print_board` has 83 characters for the line of column numbers and 84 for
each of the `NUMBER_OF_ROWS` rows. -/
theorem print_board_length (board : board_t) (show_boats : Bool) :
    (print_board board show_boats).data.length = 83 + 84 * NUMBER_OF_ROWS := by
  unfold print_board
  rw [String.data_append, List.length_append, header_length, String.data_join, List.map_map]
  rw [show (String.data ∘ fun i : Fin NUMBER_OF_ROWS =>
      String.singleton (Char.ofNat (i.val + 65)) ++ "  " ++
        String.join ((List.finRange NUMBER_OF_COLUMNS).map (fun j =>
          " " ++ String.singleton (cell_symbol (board.points j i) show_boats) ++ "  ")) ++
        "\n")
      = (fun i => (String.singleton (Char.ofNat (i.val + 65)) ++ "  " ++
        String.join ((List.finRange NUMBER_OF_COLUMNS).map (fun j =>
          " " ++ String.singleton (cell_symbol (board.points j i) show_boats) ++ "  ")) ++
        "\n").data) from rfl]
  rw [length_flatten_uniform _ 84 (row_length board show_boats), List.length_finRange]

theorem cell_symbol_rule (p : point_t) (show_boats : Bool) :
    (cell_symbol p show_boats = 'X' ↔ p.is_shot = true ∧ p.has_boat = true) ∧
    (cell_symbol p show_boats = '>' ↔
      p.has_boat = true ∧ p.is_shot = false ∧ show_boats = true) ∧
    (cell_symbol p show_boats = 'O' ↔ p.is_shot = true ∧ p.has_boat = false) ∧
    (cell_symbol p show_boats = '~' ↔
      ¬ (p.is_shot = true ∧ p.has_boat = true) ∧
      ¬ (p.has_boat = true ∧ p.is_shot = false ∧ show_boats = true) ∧
      ¬ (p.is_shot = true ∧ p.has_boat = false)) := by
  obtain ⟨s, b⟩ := p
  cases s <;> cases b <;> cases show_boats <;> decide

/-- C18: in the text that `print_board` writes, the character at the place of row `i` and
column `j` is the symbol chosen for `points[j][i]`, and the text has the length of the
line of column numbers and twenty rows.  That symbol is `X` exactly when the cell is shot
and has a boat, `>` exactly when it has a boat, is not shot and `show_boats` is true, `O`
exactly when it is shot and has no boat, and `~` in every other case.  Hence with
`show_boats = false` two boards that agree on `is_shot` for every cell and on `has_boat`
for every shot cell are printed as the same text. -/
theorem print_board_hides_unshot_boats :
    (∀ (board : board_t) (show_boats : Bool) (i : Fin NUMBER_OF_ROWS)
      (j : Fin NUMBER_OF_COLUMNS),
      (print_board board show_boats).data.length = 83 + 84 * NUMBER_OF_ROWS ∧
      ∃ symbol : Char,
        printed_symbol (print_board board show_boats) i j = some symbol ∧
        symbol = cell_symbol (board.points j i) show_boats ∧
        (symbol = 'X' ↔
          (board.points j i).is_shot = true ∧ (board.points j i).has_boat = true) ∧
        (symbol = '>' ↔
          (board.points j i).has_boat = true ∧ (board.points j i).is_shot = false ∧
            show_boats = true) ∧
        (symbol = 'O' ↔
          (board.points j i).is_shot = true ∧ (board.points j i).has_boat = false) ∧
        (symbol = '~' ↔
          ¬ ((board.points j i).is_shot = true ∧ (board.points j i).has_boat = true) ∧
          ¬ ((board.points j i).has_boat = true ∧ (board.points j i).is_shot = false ∧
            show_boats = true) ∧
          ¬ ((board.points j i).is_shot = true ∧ (board.points j i).has_boat = false))) ∧
    (∀ (p : point_t) (show_boats : Bool),
      (cell_symbol p show_boats = 'X' ↔ p.is_shot = true ∧ p.has_boat = true) ∧
      (cell_symbol p show_boats = '>' ↔
        p.has_boat = true ∧ p.is_shot = false ∧ show_boats = true) ∧
      (cell_symbol p show_boats = 'O' ↔ p.is_shot = true ∧ p.has_boat = false) ∧
      (cell_symbol p show_boats = '~' ↔
        ¬ (p.is_shot = true ∧ p.has_boat = true) ∧
        ¬ (p.has_boat = true ∧ p.is_shot = false ∧ show_boats = true) ∧
        ¬ (p.is_shot = true ∧ p.has_boat = false))) ∧
    (∀ board₁ board₂ : board_t,
      (∀ i j, (board₁.points i j).is_shot = (board₂.points i j).is_shot) →
      (∀ i j, (board₁.points i j).is_shot = true →
        (board₁.points i j).has_boat = (board₂.points i j).has_boat) →
      print_board board₁ false = print_board board₂ false) := by
  refine ⟨fun board show_boats i j => ⟨print_board_length board show_boats,
    cell_symbol (board.points j i) show_boats,
    printed_symbol_print_board board show_boats i j, rfl,
    cell_symbol_rule (board.points j i) show_boats⟩, cell_symbol_rule, ?_⟩
  intro board₁ board₂ hshot hboat
  have hsym : ∀ i j, cell_symbol (board₁.points j i) false
      = cell_symbol (board₂.points j i) false :=
    fun i j => cell_symbol_hidden _ _ (hshot j i) (hboat j i)
  simp only [print_board, hsym]

set_option maxRecDepth 100000 in
theorem print_board_hides_unshot_boats_witness :
    (∀ i j, (shot_board.points i j).is_shot = (other_fleet_board.points i j).is_shot) ∧
    (∀ i j, (shot_board.points i j).is_shot = true →
      (shot_board.points i j).has_boat = (other_fleet_board.points i j).has_boat) ∧
    (shot_board.points 2 2).has_boat ≠ (other_fleet_board.points 2 2).has_boat ∧
    printed_symbol (print_board shot_board false) 1 4 = some 'X' ∧
    printed_symbol (print_board shot_board true) 2 2 = some '>' ∧
    printed_symbol (print_board shot_board false) 2 2 = some '~' ∧
    print_board shot_board false = print_board other_fleet_board false :=
  ⟨by decide, by decide, by decide,
    (printed_symbol_print_board shot_board false 1 4).trans (by decide),
    (printed_symbol_print_board shot_board true 2 2).trans (by decide),
    (printed_symbol_print_board shot_board false 2 2).trans (by decide),
    print_board_hides_unshot_boats.2.2 shot_board other_fleet_board (by decide) (by decide)⟩

/-! ## Counter consistency -/

theorem counters_consistent_of_fresh (game : game_t) (h : fresh_counters game) :
    counters_consistent game := by
  intro ref
  obtain ⟨h1, h2, h3, _⟩ := h ref
  obtain ⟨_, _, _, h4⟩ := h ref.other
  rw [h1, h2, h3, (card_eq_zero_of_forall_not _ h4).2]
  exact ⟨rfl, rfl⟩

theorem fresh_counters_new_game (game : game_t) :
    fresh_counters (new_game game) ∧ fresh_counters (swap_players (new_game game)) := by
  constructor <;> intro ref <;> cases ref <;> exact ⟨rfl, rfl, rfl, fun _ => rfl⟩

theorem fresh_counters_start_round (game game₀ : game_t) (replay : Bool)
    (inputs : List (Int × Int × boat_orientation_t))
    (hin : ∀ input ∈ inputs, in_range input)
    (h : start_round game replay inputs = some game₀) : fresh_counters game₀ := by
  cases replay with
  | false =>
    simp only [start_round, Bool.false_eq_true, if_false, ask_boats_positions, new_game,
      game_t.deref] at h
    split at h
    · cases h
    · rename_i board hask
      simp only [Option.some.injEq] at h
      subst h
      obtain ⟨_, _, h3⟩ := ask_boats_loop_spec inputs _ _ board
        (fleet_inv_initialize_board game.player1.board) rfl hin hask
      intro ref
      cases ref
      · exact ⟨rfl, rfl, rfl, fun c => (h3 c).trans rfl⟩
      · exact ⟨rfl, rfl, rfl, fun _ => rfl⟩
  | true =>
    simp only [start_round, if_true, ask_boats_positions, new_game, swap_players,
      game_t.deref] at h
    split at h
    · cases h
    · rename_i board hask
      simp only [Option.some.injEq] at h
      subst h
      obtain ⟨_, _, h3⟩ := ask_boats_loop_spec inputs _ _ board
        (fleet_inv_initialize_board game.player2.board) rfl hin hask
      intro ref
      cases ref
      · exact ⟨rfl, rfl, rfl, fun _ => rfl⟩
      · exact ⟨rfl, rfl, rfl, fun c => (h3 c).trans rfl⟩

theorem other_of_ne (s t : player_ref) (h : s ≠ t) : s.other = t ∧ t.other = s := by
  cases s <;> cases t <;> first | exact absurd rfl h | exact ⟨rfl, rfl⟩

theorem scored_board (p : player_t) (hit : Bool) : (scored p hit).board = p.board := by
  cases hit <;> rfl

theorem scored_sum (board : board_t) (c : cell_t) (p : player_t)
    (hsum : p.shoots = p.missed_shots + p.boats_pieces_sunk)
    (hsunk : p.boats_pieces_sunk = (hit_cells board).card)
    (hfresh : (board.points c.1 c.2).is_shot = false) :
    (scored p (board.points c.1 c.2).has_boat).shoots
      = (scored p (board.points c.1 c.2).has_boat).missed_shots
        + (scored p (board.points c.1 c.2).has_boat).boats_pieces_sunk ∧
    (scored p (board.points c.1 c.2).has_boat).boats_pieces_sunk
      = (hit_cells (set_point board c (with_shot (board.points c.1 c.2)))).card := by
  have hnothit : c ∉ hit_cells board := by
    rw [mem_hit_cells, hfresh]
    exact fun h => Bool.false_ne_true h.1
  cases hb : (board.points c.1 c.2).has_boat
  · rw [hit_cells_after_miss board c hb]
    simp only [scored, Bool.false_eq_true, if_false, player_t.inc_shoots,
      player_t.inc_missed_shots]
    exact ⟨by omega, hsunk⟩
  · rw [hit_cells_after_hit board c hb, Finset.card_insert_of_not_mem hnothit]
    simp only [scored, if_true, player_t.inc_shoots, player_t.inc_boats_pieces_sunk]
    exact ⟨by omega, by omega⟩

/-- A call of `shoot_and_print_result` with different shooter and target at an in-range
cell has a defined result and keeps the counters consistent. -/
theorem counters_consistent_shoot (game : game_t) (s t : player_ref) (hst : s ≠ t)
    (x y : Int) (hxy : inside (x, y)) (h : counters_consistent game) :
    ∃ game', shoot_and_print_result game s t x y = some game' ∧
      counters_consistent game' := by
  obtain ⟨c, hc⟩ := (cell_index_isSome_iff x y).2 hxy
  rw [shoot_and_print_result_spec game s t hst x y c hc]
  by_cases hshot : ((game.deref t).board.points c.1 c.2).is_shot = true
  · rw [if_pos hshot]
    exact ⟨game, rfl, h⟩
  · rw [if_neg hshot]
    refine ⟨_, rfl, ?_⟩
    have hfresh : ((game.deref t).board.points c.1 c.2).is_shot = false := by
      simpa using hshot
    obtain ⟨hos, hot⟩ := other_of_ne s t hst
    intro r
    by_cases hr : r = s
    · subst hr
      rw [deref_assign_same, hos, deref_assign_ne _ r t _ hst.symm, deref_assign_same]
      have hs := h r
      rw [hos] at hs
      exact scored_sum (game.deref t).board c (game.deref r) hs.1 hs.2 hfresh
    · have hrt : r = t := by
        cases r <;> cases s <;> cases t <;> simp_all
      subst hrt
      rw [deref_assign_ne _ s r _ hr, deref_assign_same, hot, deref_assign_same, scored_board]
      have ht := h r
      rw [hot] at ht
      exact ht

theorem counters_consistent_shoot_steps
    (steps : List (player_ref × player_ref × Int × Int)) :
    ∀ game : game_t, counters_consistent game →
      (∀ step ∈ steps, step.1 ≠ step.2.1 ∧ inside (step.2.2.1, step.2.2.2)) →
      ∃ game', shoot_steps game steps = some game' ∧ counters_consistent game' := by
  induction steps with
  | nil =>
    intro game h _
    exact ⟨game, rfl, h⟩
  | cons step rest ih =>
    intro game h hsteps
    obtain ⟨s, t, x, y⟩ := step
    obtain ⟨hst, hxy⟩ := hsteps (s, t, x, y) (List.mem_cons_self _ _)
    obtain ⟨game₁, hstep, h₁⟩ := counters_consistent_shoot game s t hst x y hxy h
    obtain ⟨game', hrest, h'⟩ := ih game₁ h₁ (fun st hm => hsteps st (List.mem_cons_of_mem _ hm))
    refine ⟨game', ?_, h'⟩
    simp only [shoot_steps, hstep]
    exact hrest

theorem deref_assign_inc_wins (game : game_t) (r ref : player_ref) :
    ((game.assign r (game.deref r).inc_wins).deref ref).shoots = (game.deref ref).shoots ∧
    ((game.assign r (game.deref r).inc_wins).deref ref).missed_shots
      = (game.deref ref).missed_shots ∧
    ((game.assign r (game.deref r).inc_wins).deref ref).boats_pieces_sunk
      = (game.deref ref).boats_pieces_sunk ∧
    ((game.assign r (game.deref r).inc_wins).deref ref).board = (game.deref ref).board := by
  cases r <;> cases ref <;> exact ⟨rfl, rfl, rfl, rfl⟩

theorem counters_consistent_inc_wins (game : game_t) (r : player_ref)
    (h : counters_consistent game) :
    counters_consistent (game.assign r (game.deref r).inc_wins).set_game_over := by
  intro ref
  obtain ⟨h1, h2, h3, _⟩ := deref_assign_inc_wins game r ref
  obtain ⟨_, _, _, h4⟩ := deref_assign_inc_wins game r ref.other
  simp only [set_game_over_deref]
  rw [h1, h2, h3, h4]
  exact h ref

theorem shoot_and_print_result_players (game game' : game_t) (s t : player_ref)
    (hst : s ≠ t) (x y : Int) (hxy : inside (x, y))
    (h : shoot_and_print_result game s t x y = some game') :
    game'.shooting_player = game.shooting_player ∧
    game'.target_player = game.target_player := by
  obtain ⟨c, hc⟩ := (cell_index_isSome_iff x y).2 hxy
  rw [shoot_and_print_result_spec game s t hst x y c hc] at h
  simp only [Option.some.injEq] at h
  subst h
  split_ifs
  · exact ⟨rfl, rfl⟩
  · simp only [assign_shooting_player, assign_target_player, and_self]

theorem counters_consistent_round_step (game : game_t)
    (hst : game.shooting_player ≠ game.target_player) (x y : Int) (hxy : inside (x, y))
    (h : counters_consistent game) :
    ∃ event game', round_step game x y = some (event, game') ∧ counters_consistent game' ∧
      game'.shooting_player = game.shooting_player ∧
      game'.target_player = game.target_player := by
  obtain ⟨game₁, hsar, h₁⟩ := counters_consistent_shoot game _ _ hst x y hxy h
  obtain ⟨hs, ht⟩ := shoot_and_print_result_players game game₁ _ _ hst x y hxy hsar
  simp only [round_step, hsar]
  split_ifs
  · exact ⟨_, _, rfl, counters_consistent_inc_wins game₁ _ h₁, by simp [hs], by simp [ht]⟩
  · exact ⟨_, _, rfl, counters_consistent_inc_wins game₁ _ h₁, by simp [hs], by simp [ht]⟩
  · exact ⟨_, _, rfl, h₁, hs, ht⟩

theorem counters_consistent_round_loop (shots : List (Int × Int)) :
    ∀ game : game_t, game.shooting_player ≠ game.target_player →
      counters_consistent game → (∀ shot ∈ shots, inside shot) →
      ∃ game', round_loop game shots = some game' ∧ counters_consistent game' := by
  induction shots with
  | nil =>
    intro game _ h _
    exact ⟨game, rfl, h⟩
  | cons shot rest ih =>
    intro game hst h hin
    obtain ⟨x, y⟩ := shot
    cases hover : game.is_game_over with
    | true =>
      refine ⟨game, ?_, h⟩
      simp only [round_loop, hover, if_true]
    | false =>
      obtain ⟨event, game₁, hstep, h₁, hs, ht⟩ :=
        counters_consistent_round_step game hst x y (hin (x, y) (List.mem_cons_self _ _)) h
      obtain ⟨game', hloop, h'⟩ := ih game₁ (by rw [hs, ht]; exact hst) h₁
        (fun sh hm => hin sh (List.mem_cons_of_mem _ hm))
      refine ⟨game', ?_, h'⟩
      simp only [round_loop, hover, Bool.false_eq_true, if_false, hstep]
      exact hloop

theorem counters_consistent_full (game : game_t) (h : counters_consistent game) :
    ∀ ref : player_ref,
      (game.deref ref).shoots
        = (game.deref ref).missed_shots + (game.deref ref).boats_pieces_sunk ∧
      (game.deref ref).boats_pieces_sunk = (hit_cells (game.deref ref.other).board).card ∧
      (game.deref ref).boats_pieces_sunk ≤ (boat_cells (game.deref ref.other).board).card := by
  intro ref
  obtain ⟨h1, h2⟩ := h ref
  refine ⟨h1, h2, ?_⟩
  rw [h2]
  exact Finset.card_le_card (hit_cells_subset_boat_cells _)

/-- C20: in every game state reached from `new_game`, or from the state in which `main`
enters the round loop (`new_game`, the swap of a replay, the placement of the target's
ships), through any sequence of `shoot_and_print_result` calls whose shooter and target
are different players and whose coordinates are in range, and in every state the round
loop itself reaches, each player's `shoots` equals `missed_shots + boats_pieces_sunk`,
and each player's `boats_pieces_sunk` equals the number of cells of the opponent's board
(the board that player shoots at) that are both shot and have a boat, hence is at most
the number of ship cells there. -/
theorem counters_consistent_reachable :
    (∀ (game₁ : game_t) (steps : List (player_ref × player_ref × Int × Int)),
      (∀ step ∈ steps, step.1 ≠ step.2.1 ∧ inside (step.2.2.1, step.2.2.2)) →
      ∃ game, shoot_steps (new_game game₁) steps = some game ∧
        ∀ ref : player_ref,
          (game.deref ref).shoots
            = (game.deref ref).missed_shots + (game.deref ref).boats_pieces_sunk ∧
          (game.deref ref).boats_pieces_sunk
            = (hit_cells (game.deref ref.other).board).card ∧
          (game.deref ref).boats_pieces_sunk
            ≤ (boat_cells (game.deref ref.other).board).card) ∧
    (∀ (game₁ game₀ : game_t) (replay : Bool)
      (inputs : List (Int × Int × boat_orientation_t))
      (steps : List (player_ref × player_ref × Int × Int)),
      (∀ input ∈ inputs, in_range input) →
      start_round game₁ replay inputs = some game₀ →
      (∀ step ∈ steps, step.1 ≠ step.2.1 ∧ inside (step.2.2.1, step.2.2.2)) →
      ∃ game, shoot_steps game₀ steps = some game ∧
        ∀ ref : player_ref,
          (game.deref ref).shoots
            = (game.deref ref).missed_shots + (game.deref ref).boats_pieces_sunk ∧
          (game.deref ref).boats_pieces_sunk
            = (hit_cells (game.deref ref.other).board).card ∧
          (game.deref ref).boats_pieces_sunk
            ≤ (boat_cells (game.deref ref.other).board).card) ∧
    (∀ (game₁ game₀ : game_t) (replay : Bool)
      (inputs : List (Int × Int × boat_orientation_t)) (shots : List (Int × Int)),
      (∀ input ∈ inputs, in_range input) →
      start_round game₁ replay inputs = some game₀ →
      (∀ shot ∈ shots, inside shot) →
      ∃ game, round_loop game₀ shots = some game ∧
        game.shooting_player.other = game.target_player ∧
        ∀ ref : player_ref,
          (game.deref ref).shoots
            = (game.deref ref).missed_shots + (game.deref ref).boats_pieces_sunk ∧
          (game.deref ref).boats_pieces_sunk
            = (hit_cells (game.deref ref.other).board).card ∧
          (game.deref ref).boats_pieces_sunk
            ≤ (boat_cells (game.deref ref.other).board).card) := by
  refine ⟨?_, ?_, ?_⟩
  · intro game₁ steps hsteps
    obtain ⟨game, hrun, h⟩ := counters_consistent_shoot_steps steps (new_game game₁)
      (counters_consistent_of_fresh _ (fresh_counters_new_game game₁).1) hsteps
    exact ⟨game, hrun, counters_consistent_full game h⟩
  · intro game₁ game₀ replay inputs steps hin hstart hsteps
    obtain ⟨game, hrun, h⟩ := counters_consistent_shoot_steps steps game₀
      (counters_consistent_of_fresh _
        (fresh_counters_start_round game₁ game₀ replay inputs hin hstart)) hsteps
    exact ⟨game, hrun, counters_consistent_full game h⟩
  · intro game₁ game₀ replay inputs shots hin hstart hshots
    have h₀ := round_start_of_start_round game₁ game₀ replay inputs hin hstart
    obtain ⟨game, hloop, h⟩ := counters_consistent_round_loop shots game₀ h₀.1
      (counters_consistent_of_fresh _
        (fresh_counters_start_round game₁ game₀ replay inputs hin hstart)) hshots
    obtain ⟨game', hloop', hinv, _, _⟩ :=
      round_loop_inv shots game₀ (round_inv_of_round_start game₀ h₀) hshots
    rw [hloop] at hloop'
    cases hloop'
    exact ⟨game, hloop, (other_of_ne _ _ hinv.1.1).1, counters_consistent_full game h⟩

set_option maxRecDepth 100000 in
theorem counters_consistent_reachable_witness :
    (∀ step ∈ sample_steps, step.1 ≠ step.2.1 ∧ inside (step.2.2.1, step.2.2.2)) ∧
    (∀ input ∈ [((0 : Int), (0 : Int), HORIZONTAL), (2, 0, VERTICAL), (0, 1, HORIZONTAL),
      (0, 2, HORIZONTAL)], in_range input) ∧
    start_round sample_game false
      [(0, 0, HORIZONTAL), (2, 0, VERTICAL), (0, 1, HORIZONTAL), (0, 2, HORIZONTAL)]
      = some first_round ∧
    (∀ shot ∈ fourteen_hits, inside shot) ∧
    ((round_loop first_round fourteen_hits).map (fun game =>
      ((game.deref player_ref.player2).shoots, (game.deref player_ref.player2).missed_shots,
        (game.deref player_ref.player2).boats_pieces_sunk))) = some (15, 1, 14) ∧
    (∃ game, shoot_steps (new_game sample_game) sample_steps = some game ∧
      ∀ ref : player_ref,
        (game.deref ref).shoots
          = (game.deref ref).missed_shots + (game.deref ref).boats_pieces_sunk ∧
        (game.deref ref).boats_pieces_sunk
          = (hit_cells (game.deref ref.other).board).card ∧
        (game.deref ref).boats_pieces_sunk
          ≤ (boat_cells (game.deref ref.other).board).card) ∧
    (∃ game, shoot_steps first_round sample_steps = some game ∧
      ∀ ref : player_ref,
        (game.deref ref).shoots
          = (game.deref ref).missed_shots + (game.deref ref).boats_pieces_sunk ∧
        (game.deref ref).boats_pieces_sunk
          = (hit_cells (game.deref ref.other).board).card ∧
        (game.deref ref).boats_pieces_sunk
          ≤ (boat_cells (game.deref ref.other).board).card) ∧
    (∃ game, round_loop first_round fourteen_hits = some game ∧
      game.shooting_player.other = game.target_player ∧
      ∀ ref : player_ref,
        (game.deref ref).shoots
          = (game.deref ref).missed_shots + (game.deref ref).boats_pieces_sunk ∧
        (game.deref ref).boats_pieces_sunk
          = (hit_cells (game.deref ref.other).board).card ∧
        (game.deref ref).boats_pieces_sunk
          ≤ (boat_cells (game.deref ref.other).board).card) :=
  ⟨by decide, by decide, rfl, by decide, by decide,
    counters_consistent_reachable.1 sample_game sample_steps (by decide),
    counters_consistent_reachable.2.1 sample_game first_round false
      [(0, 0, HORIZONTAL), (2, 0, VERTICAL), (0, 1, HORIZONTAL), (0, 2, HORIZONTAL)]
      sample_steps (by decide) rfl (by decide),
    counters_consistent_reachable.2.2 sample_game first_round false
      [(0, 0, HORIZONTAL), (2, 0, VERTICAL), (0, 1, HORIZONTAL), (0, 2, HORIZONTAL)]
      fourteen_hits (by decide) rfl (by decide)⟩

end Battleship
